import Mathlib

/-!
qrysm: a verification development

A shallow embedding of parts of the qrysm beacon-chain client and theorems
about them:

* `state_native`: the eth1 setters of the versioned state container
  (`beacon-chain/state/state-native/setters_eth1.go`), over an explicit Go heap
  of backing arrays and shared reference counters, and the protobuf getters of
  `getters_state.go`;
* `stateutil`: the sync-committee hash-tree root
  (`beacon-chain/state/stateutil/sync_committee.root.go`);
* `transition`: the no-verify state-transition pipeline exercised by
  `beacon-chain/core/transition/transition_no_verify_sig_test.go`, and slot
  processing;
* `consensus_types`: the unsupported-getter error (`consensus-types/types.go`);
* `slots`: the slot tickers (`time/slots/slotticker.go`);
* `validator`: the aggregation of sync committee messages
  (`beacon-chain/rpc/prysm/v1alpha1/validator`);
* `beacon_api`: the REST block converters
  (`validator/client/beacon-api/beacon_block_converter.go`) and the wait for
  the chain start (`validator/client/beacon-api/genesis.go`);
* `beacon`: the validation of a block broadcast
  (`beacon-chain/rpc/eth/beacon/handlers.go`) and the submission of sync
  committee signatures (`beacon-chain/rpc/eth/beacon/sync_committee.go`).

Go values are embedded as follows: `uint64` is `Nat` (reduced modulo `2 ^ 64`
where a conversion could wrap), a byte string is a list of numbers, a pointer
that may be nil is an `Option`, a run-time panic is `Except.error`, and the
`error` result of a Go function is an `Option String` (`none` is `nil`).
Mutexes are not modelled: every operation is taken as one atomic step.
-/

/-- A Go byte string, one number per byte. -/
abbrev Bytes := List Nat

/-- A 32-byte chunk (`[32]byte`), kept as its list of bytes. -/
abbrev Chunk := List Nat

namespace state_native

/-- The message `zondpb.Eth1Data`. -/
structure Eth1Data where
  DepositRoot : Bytes
  DepositCount : Nat
  BlockHash : Bytes
deriving DecidableEq, Repr

/-- Modelled from the spec: the type `types.FieldIndex` of
`beacon-chain/state/state-native/types`, which is not among the sources; one
constructor per field of the data model (spec section 3). -/
inductive FieldIndex where
  | GenesisTime | GenesisValidatorsRoot | Slot | Fork | LatestBlockHeader
  | BlockRoots | StateRoots | HistoricalRoots
  | Eth1Data | Eth1DataVotes | Eth1DepositIndex
  | Validators | Balances | RandaoMixes | Slashings
  | PreviousEpochAttestations | CurrentEpochAttestations
  | PreviousEpochParticipationBits | CurrentEpochParticipationBits
  | JustificationBits | PreviousJustifiedCheckpoint | CurrentJustifiedCheckpoint
  | FinalizedCheckpoint | InactivityScores | CurrentSyncCommittee | NextSyncCommittee
  | LatestExecutionPayloadHeader | LatestExecutionPayloadHeaderCapella
  | NextWithdrawalIndex | NextWithdrawalValidatorIndex | HistoricalSummaries
deriving DecidableEq, Repr

/-- A Go slice header over a backing array of `*zondpb.Eth1Data`: the address of
the array, the length and the capacity. The nil slice has length and capacity
zero. -/
structure Slice where
  arr : Nat
  len : Nat
  cap : Nat
deriving DecidableEq, Repr

/-- The part of the Go heap the eth1 setters touch: the backing arrays of vote
slices (an array cell holds a pointer, `none` for nil) and the
`stateutil.Reference` counters, both addressed by their position. -/
structure Heap where
  arrays : List (List (Option Eth1Data))
  refs : List Nat
deriving DecidableEq, Repr

/-- The message `zondpb.Validator`. -/
structure Validator where
  PublicKey : Bytes
  WithdrawalCredentials : Bytes
  EffectiveBalance : Nat
  Slashed : Bool
  ActivationEligibilityEpoch : Nat
  ActivationEpoch : Nat
  ExitEpoch : Nat
  WithdrawableEpoch : Nat
deriving DecidableEq, Repr

/-- The fields of `BeaconState` that the eth1 setters and the getters of
`getters_state.go` read or write. Messages whose content no function here
looks into (fork, block header, checkpoints, pending attestations, sync
committees, execution payload headers, historical summaries) are kept as their
encodings; a pointer that may be nil is an `Option`. -/
structure BeaconState where
  version : Nat
  genesisTime : Nat
  genesisValidatorsRoot : Chunk
  slot : Nat
  fork : Option Bytes
  latestBlockHeader : Option Bytes
  blockRoots : Option (List Chunk)
  stateRoots : Option (List Chunk)
  historicalRoots : Option (List Chunk)
  eth1Data : Option Eth1Data
  eth1DataVotes : Slice
  eth1DepositIndex : Nat
  validators : List Validator
  balances : List Nat
  randaoMixes : Option (List Chunk)
  slashings : List Nat
  previousEpochAttestations : List Bytes
  currentEpochAttestations : List Bytes
  previousEpochParticipation : Bytes
  currentEpochParticipation : Bytes
  justificationBits : Bytes
  previousJustifiedCheckpoint : Option Bytes
  currentJustifiedCheckpoint : Option Bytes
  finalizedCheckpoint : Option Bytes
  inactivityScores : List Nat
  currentSyncCommittee : Option Bytes
  nextSyncCommittee : Option Bytes
  latestExecutionPayloadHeader : Option Bytes
  latestExecutionPayloadHeaderCapella : Option Bytes
  nextWithdrawalIndex : Nat
  nextWithdrawalValidatorIndex : Nat
  historicalSummaries : List Bytes
  dirtyFields : FieldIndex → Bool
  dirtyIndices : FieldIndex → List Nat
  rebuildTrie : FieldIndex → Bool
  sharedFieldReferences : FieldIndex → Option Nat

/-- The result of a setter: the heap and the state after the call and the
returned `error`. -/
structure SetterResult where
  heap : Heap
  state : BeaconState
  err : Option String

/-- Update of a Go map at one key. -/
def setAt {α : Type} (m : FieldIndex → α) (k : FieldIndex) (v : α) : FieldIndex → α :=
  fun j => if j = k then v else m j

/-- The elements a slice shows: the first `len` cells of its backing array. A
slice of length zero shows nothing, whatever its array. -/
def readSlice (h : Heap) (s : Slice) : Option (List (Option Eth1Data)) :=
  if s.len = 0 then some []
  else
    match h.arrays[s.arr]? with
    | none => none
    | some a => if s.len ≤ a.length then some (a.take s.len) else none

/-- Modelled from the spec: `(*stateutil.Reference).Refs`, not among the
sources; the current count of a shared reference. A nil receiver panics. -/
def Refs (h : Heap) (r : Option Nat) : Except String Nat :=
  match r with
  | none => .error "nil pointer dereference"
  | some p =>
    match h.refs[p]? with
    | none => .error "nil pointer dereference"
    | some c => .ok c

/-- Modelled from the spec: `(*stateutil.Reference).MinusRef`, not among the
sources; "decrements the shared reference count of the original", and leaves a
count of zero alone. -/
def MinusRef (h : Heap) (r : Option Nat) : Except String Heap :=
  match r with
  | none => .error "nil pointer dereference"
  | some p =>
    match h.refs[p]? with
    | none => .error "nil pointer dereference"
    | some c => .ok { h with refs := h.refs.set p (if 0 < c then c - 1 else c) }

/-- Modelled from the spec: `stateutil.NewRef`, not among the sources; allocates
a new reference with the given count and returns its address. -/
def NewRef (h : Heap) (refs : Nat) : Heap × Nat :=
  ({ h with refs := h.refs ++ [refs] }, h.refs.length)

/-- Go `make([]*zondpb.Eth1Data, n)`: a new array of `n` nil pointers. -/
def makeSlice (h : Heap) (n : Nat) : Heap × Slice :=
  ({ h with arrays := h.arrays ++ [List.replicate n none] },
   { arr := h.arrays.length, len := n, cap := n })

/-- Go `copy(dst, src)`: writes the first `min(len(dst), len(src))` elements of
`src` over those of `dst`. -/
def copySlice (h : Heap) (dst src : Slice) : Except String Heap :=
  match readSlice h src, readSlice h dst with
  | some xs, some _ =>
    let n := min dst.len src.len
    if n = 0 then .ok h
    else
      match h.arrays[dst.arr]? with
      | none => .error "invalid slice"
      | some a => .ok { h with arrays := h.arrays.set dst.arr (xs.take n ++ a.drop n) }
  | _, _ => .error "invalid slice"

/-- The capacity the Go runtime gives a slice that must grow to `newLen`:
doubling for small slices, growth by a quarter beyond 256 elements (the
rounding to an allocation size class is left out; only `newLen ≤ growCap` is
ever relied on). -/
def growCap (oldCap newLen : Nat) : Nat :=
  if 2 * oldCap < newLen then newLen
  else if oldCap < 256 then 2 * oldCap
  else max newLen (oldCap + (oldCap + 768) / 4)

/-- Go `append(s, v)`: writes in place when the capacity allows, otherwise moves
the elements to a new, larger array. -/
def appendSlice (h : Heap) (s : Slice) (v : Option Eth1Data) : Except String (Heap × Slice) :=
  match readSlice h s with
  | none => .error "invalid slice"
  | some xs =>
    if s.len < s.cap then
      match h.arrays[s.arr]? with
      | none => .error "invalid slice"
      | some a =>
        if s.cap ≤ a.length then
          .ok ({ h with arrays := h.arrays.set s.arr (a.set s.len v) },
               { s with len := s.len + 1 })
        else .error "invalid slice"
    else
      let c := growCap s.cap (s.len + 1)
      .ok ({ h with arrays := h.arrays ++ [xs ++ [v] ++ List.replicate (c - (s.len + 1)) none] },
           { arr := h.arrays.length, len := s.len + 1, cap := c })

/-- Modelled from the spec: `(*BeaconState).markFieldAsDirty`, a helper that is
not among the sources ("dirty-field tracking for efficient re-hashing"): the
field is entered in the set of dirty fields. -/
def markFieldAsDirty (b : BeaconState) (field : FieldIndex) : BeaconState :=
  { b with dirtyFields := setAt b.dirtyFields field true }

/-- The bound on the dirty indices tracked for one field (`indicesLimit`). -/
def indicesLimit : Nat := 8000

/-- Modelled from the spec: `(*BeaconState).addDirtyIndices`, a helper that is
not among the sources; as in the upstream state-native package, the indices
are recorded for the field unless its trie is already due to be rebuilt, and
past `indicesLimit` recorded indices the whole trie is rebuilt instead. -/
def addDirtyIndices (b : BeaconState) (index : FieldIndex) (indices : List Nat) : BeaconState :=
  if b.rebuildTrie index then b
  else if indicesLimit < (b.dirtyIndices index).length + indices.length then
    { b with rebuildTrie := setAt b.rebuildTrie index true,
             dirtyIndices := setAt b.dirtyIndices index [] }
  else
    { b with dirtyIndices := setAt b.dirtyIndices index (b.dirtyIndices index ++ indices) }

/-- The setter `SetEth1Data` for the beacon state. -/
def SetEth1Data (h : Heap) (b : BeaconState) (val : Option Eth1Data) : Except String SetterResult :=
  let b1 := { b with eth1Data := val }
  .ok ⟨h, markFieldAsDirty b1 FieldIndex.Eth1Data, none⟩

/-- The setter `SetEth1DataVotes` for the beacon state: the whole list is replaced. The new
slice `val` is one the caller built on the heap. -/
def SetEth1DataVotes (h : Heap) (b : BeaconState) (val : Slice) : Except String SetterResult := do
  let h1 ← MinusRef h (b.sharedFieldReferences FieldIndex.Eth1DataVotes)
  let (h2, r) := NewRef h1 1
  let b1 := { b with sharedFieldReferences :=
                setAt b.sharedFieldReferences FieldIndex.Eth1DataVotes (some r) }
  let b2 := { b1 with eth1DataVotes := val }
  let b3 := markFieldAsDirty b2 FieldIndex.Eth1DataVotes
  let b4 := { b3 with rebuildTrie := setAt b3.rebuildTrie FieldIndex.Eth1DataVotes true }
  pure ⟨h2, b4, none⟩

/-- The setter `SetEth1DepositIndex` for the beacon state. -/
def SetEth1DepositIndex (h : Heap) (b : BeaconState) (val : Nat) : Except String SetterResult :=
  let b1 := { b with eth1DepositIndex := val }
  .ok ⟨h, markFieldAsDirty b1 FieldIndex.Eth1DepositIndex, none⟩

/-- The copy-on-write branch of `AppendEth1DataVotes`, taken when the votes are
shared: the elements are copied into a new array, the shared reference is
released and a new one with count 1 is installed. -/
def detachVotes (h : Heap) (b : BeaconState) : Except String (Heap × BeaconState × Slice) := do
  let (h1, votes) := makeSlice h b.eth1DataVotes.len
  let h2 ← copySlice h1 votes b.eth1DataVotes
  let h3 ← MinusRef h2 (b.sharedFieldReferences FieldIndex.Eth1DataVotes)
  let (h4, r) := NewRef h3 1
  pure (h4, { b with sharedFieldReferences :=
                setAt b.sharedFieldReferences FieldIndex.Eth1DataVotes (some r) }, votes)

/-- The setter `AppendEth1DataVotes` for the beacon state: appends the new value to the end
of the list. The conversion `uint64(len(..) - 1)` is exact, the length being at
least 1 after the append. -/
def AppendEth1DataVotes (h : Heap) (b : BeaconState) (val : Option Eth1Data) :
    Except String SetterResult := do
  let refs ← Refs h (b.sharedFieldReferences FieldIndex.Eth1DataVotes)
  let (h1, b1, votes) ←
    if 1 < refs then detachVotes h b else pure (h, b, b.eth1DataVotes)
  let (h2, s) ← appendSlice h1 votes val
  let b2 := { b1 with eth1DataVotes := s }
  let b3 := markFieldAsDirty b2 FieldIndex.Eth1DataVotes
  let b4 := addDirtyIndices b3 FieldIndex.Eth1DataVotes [b3.eth1DataVotes.len - 1]
  pure ⟨h2, b4, none⟩

/-- A state with no votes, no eth1 data and a shared reference for the votes at
address 0, used to build concrete states. -/
def baseState : BeaconState where
  version := 0
  genesisTime := 0
  genesisValidatorsRoot := List.replicate 32 0
  slot := 0
  fork := none
  latestBlockHeader := none
  blockRoots := some []
  stateRoots := some []
  historicalRoots := some []
  eth1Data := none
  eth1DataVotes := { arr := 0, len := 0, cap := 0 }
  eth1DepositIndex := 0
  validators := []
  balances := []
  randaoMixes := some []
  slashings := []
  previousEpochAttestations := []
  currentEpochAttestations := []
  previousEpochParticipation := []
  currentEpochParticipation := []
  justificationBits := [0]
  previousJustifiedCheckpoint := none
  currentJustifiedCheckpoint := none
  finalizedCheckpoint := none
  inactivityScores := []
  currentSyncCommittee := none
  nextSyncCommittee := none
  latestExecutionPayloadHeader := none
  latestExecutionPayloadHeaderCapella := none
  nextWithdrawalIndex := 0
  nextWithdrawalValidatorIndex := 0
  historicalSummaries := []
  dirtyFields := fun _ => false
  dirtyIndices := fun _ => []
  rebuildTrie := fun _ => false
  sharedFieldReferences := fun f => if f = FieldIndex.Eth1DataVotes then some 0 else none

/-- A slice is valid on a heap when its length is within its capacity and its
capacity within its backing array (a slice of capacity zero needs no array):
what Go guarantees of every slice value. -/
def Slice.valid (h : Heap) (s : Slice) : Prop :=
  s.len ≤ s.cap ∧ (s.cap = 0 ∨ ∃ a, h.arrays[s.arr]? = some a ∧ s.cap ≤ a.length)

/-- A vote, as in the transition tests. -/
def voteA : Eth1Data := { DepositRoot := [2], DepositCount := 100, BlockHash := [0] }

/-- Another vote. -/
def voteB : Eth1Data := { DepositRoot := [3], DepositCount := 101, BlockHash := [1] }

/-- A heap on which one vote list is shared by two states (count 2). -/
def sharedHeap : Heap := { arrays := [[some voteA]], refs := [2] }

/-- A state holding the shared vote list of `sharedHeap`. -/
def sharedState : BeaconState := { baseState with eth1DataVotes := { arr := 0, len := 1, cap := 1 } }

/-- A heap on which one vote list is held by a single state, with spare capacity. -/
def ownedHeap : Heap := { arrays := [[some voteA, none]], refs := [1] }

/-- A state holding the vote list of `ownedHeap`. -/
def ownedState : BeaconState := { baseState with eth1DataVotes := { arr := 0, len := 1, cap := 2 } }

/-- A state whose deposit index is 5. -/
def depositState : BeaconState := { baseState with eth1DepositIndex := 5 }

/-- The state of `ownedHeap` with the trie of the votes due to be rebuilt, as
`SetEth1DataVotes` leaves it. -/
def rebuildState : BeaconState :=
  { ownedState with rebuildTrie := fun f => decide (f = FieldIndex.Eth1DataVotes) }

end state_native

namespace stateutil

/-- The message `zondpb.SyncCommittee`. -/
structure SyncCommittee where
  Pubkeys : List Bytes
  AggregatePubkey : Bytes
deriving DecidableEq, Repr

/-- The size of a Merkle chunk in bytes (`bytesPerChunk`). -/
def bytesPerChunk : Nat := 32

/-- The all-zero chunk, `[32]byte{}`. -/
def zeroChunk : Chunk := List.replicate 32 0

/-- Modelled from the spec: `bytesutil.ToBytes32`, not among the sources; the
first 32 bytes of the input, right-padded with zero bytes to 32. -/
def ToBytes32 (x : Bytes) : Chunk :=
  x.take 32 ++ List.replicate (32 - x.length) 0

/-- The chunking loop of `PackByChunk`: one chunk for each started run of 32
bytes, the last one right-padded with zero bytes. The first argument bounds the
number of rounds; `PackByChunk` passes the number of bytes. -/
def packLoop : Nat → Bytes → List Chunk
  | 0, _ => []
  | fuel + 1, items =>
    if items.length = 0 then []
    else ToBytes32 (items.take bytesPerChunk) :: packLoop fuel (items.drop bytesPerChunk)

/-- Modelled from the spec: `ssz.PackByChunk`, not among the sources ("pack small
scalars/bytes into 32-byte chunks"): items that are already one chunk long are
taken as they are, otherwise the items are concatenated and cut into 32-byte
chunks; no bytes at all gives a single zero chunk. -/
def PackByChunk (serializedItems : List Bytes) : Except String (List Chunk) :=
  match serializedItems with
  | [] => .ok [zeroChunk]
  | first :: _ =>
    if first.length = bytesPerChunk then .ok (serializedItems.map ToBytes32)
    else
      let orderedItems := serializedItems.flatten
      if orderedItems.length = 0 then .ok [zeroChunk]
      else .ok (packLoop orderedItems.length orderedItems)

/-- Modelled from the spec: `ssz.Depth`, not among the sources ("a computed tree
depth"): 0 for at most one leaf, otherwise the number of bits of `v - 1`. -/
def Depth (v : Nat) : Nat :=
  if v ≤ 1 then 0 else Nat.log2 (v - 1) + 1

/-- Modelled from the spec: the table `trie.ZeroHashes`, not among the sources
("precomputed hash of an all-zero subtree at each depth"): entry 0 is the zero
chunk and entry `i + 1` the hash of two copies of entry `i`. The function `H`
is SHA-256 of the 64 bytes of two chunks. -/
def ZeroHashes (H : Chunk → Chunk → Chunk) : Nat → Chunk
  | 0 => zeroChunk
  | i + 1 => H (ZeroHashes H i) (ZeroHashes H i)

/-- Modelled from the spec: `htr.VectorizedSha256`, not among the sources
("pairwise SHA-256 combination"): output `k` is the hash of inputs `2k` and
`2k + 1`. -/
def VectorizedSha256 (H : Chunk → Chunk → Chunk) : List Chunk → List Chunk
  | a :: b :: rest => H a b :: VectorizedSha256 H rest
  | _ => []

/-- The loop `for i := uint8(0); i < depth; i++` shared by `merkleizePubkey` and
`MerkleizeVector`, entered at level `i` with `depth - i` rounds to go: a level
of odd length gets `trie.ZeroHashes[i]` appended, then the level is halved. -/
def hashLevels (H : Chunk → Chunk → Chunk) : Nat → Nat → List Chunk → List Chunk
  | 0, _, chunks => chunks
  | rounds + 1, i, chunks =>
    let chunks1 := if chunks.length % 2 = 1 then chunks ++ [ZeroHashes H i] else chunks
    hashLevels H rounds (i + 1) (VectorizedSha256 H chunks1)

/-- The function `merkleizePubkey`. -/
def merkleizePubkey (H : Chunk → Chunk → Chunk) (pubkey : Bytes) : Except String Chunk :=
  if pubkey.length = 0 then .error "zero length pubkey provided"
  else
    match PackByChunk [pubkey] with
    | .error e => .error e
    | .ok chunks =>
      let depth := Depth chunks.length
      match hashLevels H depth 0 chunks with
      | c :: _ => .ok c
      | [] => .error "index out of range"

/-- Modelled from the spec: `ssz.MerkleizeVector`, not among the sources: the
zero hash of the depth for no elements, otherwise the same level loop as
`merkleizePubkey`. -/
def MerkleizeVector (H : Chunk → Chunk → Chunk) (elements : List Chunk) (length : Nat) :
    Except String Chunk :=
  let depth := Depth length
  if elements.length = 0 then .ok (ZeroHashes H depth)
  else
    match hashLevels H depth 0 elements with
    | c :: _ => .ok c
    | [] => .error "index out of range"

/-- Modelled from the spec: `ssz.BitwiseMerkleize`, not among the sources: refuses
more chunks than the limit, otherwise Merkleizes the chunks as a vector of
`limit` elements. -/
def BitwiseMerkleize (H : Chunk → Chunk → Chunk) (chunks : List Chunk) (count limit : Nat) :
    Except String Chunk :=
  if limit < count then .error "merkleizing list that is too large, over limit"
  else MerkleizeVector H chunks limit

/-- The first loop of `SyncCommitteeRoot`: the root of every member pubkey, in
order, stopping at the first error. -/
def pubKeyRoots (H : Chunk → Chunk → Chunk) : List Bytes → Except String (List Chunk)
  | [] => .ok []
  | pubkey :: rest =>
    match merkleizePubkey H pubkey with
    | .error e => .error e
    | .ok r =>
      match pubKeyRoots H rest with
      | .error e => .error e
      | .ok rs => .ok (r :: rs)

/-- The function `SyncCommitteeRoot`: the hash-tree root of a sync committee.
The conversions `uint64(len(..))` are exact, a Go length being a non-negative
`int`. -/
def SyncCommitteeRoot (H : Chunk → Chunk → Chunk) (committee : Option SyncCommittee) :
    Except String Chunk :=
  match committee with
  | none => .ok zeroChunk
  | some c =>
    match pubKeyRoots H c.Pubkeys with
    | .error e => .error e
    | .ok roots =>
      match BitwiseMerkleize H roots roots.length roots.length with
      | .error e => .error e
      | .ok pubkeyRoot =>
        match merkleizePubkey H c.AggregatePubkey with
        | .error e => .error e
        | .ok aggregateKeyRoot =>
          let fieldRoots := [pubkeyRoot, aggregateKeyRoot]
          BitwiseMerkleize H fieldRoots fieldRoots.length fieldRoots.length

/-- The number of leaves of the smallest full binary tree with at least `n`
leaves: the next power of two. -/
def nextPowerOfTwo (n : Nat) : Nat := 2 ^ Nat.clog 2 n

/-- The root of the full binary Merkle tree of height `d` over `2 ^ d` leaves,
defined from the top: a leaf is its own root, and the root of a taller tree is
the hash of the roots of its left and right halves. -/
def fullTreeRoot (H : Chunk → Chunk → Chunk) : Nat → List Chunk → Chunk
  | 0, leaves => leaves.headD zeroChunk
  | d + 1, leaves =>
    H (fullTreeRoot H d (leaves.take (2 ^ d))) (fullTreeRoot H d (leaves.drop (2 ^ d)))

/-- The Merkle root of a list of chunks by the definition of Merkleization: the
chunks are right-padded with zero chunks to the next power of two and the full
binary tree over them is hashed. -/
def merkleRoot (H : Chunk → Chunk → Chunk) (chunks : List Chunk) : Chunk :=
  fullTreeRoot H (Nat.clog 2 chunks.length)
    (chunks ++ List.replicate (nextPowerOfTwo chunks.length - chunks.length) zeroChunk)

/-- A stand-in for SHA-256 on which examples can be computed: the bytewise sum
of the two chunks plus one, modulo 256. -/
def toyHash (a b : Chunk) : Chunk :=
  List.zipWith (fun x y => (x + y + 1) % 256) a b

/-- A committee of three members with pubkeys of 3, 40 and 70 bytes. -/
def exampleCommittee : SyncCommittee :=
  { Pubkeys := [[1, 2, 3], List.replicate 40 7, List.replicate 70 9],
    AggregatePubkey := [5, 6] }

end stateutil

namespace transition

/-- The fork versions of `runtime/version`. -/
def Phase0 : Nat := 0

/-- The fork version Altair. -/
def Altair : Nat := 1

/-- The fork version Bellatrix. -/
def Bellatrix : Nat := 2

/-- The fork version Capella. -/
def Capella : Nat := 3

/-- An attestation of a block body; its content is not interpreted here. -/
structure Attestation where
  AggregationBits : Bytes
  Data : Bytes
  Signature : Bytes
deriving DecidableEq, Repr

/-- The body of a beacon block (spec section 3): the RANDAO reveal, the eth1
vote and the operation lists. Operations other than attestations are kept as
their encodings. -/
structure BeaconBlockBody where
  RandaoReveal : Bytes
  Eth1Data : state_native.Eth1Data
  ProposerSlashings : List Bytes
  AttesterSlashings : List Bytes
  Attestations : List Attestation
  Deposits : List Bytes
  VoluntaryExits : List Bytes
  SyncAggregate : Option Bytes
  ExecutionPayload : Option Bytes
  DilithiumToExecutionChanges : List Bytes
deriving DecidableEq, Repr

/-- A signed beacon block wrapped with its declared fork version (spec
section 3). -/
structure SignedBeaconBlock where
  version : Nat
  Slot : Nat
  ProposerIndex : Nat
  ParentRoot : Bytes
  StateRoot : Bytes
  Body : BeaconBlockBody
  Signature : Bytes
deriving DecidableEq, Repr

/-- The block with its declared state root replaced, as a proposer does with
the result of `CalculateStateRoot`. -/
def SignedBeaconBlock.withStateRoot (b : SignedBeaconBlock) (r : Bytes) : SignedBeaconBlock :=
  { b with StateRoot := r }

/-- A public key, a signed message and a signature, yet without a description. -/
structure SigData where
  PublicKey : Bytes
  Message : Bytes
  Signature : Bytes
deriving DecidableEq, Repr

/-- One entry of a signature verification set (spec section 3): public key,
signed message, signature and a human-readable description. -/
structure SigEntry where
  PublicKey : Bytes
  Message : Bytes
  Signature : Bytes
  Description : String
deriving DecidableEq, Repr

/-- The signature verification set: four parallel lists, as the tests read
them (`set.Signatures`, `set.Descriptions`). -/
structure SignatureBatch where
  Signatures : List Bytes
  PublicKeys : List Bytes
  Messages : List Bytes
  Descriptions : List String
deriving DecidableEq, Repr

/-- Modelled from the spec: the empty signature set (`NewSet`), not among the
sources. -/
def NewSet : SignatureBatch := { Signatures := [], PublicKeys := [], Messages := [], Descriptions := [] }

/-- Modelled from the spec: `Add(pubkey, message, signature, description)` of the
Signature Set Aggregator (spec section 4.4); insertion order is kept. -/
def SignatureBatch.Add (s : SignatureBatch) (e : SigEntry) : SignatureBatch :=
  { Signatures := s.Signatures ++ [e.Signature],
    PublicKeys := s.PublicKeys ++ [e.PublicKey],
    Messages := s.Messages ++ [e.Message],
    Descriptions := s.Descriptions ++ [e.Description] }

/-- Modelled from the spec: joining two signature sets, the entries of the
second after those of the first. -/
def SignatureBatch.Join (s t : SignatureBatch) : SignatureBatch :=
  { Signatures := s.Signatures ++ t.Signatures,
    PublicKeys := s.PublicKeys ++ t.PublicKeys,
    Messages := s.Messages ++ t.Messages,
    Descriptions := s.Descriptions ++ t.Descriptions }

/-- The set holding the given entries, added one by one. -/
def batchOf (es : List SigEntry) : SignatureBatch :=
  es.foldl SignatureBatch.Add NewSet

/-- Modelled from the spec: the collaborators of the transition pipeline whose
code is not among the sources, over a state type `σ`.

* `version` is the fork version of a state.
* `ProcessSlots` is the Slot Processor, `AdvanceSlots(state, targetSlot)`
  (spec section 4.1).
* `processOperations` is the state mutation of the Block Processor
  (spec section 4.2, steps 1 to 11). It is given the slot, the proposer index,
  the parent root and the body of the block: not the declared state root, which
  only the caller compares with the computed root (spec section 2), nor the
  block signature, a proposer calling the dry run before signing.
* `HashTreeRoot` is the Merkleization engine applied to a state.
* `proposerPubkey`, `blockSigningRoot` and `randaoSigningRoot` give the public
  key and the messages of the block and RANDAO signatures.
* `proposerSlashingEntries` gives the two entries of one proposer slashing
  (step 4, "verify both signatures (added to sig-set)"); the spec names no
  description for them.
* `attesterSlashingEntries` gives the entries of one attester slashing apart
  from their description (step 5, one "per attesting validator in the
  qualifying set intersection").
* `attestationEntries` gives the entries of one attestation apart from their
  description (step 6): a first one and, "depending on aggregation", further
  ones.
* `exitEntry` gives the entry of one voluntary exit (step 8).
* `syncAggregateEntries` gives the entries of the sync aggregate (step 9,
  "added to sig-set as appropriate").
* `changeEntry` gives the entry of one credential change (step 11). -/
structure Engine (σ : Type) where
  version : σ → Nat
  ProcessSlots : σ → Nat → Except String σ
  processOperations : σ → Nat → Nat → Bytes → BeaconBlockBody → Except String σ
  HashTreeRoot : σ → Except String Bytes
  proposerPubkey : σ → Nat → Except String Bytes
  blockSigningRoot : σ → SignedBeaconBlock → Bytes
  randaoSigningRoot : σ → Nat → Bytes
  proposerSlashingEntries : σ → Bytes → Except String (SigEntry × SigEntry)
  attesterSlashingEntries : σ → Bytes → Except String (List SigData)
  attestationEntries : σ → Attestation → Except String (SigData × List SigData)
  exitEntry : σ → Bytes → Except String SigEntry
  syncAggregateEntries : σ → Option Bytes → Except String (List SigEntry)
  changeEntry : σ → Bytes → Except String SigEntry

/-- The description of the block signature. -/
def descBlock : String := "block signature"

/-- The description of the RANDAO signature. -/
def descRandao : String := "randao signature"

/-- The description of an attestation signature. -/
def descAttestation : String := "attestation signature"

/-- Go `errors.Wrap(err, msg)`: the message followed by a colon and the cause. -/
def wrap {α : Type} (e : Except String α) (msg : String) : Except String α :=
  match e with
  | .ok a => .ok a
  | .error c => .error (msg ++ ": " ++ c)

/-- Modelled from the spec: `BlockSignatureBatch`, not among the sources: the one
entry of the block signature, described "block signature". -/
def BlockSignatureBatch {σ : Type} (E : Engine σ) (st : σ) (b : SignedBeaconBlock) :
    Except String SignatureBatch := do
  let pk ← E.proposerPubkey st b.ProposerIndex
  pure (NewSet.Add
    { PublicKey := pk, Message := E.blockSigningRoot st b, Signature := b.Signature,
      Description := descBlock })

/-- Modelled from the spec: `RandaoSignatureBatch`, not among the sources: the
one entry of the RANDAO reveal, described "randao signature". -/
def RandaoSignatureBatch {σ : Type} (E : Engine σ) (st : σ) (b : SignedBeaconBlock) :
    Except String SignatureBatch := do
  let pk ← E.proposerPubkey st b.ProposerIndex
  pure (NewSet.Add
    { PublicKey := pk, Message := E.randaoSigningRoot st b.Slot,
      Signature := b.Body.RandaoReveal, Description := descRandao })

/-- The entries of one attestation, each described "attestation signature". -/
def attestationSigEntries (x : SigData × List SigData) : List SigEntry :=
  (x.1 :: x.2).map fun t =>
    { PublicKey := t.PublicKey, Message := t.Message, Signature := t.Signature,
      Description := descAttestation }

/-- Modelled from the spec: `AttestationSignatureBatch`, not among the sources:
the entries of the attestations of the block, in block order, stopping at the
first attestation that has none. -/
def AttestationSignatureBatch {σ : Type} (E : Engine σ) (st : σ) :
    List Attestation → Except String SignatureBatch
  | [] => .ok NewSet
  | a :: rest =>
    match E.attestationEntries st a with
    | .error e => .error e
    | .ok x =>
      match AttestationSignatureBatch E st rest with
      | .error e => .error e
      | .ok s => .ok ((batchOf (attestationSigEntries x)).Join s)

/-- Modelled from the spec: the entries of the operations of one list,
operation by operation in block order ("for each"), stopping at the first
operation that fails (spec section 4.2, "any ... failure aborts the entire
block application"). -/
def collectEntries {α : Type} (f : α → Except String (List SigEntry)) :
    List α → Except String (List SigEntry)
  | [] => .ok []
  | a :: rest =>
    match f a with
    | .error e => .error e
    | .ok es =>
      match collectEntries f rest with
      | .error e => .error e
      | .ok more => .ok (es ++ more)

/-- Modelled from the spec: the entries of one attester slashing, each
described "attestation signature" (spec section 4.2, step 5). -/
def attesterSlashingSigEntries (l : List SigData) : List SigEntry :=
  l.map fun t =>
    { PublicKey := t.PublicKey, Message := t.Message, Signature := t.Signature,
      Description := descAttestation }

/-- Modelled from the spec: the entries steps 4 and 5 of the Block Processor
add to the signature set (spec section 4.2): both signatures of every proposer
slashing, then the signatures of every attester slashing. -/
def slashingSigEntries {σ : Type} (E : Engine σ) (st : σ) (body : BeaconBlockBody) :
    Except String (List SigEntry) :=
  match collectEntries (fun s => (E.proposerSlashingEntries st s).map fun p => [p.1, p.2])
      body.ProposerSlashings with
  | .error e => .error e
  | .ok ps =>
    match collectEntries (fun s => (E.attesterSlashingEntries st s).map attesterSlashingSigEntries)
        body.AttesterSlashings with
    | .error e => .error e
    | .ok ats => .ok (ps ++ ats)

/-- Modelled from the spec: the entries steps 8, 9 and 11 of the Block
Processor add to the signature set (spec section 4.2): the signature of every
voluntary exit, from Altair the entries of the sync aggregate, from Capella
the signature of every credential change. -/
def laterSigEntries {σ : Type} (E : Engine σ) (st : σ) (version : Nat) (body : BeaconBlockBody) :
    Except String (List SigEntry) :=
  match collectEntries (fun x => (E.exitEntry st x).map fun e => [e]) body.VoluntaryExits with
  | .error e => .error e
  | .ok exits =>
    match (if Altair ≤ version then E.syncAggregateEntries st body.SyncAggregate else .ok []) with
    | .error e => .error e
    | .ok sync =>
      match (if Capella ≤ version then
          collectEntries (fun x => (E.changeEntry st x).map fun e => [e])
            body.DilithiumToExecutionChanges
        else .ok []) with
      | .error e => .error e
      | .ok changes => .ok (exits ++ sync ++ changes)

/-- The message of the version-mismatch error,
`"state and block are different version. %d != %d"`. -/
def versionMismatch (stateVersion blockVersion : Nat) : String :=
  "state and block are different version. " ++ toString stateVersion ++ " != " ++
    toString blockVersion

/-- Modelled from the spec: `ProcessBlockNoVerifyAnySig`, the Block Processor
`ApplyBlock(state, signedBlock) -> (sigSet, newState)` of spec section 4.2,
whose code is not among the sources (its tests are). The versions of state and
block must agree; the operations are applied; the signature set holds, in the
order of the steps of the algorithm, the block signature (step 1), the RANDAO
signature (step 2), the signatures of the proposer and attester slashings
(steps 4 and 5), the attestation signatures in block order (step 6) and the
signatures of the exits, the sync aggregate and the credential changes
(steps 8, 9 and 11). No signature is verified. -/
def ProcessBlockNoVerifyAnySig {σ : Type} (E : Engine σ) (st : σ) (signed : SignedBeaconBlock) :
    Except String (SignatureBatch × σ) :=
  if E.version st ≠ signed.version then
    .error (versionMismatch (E.version st) signed.version)
  else do
    let st1 ← E.processOperations st signed.Slot signed.ProposerIndex signed.ParentRoot signed.Body
    let bSet ← wrap (BlockSignatureBatch E st1 signed) "could not retrieve block signature set"
    let rSet ← wrap (RandaoSignatureBatch E st1 signed) "could not retrieve randao signature set"
    let slashings ← slashingSigEntries E st1 signed.Body
    let aSet ← wrap (AttestationSignatureBatch E st1 signed.Body.Attestations)
      "could not retrieve attestation signature set"
    let later ← laterSigEntries E st1 signed.version signed.Body
    pure (((((NewSet.Join bSet).Join rSet).Join (batchOf slashings)).Join aSet).Join
      (batchOf later), st1)

/-- One hexadecimal digit. -/
def hexDigit (n : Nat) : Char :=
  if n < 10 then Char.ofNat (48 + n) else Char.ofNat (87 + n)

/-- Go `%#x` of a byte string: `0x` and two digits for each byte. -/
def hexOf (b : Bytes) : String :=
  "0x" ++ String.mk (b.flatMap fun x => [hexDigit (x / 16 % 16), hexDigit (x % 16)])

/-- The message of the state-root mismatch error,
`"could not validate state root, wanted: %#x, received: %#x"`. -/
def stateRootMismatch (postStateRoot stateRoot : Bytes) : String :=
  "could not validate state root" ++
    (", wanted: " ++ hexOf postStateRoot ++ ", received: " ++ hexOf stateRoot)

/-- Modelled from the spec: `ExecuteStateTransitionNoVerifyAnySig`, the no-verify
variant of the state transition (spec sections 2 and 6), whose code is not
among the sources (its tests are): the Slot Processor advances the state to
the slot of the block, the Block Processor applies the block, and the root of
the resulting state is compared with the root the block declares. -/
def ExecuteStateTransitionNoVerifyAnySig {σ : Type} (E : Engine σ) (st : σ)
    (signed : SignedBeaconBlock) : Except String (SignatureBatch × σ) := do
  let st1 ← wrap (E.ProcessSlots st signed.Slot) "could not process slots"
  let (set, st2) ← wrap (ProcessBlockNoVerifyAnySig E st1 signed) "could not process block"
  let postStateRoot ← E.HashTreeRoot st2
  if postStateRoot ≠ signed.StateRoot then
    .error (stateRootMismatch postStateRoot signed.StateRoot)
  else pure (set, st2)

/-- Modelled from the spec: `CalculateStateRoot`, whose code is not among the
sources (its tests are): a dry run that "applies the block to a throwaway
clone and returns only the resulting root" (spec section 6). The clone is the
functional copy of the state; the signature set is dropped. -/
def CalculateStateRoot {σ : Type} (E : Engine σ) (st : σ) (signed : SignedBeaconBlock) :
    Except String Bytes := do
  let st1 ← wrap (E.ProcessSlots st signed.Slot) "could not process slots"
  let (_, st2) ← wrap (ProcessBlockNoVerifyAnySig E st1 signed) "could not process block"
  E.HashTreeRoot st2

/-- A small state on which the pipeline can be run: fork version, slot and the
number of blocks applied. -/
structure ToyState where
  version : Nat
  slot : Nat
  applied : Nat
deriving DecidableEq, Repr

/-- An engine over `ToyState`: slots only move forward, an operation bumps the
block count, the root lists the three fields, every attestation carries its
own signature once, every proposer slashing two signatures, every attester
slashing, exit and credential change one. -/
def toyEngine : Engine ToyState where
  version := fun st => st.version
  ProcessSlots := fun st slot =>
    if slot < st.slot then .error "expected state.slot < slot" else .ok { st with slot := slot }
  processOperations := fun st slot _ _ _ =>
    if slot = st.slot then .ok { st with applied := st.applied + 1 } else .error "slot mismatch"
  HashTreeRoot := fun st => .ok [st.version, st.slot, st.applied]
  proposerPubkey := fun _ idx => .ok [idx]
  blockSigningRoot := fun _ b => b.StateRoot
  randaoSigningRoot := fun _ slot => [slot]
  proposerSlashingEntries := fun _ s =>
    .ok ({ PublicKey := [1], Message := s ++ [1], Signature := s ++ [1],
           Description := "proposer slashing signature" },
         { PublicKey := [1], Message := s ++ [2], Signature := s ++ [2],
           Description := "proposer slashing signature" })
  attesterSlashingEntries := fun _ s =>
    .ok [{ PublicKey := [2], Message := s, Signature := s }]
  attestationEntries := fun _ a =>
    .ok ({ PublicKey := [0], Message := a.Data, Signature := a.Signature }, [])
  exitEntry := fun _ x =>
    .ok { PublicKey := [3], Message := x, Signature := x, Description := "exit signature" }
  syncAggregateEntries := fun _ _ => .ok []
  changeEntry := fun _ x =>
    .ok { PublicKey := [5], Message := x, Signature := x,
          Description := "dilithium to execution change signature" }

/-- A body with two attestations. -/
def toyBody : BeaconBlockBody where
  RandaoReveal := [9]
  Eth1Data := state_native.voteA
  ProposerSlashings := []
  AttesterSlashings := []
  Attestations := [{ AggregationBits := [1], Data := [10], Signature := [11] },
                   { AggregationBits := [1], Data := [20], Signature := [21] }]
  Deposits := []
  VoluntaryExits := []
  SyncAggregate := none
  ExecutionPayload := none
  DilithiumToExecutionChanges := []

/-- A block of the given version at slot 1 declaring the state root `[0]`. -/
def toyBlock (version : Nat) : SignedBeaconBlock where
  version := version
  Slot := 1
  ProposerIndex := 4
  ParentRoot := [7]
  StateRoot := [0]
  Body := toyBody
  Signature := [8]

/-- A toy state of the given version at slot 0. -/
def toyState (version : Nat) : ToyState := { version := version, slot := 0, applied := 0 }

/-- The signature set of `toyBlock` on the toy engine. -/
def toySet : SignatureBatch where
  Signatures := [[8], [9], [11], [21]]
  PublicKeys := [[4], [4], [0], [0]]
  Messages := [[0], [1], [10], [20]]
  Descriptions := ["block signature", "randao signature", "attestation signature",
    "attestation signature"]

/-- The block `toyBlock` with one proposer slashing, encoded `[30]`, before its
two attestations. -/
def slashingBlock (version : Nat) : SignedBeaconBlock :=
  { toyBlock version with Body := { toyBody with ProposerSlashings := [[30]] } }

/-- The signature set of `slashingBlock` on the toy engine. -/
def slashingSet : SignatureBatch where
  Signatures := [[8], [9], [30, 1], [30, 2], [11], [21]]
  PublicKeys := [[4], [4], [1], [1], [0], [0]]
  Messages := [[0], [1], [30, 1], [30, 2], [10], [20]]
  Descriptions := ["block signature", "randao signature", "proposer slashing signature",
    "proposer slashing signature", "attestation signature", "attestation signature"]

end transition

namespace zondpb

open state_native in
/-- The message `zondpb.BeaconState` (Phase0), with the fields `ToProto` fills. -/
structure BeaconState where
  GenesisTime : Nat
  GenesisValidatorsRoot : Bytes
  Slot : Nat
  Fork : Option Bytes
  LatestBlockHeader : Option Bytes
  BlockRoots : Option (List Bytes)
  StateRoots : Option (List Bytes)
  HistoricalRoots : Option (List Bytes)
  Eth1Data : Option Eth1Data
  Eth1DataVotes : Slice
  Eth1DepositIndex : Nat
  Validators : List Validator
  Balances : List Nat
  RandaoMixes : Option (List Bytes)
  Slashings : List Nat
  PreviousEpochAttestations : List Bytes
  CurrentEpochAttestations : List Bytes
  JustificationBits : Bytes
  PreviousJustifiedCheckpoint : Option Bytes
  CurrentJustifiedCheckpoint : Option Bytes
  FinalizedCheckpoint : Option Bytes
deriving DecidableEq, Repr

open state_native in
/-- The message `zondpb.BeaconStateAltair`, with the fields `ToProto` fills. -/
structure BeaconStateAltair where
  GenesisTime : Nat
  GenesisValidatorsRoot : Bytes
  Slot : Nat
  Fork : Option Bytes
  LatestBlockHeader : Option Bytes
  BlockRoots : Option (List Bytes)
  StateRoots : Option (List Bytes)
  HistoricalRoots : Option (List Bytes)
  Eth1Data : Option Eth1Data
  Eth1DataVotes : Slice
  Eth1DepositIndex : Nat
  Validators : List Validator
  Balances : List Nat
  RandaoMixes : Option (List Bytes)
  Slashings : List Nat
  PreviousEpochParticipation : Bytes
  CurrentEpochParticipation : Bytes
  JustificationBits : Bytes
  PreviousJustifiedCheckpoint : Option Bytes
  CurrentJustifiedCheckpoint : Option Bytes
  FinalizedCheckpoint : Option Bytes
  InactivityScores : List Nat
  CurrentSyncCommittee : Option Bytes
  NextSyncCommittee : Option Bytes
deriving DecidableEq, Repr

open state_native in
/-- The message `zondpb.BeaconStateBellatrix`, with the fields `ToProto` fills. -/
structure BeaconStateBellatrix where
  GenesisTime : Nat
  GenesisValidatorsRoot : Bytes
  Slot : Nat
  Fork : Option Bytes
  LatestBlockHeader : Option Bytes
  BlockRoots : Option (List Bytes)
  StateRoots : Option (List Bytes)
  HistoricalRoots : Option (List Bytes)
  Eth1Data : Option Eth1Data
  Eth1DataVotes : Slice
  Eth1DepositIndex : Nat
  Validators : List Validator
  Balances : List Nat
  RandaoMixes : Option (List Bytes)
  Slashings : List Nat
  PreviousEpochParticipation : Bytes
  CurrentEpochParticipation : Bytes
  JustificationBits : Bytes
  PreviousJustifiedCheckpoint : Option Bytes
  CurrentJustifiedCheckpoint : Option Bytes
  FinalizedCheckpoint : Option Bytes
  InactivityScores : List Nat
  CurrentSyncCommittee : Option Bytes
  NextSyncCommittee : Option Bytes
  LatestExecutionPayloadHeader : Option Bytes
deriving DecidableEq, Repr

open state_native in
/-- The message `zondpb.BeaconStateCapella`, with the fields `ToProto` fills. -/
structure BeaconStateCapella where
  GenesisTime : Nat
  GenesisValidatorsRoot : Bytes
  Slot : Nat
  Fork : Option Bytes
  LatestBlockHeader : Option Bytes
  BlockRoots : Option (List Bytes)
  StateRoots : Option (List Bytes)
  HistoricalRoots : Option (List Bytes)
  Eth1Data : Option Eth1Data
  Eth1DataVotes : Slice
  Eth1DepositIndex : Nat
  Validators : List Validator
  Balances : List Nat
  RandaoMixes : Option (List Bytes)
  Slashings : List Nat
  PreviousEpochParticipation : Bytes
  CurrentEpochParticipation : Bytes
  JustificationBits : Bytes
  PreviousJustifiedCheckpoint : Option Bytes
  CurrentJustifiedCheckpoint : Option Bytes
  FinalizedCheckpoint : Option Bytes
  InactivityScores : List Nat
  CurrentSyncCommittee : Option Bytes
  NextSyncCommittee : Option Bytes
  LatestExecutionPayloadHeader : Option Bytes
  NextWithdrawalIndex : Nat
  NextWithdrawalValidatorIndex : Nat
  HistoricalSummaries : List Bytes
deriving DecidableEq, Repr

end zondpb

namespace state_native

/-- What `ToProto` and `ToProtoUnsafe` return as `interface{}`, when it is not
nil: a pointer to the message of one of the four forks. -/
inductive ProtoState where
  | Phase0 (m : zondpb.BeaconState)
  | Altair (m : zondpb.BeaconStateAltair)
  | Bellatrix (m : zondpb.BeaconStateBellatrix)
  | Capella (m : zondpb.BeaconStateCapella)
deriving DecidableEq, Repr

/-- The fork version whose message a result is. -/
def ProtoState.version : ProtoState → Nat
  | .Phase0 _ => transition.Phase0
  | .Altair _ => transition.Altair
  | .Bellatrix _ => transition.Bellatrix
  | .Capella _ => transition.Capella

/-- The fields every fork's message declares. -/
def commonFields : List FieldIndex :=
  [.GenesisTime, .GenesisValidatorsRoot, .Slot, .Fork, .LatestBlockHeader, .BlockRoots,
   .StateRoots, .HistoricalRoots, .Eth1Data, .Eth1DataVotes, .Eth1DepositIndex, .Validators,
   .Balances, .RandaoMixes, .Slashings, .JustificationBits, .PreviousJustifiedCheckpoint,
   .CurrentJustifiedCheckpoint, .FinalizedCheckpoint]

/-- The state fields the message of a result declares, one for each field of
its structure. -/
def ProtoState.fields : ProtoState → List FieldIndex
  | .Phase0 _ => commonFields ++ [.PreviousEpochAttestations, .CurrentEpochAttestations]
  | .Altair _ => commonFields ++
      [.PreviousEpochParticipationBits, .CurrentEpochParticipationBits, .InactivityScores,
       .CurrentSyncCommittee, .NextSyncCommittee]
  | .Bellatrix _ => commonFields ++
      [.PreviousEpochParticipationBits, .CurrentEpochParticipationBits, .InactivityScores,
       .CurrentSyncCommittee, .NextSyncCommittee, .LatestExecutionPayloadHeader]
  | .Capella _ => commonFields ++
      [.PreviousEpochParticipationBits, .CurrentEpochParticipationBits, .InactivityScores,
       .CurrentSyncCommittee, .NextSyncCommittee, .LatestExecutionPayloadHeaderCapella,
       .NextWithdrawalIndex, .NextWithdrawalValidatorIndex, .HistoricalSummaries]

/-- Modelled from the spec: the method `Slice` of the root buffers
(`customtypes.BlockRoots`, `StateRoots`, `HistoricalRoots`, `RandaoMixes`), not
among the sources: the roots as byte strings, nil for a nil buffer. -/
def rootsSlice (r : Option (List Chunk)) : Option (List Bytes) := r

/-- The copying getters `forkVal`, `eth1DataVal`, `validatorsVal` and so on that
`ToProto` calls; their code is not among the sources, so `ToProto` takes what
they return as a parameter. -/
structure ValHelpers where
  forkVal : BeaconState → Option Bytes
  latestBlockHeaderVal : BeaconState → Option Bytes
  eth1DataVal : BeaconState → Option Eth1Data
  eth1DataVotesVal : BeaconState → Slice
  validatorsVal : BeaconState → List Validator
  balancesVal : BeaconState → List Nat
  slashingsVal : BeaconState → List Nat
  previousEpochAttestationsVal : BeaconState → List Bytes
  currentEpochAttestationsVal : BeaconState → List Bytes
  previousEpochParticipationVal : BeaconState → Bytes
  currentEpochParticipationVal : BeaconState → Bytes
  justificationBitsVal : BeaconState → Bytes
  previousJustifiedCheckpointVal : BeaconState → Option Bytes
  currentJustifiedCheckpointVal : BeaconState → Option Bytes
  finalizedCheckpointVal : BeaconState → Option Bytes
  inactivityScoresVal : BeaconState → List Nat
  currentSyncCommitteeVal : BeaconState → Option Bytes
  nextSyncCommitteeVal : BeaconState → Option Bytes
  latestExecutionPayloadHeaderVal : BeaconState → Option Bytes
  latestExecutionPayloadHeaderCapellaVal : BeaconState → Option Bytes
  historicalSummariesVal : BeaconState → List Bytes

/-- The getter `ToProtoUnsafe`: the message of the state's fork, sharing the
state's own values; nil for a nil state and for an unknown version. -/
def ToProtoUnsafe (b : Option BeaconState) : Option ProtoState :=
  match b with
  | none => none
  | some b =>
    let gvrCopy := b.genesisValidatorsRoot
    if b.version = transition.Phase0 then
      some (.Phase0 {
        GenesisTime := b.genesisTime
        GenesisValidatorsRoot := gvrCopy
        Slot := b.slot
        Fork := b.fork
        LatestBlockHeader := b.latestBlockHeader
        BlockRoots := rootsSlice b.blockRoots
        StateRoots := rootsSlice b.stateRoots
        HistoricalRoots := rootsSlice b.historicalRoots
        Eth1Data := b.eth1Data
        Eth1DataVotes := b.eth1DataVotes
        Eth1DepositIndex := b.eth1DepositIndex
        Validators := b.validators
        Balances := b.balances
        RandaoMixes := rootsSlice b.randaoMixes
        Slashings := b.slashings
        PreviousEpochAttestations := b.previousEpochAttestations
        CurrentEpochAttestations := b.currentEpochAttestations
        JustificationBits := b.justificationBits
        PreviousJustifiedCheckpoint := b.previousJustifiedCheckpoint
        CurrentJustifiedCheckpoint := b.currentJustifiedCheckpoint
        FinalizedCheckpoint := b.finalizedCheckpoint })
    else if b.version = transition.Altair then
      some (.Altair {
        GenesisTime := b.genesisTime
        GenesisValidatorsRoot := gvrCopy
        Slot := b.slot
        Fork := b.fork
        LatestBlockHeader := b.latestBlockHeader
        BlockRoots := rootsSlice b.blockRoots
        StateRoots := rootsSlice b.stateRoots
        HistoricalRoots := rootsSlice b.historicalRoots
        Eth1Data := b.eth1Data
        Eth1DataVotes := b.eth1DataVotes
        Eth1DepositIndex := b.eth1DepositIndex
        Validators := b.validators
        Balances := b.balances
        RandaoMixes := rootsSlice b.randaoMixes
        Slashings := b.slashings
        PreviousEpochParticipation := b.previousEpochParticipation
        CurrentEpochParticipation := b.currentEpochParticipation
        JustificationBits := b.justificationBits
        PreviousJustifiedCheckpoint := b.previousJustifiedCheckpoint
        CurrentJustifiedCheckpoint := b.currentJustifiedCheckpoint
        FinalizedCheckpoint := b.finalizedCheckpoint
        InactivityScores := b.inactivityScores
        CurrentSyncCommittee := b.currentSyncCommittee
        NextSyncCommittee := b.nextSyncCommittee })
    else if b.version = transition.Bellatrix then
      some (.Bellatrix {
        GenesisTime := b.genesisTime
        GenesisValidatorsRoot := gvrCopy
        Slot := b.slot
        Fork := b.fork
        LatestBlockHeader := b.latestBlockHeader
        BlockRoots := rootsSlice b.blockRoots
        StateRoots := rootsSlice b.stateRoots
        HistoricalRoots := rootsSlice b.historicalRoots
        Eth1Data := b.eth1Data
        Eth1DataVotes := b.eth1DataVotes
        Eth1DepositIndex := b.eth1DepositIndex
        Validators := b.validators
        Balances := b.balances
        RandaoMixes := rootsSlice b.randaoMixes
        Slashings := b.slashings
        PreviousEpochParticipation := b.previousEpochParticipation
        CurrentEpochParticipation := b.currentEpochParticipation
        JustificationBits := b.justificationBits
        PreviousJustifiedCheckpoint := b.previousJustifiedCheckpoint
        CurrentJustifiedCheckpoint := b.currentJustifiedCheckpoint
        FinalizedCheckpoint := b.finalizedCheckpoint
        InactivityScores := b.inactivityScores
        CurrentSyncCommittee := b.currentSyncCommittee
        NextSyncCommittee := b.nextSyncCommittee
        LatestExecutionPayloadHeader := b.latestExecutionPayloadHeader })
    else if b.version = transition.Capella then
      some (.Capella {
        GenesisTime := b.genesisTime
        GenesisValidatorsRoot := gvrCopy
        Slot := b.slot
        Fork := b.fork
        LatestBlockHeader := b.latestBlockHeader
        BlockRoots := rootsSlice b.blockRoots
        StateRoots := rootsSlice b.stateRoots
        HistoricalRoots := rootsSlice b.historicalRoots
        Eth1Data := b.eth1Data
        Eth1DataVotes := b.eth1DataVotes
        Eth1DepositIndex := b.eth1DepositIndex
        Validators := b.validators
        Balances := b.balances
        RandaoMixes := rootsSlice b.randaoMixes
        Slashings := b.slashings
        PreviousEpochParticipation := b.previousEpochParticipation
        CurrentEpochParticipation := b.currentEpochParticipation
        JustificationBits := b.justificationBits
        PreviousJustifiedCheckpoint := b.previousJustifiedCheckpoint
        CurrentJustifiedCheckpoint := b.currentJustifiedCheckpoint
        FinalizedCheckpoint := b.finalizedCheckpoint
        InactivityScores := b.inactivityScores
        CurrentSyncCommittee := b.currentSyncCommittee
        NextSyncCommittee := b.nextSyncCommittee
        LatestExecutionPayloadHeader := b.latestExecutionPayloadHeaderCapella
        NextWithdrawalIndex := b.nextWithdrawalIndex
        NextWithdrawalValidatorIndex := b.nextWithdrawalValidatorIndex
        HistoricalSummaries := b.historicalSummaries })
    else none

/-- The getter `ToProto`: the message of the state's fork, filled with copies
of the state's values; nil for a nil state and for an unknown version. -/
def ToProto (V : ValHelpers) (b : Option BeaconState) : Option ProtoState :=
  match b with
  | none => none
  | some b =>
    let gvrCopy := b.genesisValidatorsRoot
    if b.version = transition.Phase0 then
      some (.Phase0 {
        GenesisTime := b.genesisTime
        GenesisValidatorsRoot := gvrCopy
        Slot := b.slot
        Fork := V.forkVal b
        LatestBlockHeader := V.latestBlockHeaderVal b
        BlockRoots := rootsSlice b.blockRoots
        StateRoots := rootsSlice b.stateRoots
        HistoricalRoots := rootsSlice b.historicalRoots
        Eth1Data := V.eth1DataVal b
        Eth1DataVotes := V.eth1DataVotesVal b
        Eth1DepositIndex := b.eth1DepositIndex
        Validators := V.validatorsVal b
        Balances := V.balancesVal b
        RandaoMixes := rootsSlice b.randaoMixes
        Slashings := V.slashingsVal b
        PreviousEpochAttestations := V.previousEpochAttestationsVal b
        CurrentEpochAttestations := V.currentEpochAttestationsVal b
        JustificationBits := V.justificationBitsVal b
        PreviousJustifiedCheckpoint := V.previousJustifiedCheckpointVal b
        CurrentJustifiedCheckpoint := V.currentJustifiedCheckpointVal b
        FinalizedCheckpoint := V.finalizedCheckpointVal b })
    else if b.version = transition.Altair then
      some (.Altair {
        GenesisTime := b.genesisTime
        GenesisValidatorsRoot := gvrCopy
        Slot := b.slot
        Fork := V.forkVal b
        LatestBlockHeader := V.latestBlockHeaderVal b
        BlockRoots := rootsSlice b.blockRoots
        StateRoots := rootsSlice b.stateRoots
        HistoricalRoots := rootsSlice b.historicalRoots
        Eth1Data := V.eth1DataVal b
        Eth1DataVotes := V.eth1DataVotesVal b
        Eth1DepositIndex := b.eth1DepositIndex
        Validators := V.validatorsVal b
        Balances := V.balancesVal b
        RandaoMixes := rootsSlice b.randaoMixes
        Slashings := V.slashingsVal b
        PreviousEpochParticipation := V.previousEpochParticipationVal b
        CurrentEpochParticipation := V.currentEpochParticipationVal b
        JustificationBits := V.justificationBitsVal b
        PreviousJustifiedCheckpoint := V.previousJustifiedCheckpointVal b
        CurrentJustifiedCheckpoint := V.currentJustifiedCheckpointVal b
        FinalizedCheckpoint := V.finalizedCheckpointVal b
        InactivityScores := V.inactivityScoresVal b
        CurrentSyncCommittee := V.currentSyncCommitteeVal b
        NextSyncCommittee := V.nextSyncCommitteeVal b })
    else if b.version = transition.Bellatrix then
      some (.Bellatrix {
        GenesisTime := b.genesisTime
        GenesisValidatorsRoot := gvrCopy
        Slot := b.slot
        Fork := V.forkVal b
        LatestBlockHeader := V.latestBlockHeaderVal b
        BlockRoots := rootsSlice b.blockRoots
        StateRoots := rootsSlice b.stateRoots
        HistoricalRoots := rootsSlice b.historicalRoots
        Eth1Data := V.eth1DataVal b
        Eth1DataVotes := V.eth1DataVotesVal b
        Eth1DepositIndex := b.eth1DepositIndex
        Validators := V.validatorsVal b
        Balances := V.balancesVal b
        RandaoMixes := rootsSlice b.randaoMixes
        Slashings := V.slashingsVal b
        PreviousEpochParticipation := V.previousEpochParticipationVal b
        CurrentEpochParticipation := V.currentEpochParticipationVal b
        JustificationBits := V.justificationBitsVal b
        PreviousJustifiedCheckpoint := V.previousJustifiedCheckpointVal b
        CurrentJustifiedCheckpoint := V.currentJustifiedCheckpointVal b
        FinalizedCheckpoint := V.finalizedCheckpointVal b
        InactivityScores := V.inactivityScoresVal b
        CurrentSyncCommittee := V.currentSyncCommitteeVal b
        NextSyncCommittee := V.nextSyncCommitteeVal b
        LatestExecutionPayloadHeader := V.latestExecutionPayloadHeaderVal b })
    else if b.version = transition.Capella then
      some (.Capella {
        GenesisTime := b.genesisTime
        GenesisValidatorsRoot := gvrCopy
        Slot := b.slot
        Fork := V.forkVal b
        LatestBlockHeader := V.latestBlockHeaderVal b
        BlockRoots := rootsSlice b.blockRoots
        StateRoots := rootsSlice b.stateRoots
        HistoricalRoots := rootsSlice b.historicalRoots
        Eth1Data := V.eth1DataVal b
        Eth1DataVotes := V.eth1DataVotesVal b
        Eth1DepositIndex := b.eth1DepositIndex
        Validators := V.validatorsVal b
        Balances := V.balancesVal b
        RandaoMixes := rootsSlice b.randaoMixes
        Slashings := V.slashingsVal b
        PreviousEpochParticipation := V.previousEpochParticipationVal b
        CurrentEpochParticipation := V.currentEpochParticipationVal b
        JustificationBits := V.justificationBitsVal b
        PreviousJustifiedCheckpoint := V.previousJustifiedCheckpointVal b
        CurrentJustifiedCheckpoint := V.currentJustifiedCheckpointVal b
        FinalizedCheckpoint := V.finalizedCheckpointVal b
        InactivityScores := V.inactivityScoresVal b
        CurrentSyncCommittee := V.currentSyncCommitteeVal b
        NextSyncCommittee := V.nextSyncCommitteeVal b
        LatestExecutionPayloadHeader := V.latestExecutionPayloadHeaderCapellaVal b
        NextWithdrawalIndex := b.nextWithdrawalIndex
        NextWithdrawalValidatorIndex := b.nextWithdrawalValidatorIndex
        HistoricalSummaries := V.historicalSummariesVal b })
    else none

/-- The getter `StateRoots`: the state roots kept track of in the beacon state. -/
def StateRoots (b : BeaconState) : Option (List Bytes) :=
  match b.stateRoots with
  | none => none
  | some r => rootsSlice (some r)

/-- The getter `stateRootAtIndex`: the root at an index, or the error
`"index %d out of range"`. The state roots are known not to be nil. -/
def stateRootAtIndex (roots : List Chunk) (idx : Nat) : Chunk × Option String :=
  if roots.length ≤ idx then
    (List.replicate 32 0, some ("index " ++ toString idx ++ " out of range"))
  else (roots.getD idx (List.replicate 32 0), none)

/-- The getter `StateRootAtIndex`: a specific state root by index; nil and no
error when the state has no state roots. -/
def StateRootAtIndex (b : BeaconState) (idx : Nat) : Option Bytes × Option String :=
  match b.stateRoots with
  | none => (none, none)
  | some roots =>
    match stateRootAtIndex roots idx with
    | (_, some err) => (none, some err)
    | (r, none) => (some r, none)

/-- The copying getters in value semantics: a copy has the value of the
original. -/
def valueCopies : ValHelpers where
  forkVal := fun b => b.fork
  latestBlockHeaderVal := fun b => b.latestBlockHeader
  eth1DataVal := fun b => b.eth1Data
  eth1DataVotesVal := fun b => b.eth1DataVotes
  validatorsVal := fun b => b.validators
  balancesVal := fun b => b.balances
  slashingsVal := fun b => b.slashings
  previousEpochAttestationsVal := fun b => b.previousEpochAttestations
  currentEpochAttestationsVal := fun b => b.currentEpochAttestations
  previousEpochParticipationVal := fun b => b.previousEpochParticipation
  currentEpochParticipationVal := fun b => b.currentEpochParticipation
  justificationBitsVal := fun b => b.justificationBits
  previousJustifiedCheckpointVal := fun b => b.previousJustifiedCheckpoint
  currentJustifiedCheckpointVal := fun b => b.currentJustifiedCheckpoint
  finalizedCheckpointVal := fun b => b.finalizedCheckpoint
  inactivityScoresVal := fun b => b.inactivityScores
  currentSyncCommitteeVal := fun b => b.currentSyncCommittee
  nextSyncCommitteeVal := fun b => b.nextSyncCommittee
  latestExecutionPayloadHeaderVal := fun b => b.latestExecutionPayloadHeader
  latestExecutionPayloadHeaderCapellaVal := fun b => b.latestExecutionPayloadHeaderCapella
  historicalSummariesVal := fun b => b.historicalSummaries

/-- A state with three state roots. -/
def rootsState : BeaconState :=
  { baseState with stateRoots := some [List.replicate 32 1, List.replicate 32 2,
      List.replicate 32 3] }

end state_native

namespace version

/-- Modelled from the spec: `version.String` of `runtime/version`, which is not
among the sources: the name of a fork version, `"unknown version"` for a value
that is none of the forks. -/
def String (version : Nat) : String :=
  if version = transition.Phase0 then "phase0"
  else if version = transition.Altair then "altair"
  else if version = transition.Bellatrix then "bellatrix"
  else if version = transition.Capella then "capella"
  else "unknown version"

end version

namespace consensus_types

/-- A Go error value as the packages `errors` and `github.com/pkg/errors` build
it: a sentinel made by `errors.New`, a `withMessage` holding a cause and a
message, or a `withStack` holding an error and the program counters of the
call stack. Each is a pointer, told apart by the address of its allocation. -/
inductive GoError where
  | sentinel (addr : Nat) (msg : String)
  | withMessage (addr : Nat) (cause : GoError) (msg : String)
  | withStack (addr : Nat) (err : GoError) (stack : List Nat)
deriving DecidableEq, Repr

/-- The method `Error`: a sentinel prints its message, a `withMessage` its
message, a colon and the message of its cause, a `withStack` the message of
the error it embeds. -/
def GoError.Error : GoError → String
  | .sentinel _ msg => msg
  | .withMessage _ cause msg => msg ++ ": " ++ cause.Error
  | .withStack _ err _ => err.Error

/-- The function `errors.Unwrap`: the cause of a `withMessage`, the embedded
error of a `withStack`, nil for a sentinel, which has no `Unwrap` method. -/
def GoError.Unwrap : GoError → Option GoError
  | .sentinel _ _ => none
  | .withMessage _ cause _ => some cause
  | .withStack _ err _ => some err

/-- The function `errors.Is`: whether the error or one of the errors down its
`Unwrap` chain is the target. -/
def Is : Option GoError → GoError → Bool
  | none, _ => false
  | some (.sentinel addr msg), target => decide (GoError.sentinel addr msg = target)
  | some (.withMessage addr cause msg), target =>
    decide (GoError.withMessage addr cause msg = target) || Is (some cause) target
  | some (.withStack addr err stack), target =>
    decide (GoError.withStack addr err stack = target) || Is (some err) target

/-- The function `Wrap` of `github.com/pkg/errors`: nil for nil; otherwise a
`withStack` over a `withMessage` over the error. The two allocations are at
the addresses `addr` and `addr + 1`, and `stack` is what `callers()` records. -/
def Wrap (err : Option GoError) (message : String) (addr : Nat) (stack : List Nat) :
    Option GoError :=
  match err with
  | none => none
  | some e => some (.withStack (addr + 1) (.withMessage addr e message) stack)

/-- The sentinel `ErrNilObjectWrapped`, returned in a constructor when the
underlying object is nil. -/
def ErrNilObjectWrapped : GoError := .sentinel 0 "attempted to wrap nil object"

/-- The sentinel `ErrUnsupportedField`, returned when a getter or setter access
is not supported. -/
def ErrUnsupportedField : GoError := .sentinel 1 "unsupported getter"

/-- The function `ErrNotSupported`; `addr` and `stack` are the address of the
next allocation and the call stack at the call, which `Wrap` records. -/
def ErrNotSupported (funcName : String) (ver : Nat) (addr : Nat) (stack : List Nat) :
    Option GoError :=
  Wrap (some ErrUnsupportedField) (funcName ++ " is not supported for " ++ version.String ver)
    addr stack

end consensus_types

namespace transition

/-- Modelled from the spec: the per-slot work of the Slot Processor (spec
section 4.1), whose code is not among the sources, over a state type `σ`:
the slot of a state, caching the previous roots (`ProcessSlot`, step 1), the
epoch transition (`ProcessEpoch`, step 2), setting the slot (step 3) and the
number of slots in an epoch. -/
structure SlotProcessor (σ : Type) where
  Slot : σ → Nat
  SetSlot : σ → Nat → Except String σ
  ProcessSlot : σ → Except String σ
  ProcessEpoch : σ → Except String σ
  SlotsPerEpoch : Nat

/-- Modelled from the spec: one round of the Slot Processor (spec section 4.1,
steps 1 to 3): the previous roots are cached, the epoch transition runs when
the next slot starts a new epoch, and the slot advances by one. -/
def advanceSlot {σ : Type} (P : SlotProcessor σ) (st : σ) : Except String σ := do
  let st1 ← P.ProcessSlot st
  let st2 ← if (P.Slot st1 + 1) % P.SlotsPerEpoch = 0 then P.ProcessEpoch st1 else pure st1
  P.SetSlot st2 (P.Slot st2 + 1)

/-- The rounds of the Slot Processor, one "for each slot in
`(state.slot, targetSlot]`": the first argument counts the slots left. -/
def advanceSlots {σ : Type} (P : SlotProcessor σ) : Nat → σ → Except String σ
  | 0, st => .ok st
  | n + 1, st =>
    match advanceSlot P st with
    | .error e => .error e
    | .ok st1 => advanceSlots P n st1

/-- Modelled from the spec: `ProcessSlots`, the Slot Processor
`AdvanceSlots(state, targetSlot) -> newState` of spec section 4.1, whose code
is not among the sources: it "fails if `targetSlot < state.slot`" and
otherwise runs one round for each slot in `(state.slot, targetSlot]`. -/
def ProcessSlots {σ : Type} (P : SlotProcessor σ) (st : σ) (slot : Nat) : Except String σ :=
  if slot < P.Slot st then
    .error ("expected state.slot " ++ toString (P.Slot st) ++ " < slot " ++ toString slot)
  else advanceSlots P (slot - P.Slot st) st

/-- The Slot Processor of the toy state: a round bumps the slot, and an epoch
of 4 slots ends with a reset of the count of applied blocks. -/
def toySlots : SlotProcessor ToyState where
  Slot := fun st => st.slot
  SetSlot := fun st slot => .ok { st with slot := slot }
  ProcessSlot := fun st => .ok st
  ProcessEpoch := fun st => .ok { st with applied := 0 }
  SlotsPerEpoch := 4

end transition

namespace slots

/-- The value an `int64` holds after an operation whose exact result is `x`:
Go integer arithmetic wraps around. -/
def toInt64 (x : Int) : Int := (x + 2 ^ 63) % 2 ^ 64 - 2 ^ 63

/-- The duration `time.Second`, in nanoseconds. -/
def Second : Int := 1000000000

/-- The slot duration `time.Duration(secondsPerSlot) * time.Second`, an `int64`
number of nanoseconds. -/
def slotDuration (secondsPerSlot : Nat) : Int :=
  toInt64 (toInt64 secondsPerSlot * Second)

/-- The method `Duration.Truncate` of the Go library: `d` rounded toward zero to
a multiple of `m`, and `d` itself when `m` is not positive. -/
def Truncate (d m : Int) : Int :=
  if m ≤ 0 then d else d - Int.tmod d m

/-- The method `Time.Unix`: the whole seconds since the Unix epoch of a time
given in nanoseconds since that epoch. -/
def Unix (t : Int) : Int := t / Second

/-- The variables of the loop of `SlotTicker.start`: the time of the next tick,
in nanoseconds since the Unix epoch, and the slot sent at that tick. -/
structure TickerLoop where
  nextTickTime : Int
  slot : Nat
deriving DecidableEq, Repr

/-- The start of the goroutine of `SlotTicker.start`, up to the loop:
`sinceGenesis` is what `since(genesisTime)` returned. A slot duration of zero
makes the division panic. -/
def startLoop (genesisTime : Int) (secondsPerSlot : Nat) (sinceGenesis : Int) :
    Except String TickerLoop :=
  let d := slotDuration secondsPerSlot
  if sinceGenesis < d then
    .ok { nextTickTime := genesisTime, slot := 0 }
  else
    let nextTick := toInt64 (Truncate sinceGenesis d + d)
    if d = 0 then .error "integer divide by zero"
    else .ok { nextTickTime := genesisTime + nextTick,
               slot := (Int.tdiv nextTick d % 2 ^ 64).toNat }

/-- One round of the loop of `SlotTicker.start` in which the timer fires: the
slot is sent on the channel, then the slot is incremented and the next tick is
set one slot duration later. -/
def tick (d : Int) (st : TickerLoop) : Nat × TickerLoop :=
  (st.slot, { nextTickTime := st.nextTickTime + d, slot := (st.slot + 1) % 2 ^ 64 })

/-- The loop after `k` ticks: the slots sent on the channel, oldest first, and
the variables of the loop. -/
def runTicks (d : Int) : Nat → TickerLoop → List Nat × TickerLoop
  | 0, st => ([], st)
  | k + 1, st =>
    let (sent, st1) := tick d st
    let (rest, st2) := runTicks d k st1
    (sent :: rest, st2)

/-- A started ticker with intervals: what `startWithIntervals` was called with. -/
structure IntervalTicker where
  genesisTime : Int
  intervals : List Int
deriving DecidableEq, Repr

/-- The loop of `NewSlotTickerWithIntervals` over the offsets, `lastOffset`
being the offset before: a smaller offset panics, and so does one that is not
below the slot duration. -/
def checkOffsets (slotDuration : Int) : Int → List Int → Except String Unit
  | _, [] => .ok ()
  | lastOffset, offset :: rest =>
    if offset < lastOffset then .error "invalid decreasing offsets"
    else if offset ≥ slotDuration then .error "invalid ticker offset"
    else checkOffsets slotDuration offset rest

/-- The constructor `NewSlotTickerWithIntervals`; a panic is an error. The
seconds per slot are those of `params.BeaconConfig()`. -/
def NewSlotTickerWithIntervals (secondsPerSlot : Nat) (genesisTime : Int)
    (intervals : List Int) : Except String IntervalTicker :=
  if Unix genesisTime = 0 then .error "zero genesis time"
  else if intervals.length = 0 then .error "at least one interval has to be entered"
  else
    match checkOffsets (slotDuration secondsPerSlot) 0 intervals with
    | .error e => .error e
    | .ok _ => .ok { genesisTime := genesisTime, intervals := intervals }

end slots

namespace validator

/-- The message `zondpb.SyncCommitteeMessage`. -/
structure SyncCommitteeMessage where
  Slot : Nat
  BlockRoot : Bytes
  ValidatorIndex : Nat
  Signature : Bytes
deriving DecidableEq, Repr

/-- What `aggregatedSigAndAggregationBits` takes from outside the sources: the
sync committee size and subnet count of `params.BeaconConfig()`, the number of
bits of `zondpb.NewSyncCommitteeAggregationBits()`, the signature size
`dilithium2.CryptoBytes`, the head fetcher's `HeadSyncCommitteeIndices` and the
two Dilithium functions applied to the collected signatures. -/
structure Deps where
  SyncCommitteeSize : Nat
  SyncCommitteeSubnetCount : Nat
  bitsLen : Nat
  CryptoBytes : Nat
  HeadSyncCommitteeIndices : Nat → Nat → Except String (List Nat)
  MultipleSignaturesFromBytes : List Bytes → Except String (List Bytes)
  UnaggregatedSignatures : List Bytes → Bytes

/-- The method `BitAt` of a bit vector: the bit at an index, false beyond the
length. -/
def BitAt (bits : List Bool) (idx : Nat) : Bool := bits.getD idx false

/-- The method `SetBitAt` of a bit vector: sets the bit at an index, nothing
beyond the length. -/
def SetBitAt (bits : List Bool) (idx : Nat) (val : Bool) : List Bool := bits.set idx val

/-- The variables of the first loop of `aggregatedSigAndAggregationBits`: the
aggregation bits, the map from committee index to message (newest entry
first) and the list of appended committee indices. -/
structure AggState where
  bits : List Bool
  syncCommitteeIndicesSigMap : List (Nat × SyncCommitteeMessage)
  appendedSyncCommitteeIndices : List Nat
deriving DecidableEq, Repr

/-- The inner loop of `aggregatedSigAndAggregationBits` over the head sync
committee indices of one message. A subcommittee size of zero makes the
division panic. -/
def addIndices (subCommitteeSize subnetId : Nat) (msg : SyncCommitteeMessage) :
    AggState → List Nat → Except String AggState
  | st, [] => .ok st
  | st, index :: rest =>
    if subCommitteeSize = 0 then .error "integer divide by zero"
    else
      let i := index
      let subnetIndex := i / subCommitteeSize
      let indexMod := i % subCommitteeSize
      if subnetIndex = subnetId ∧ ¬ BitAt st.bits indexMod then
        addIndices subCommitteeSize subnetId msg
          { bits := SetBitAt st.bits indexMod true,
            syncCommitteeIndicesSigMap := (index, msg) :: st.syncCommitteeIndicesSigMap,
            appendedSyncCommitteeIndices := st.appendedSyncCommitteeIndices ++ [index] } rest
      else addIndices subCommitteeSize subnetId msg st rest

/-- The first loop of `aggregatedSigAndAggregationBits` over the messages: only
messages for the given block root count. -/
def collect (D : Deps) (subCommitteeSize slot subnetId : Nat) (blockRoot : Bytes) :
    AggState → List SyncCommitteeMessage → Except String AggState
  | st, [] => .ok st
  | st, msg :: rest =>
    if blockRoot = msg.BlockRoot then
      match D.HeadSyncCommitteeIndices msg.ValidatorIndex slot with
      | .error e => .error ("could not get sync subcommittee index: " ++ e)
      | .ok headSyncCommitteeIndices =>
        match addIndices subCommitteeSize subnetId msg st headSyncCommitteeIndices with
        | .error e => .error e
        | .ok st1 => collect D subCommitteeSize slot subnetId blockRoot st1 rest
    else collect D subCommitteeSize slot subnetId blockRoot st rest

/-- The second loop of `aggregatedSigAndAggregationBits`: the signature of the
message the map holds for each index, in the order of the indices. -/
def gatherSigs (sigMap : List (Nat × SyncCommitteeMessage)) : List Nat → Except String (List Bytes)
  | [] => .ok []
  | syncCommitteeIndex :: rest =>
    match sigMap.lookup syncCommitteeIndex with
    | none => .error ("could not get sync subcommittee index " ++ toString syncCommitteeIndex ++
        " in syncCommitteeIndicesSigMap")
    | some msg =>
      match gatherSigs sigMap rest with
      | .error e => .error e
      | .ok sigs => .ok (msg.Signature :: sigs)

/-- The function `aggregatedSigAndAggregationBits`: the aggregated signature and
the aggregation bits for a set of sync committee messages. `sort.Slice` is the
sort into ascending order. -/
def aggregatedSigAndAggregationBits (D : Deps) (msgs : List SyncCommitteeMessage)
    (slot subnetId : Nat) (blockRoot : Bytes) : Except String (Bytes × List Bool) :=
  if D.SyncCommitteeSubnetCount = 0 then .error "integer divide by zero"
  else
    let subCommitteeSize := D.SyncCommitteeSize / D.SyncCommitteeSubnetCount
    let bits := List.replicate D.bitsLen false
    match collect D subCommitteeSize slot subnetId blockRoot
        { bits := bits, syncCommitteeIndicesSigMap := [], appendedSyncCommitteeIndices := [] }
        msgs with
    | .error e => .error e
    | .ok st =>
      let sorted := st.appendedSyncCommitteeIndices.insertionSort (fun a b => a ≤ b)
      match gatherSigs st.syncCommitteeIndicesSigMap sorted with
      | .error e => .error e
      | .ok sigs =>
        if D.CryptoBytes = 0 then .error "index out of range"
        else
          let aggregatedSig := (List.replicate D.CryptoBytes 0).set 0 192
          if sigs.length ≠ 0 then
            match D.MultipleSignaturesFromBytes sigs with
            | .error e => .error ("could not decompress signatures: " ++ e)
            | .ok uncompressedSigs => .ok (D.UnaggregatedSignatures uncompressedSigs, st.bits)
          else .ok (aggregatedSig, st.bits)

/-- The request `zondpb.AggregatedSigAndAggregationBitsRequest`. -/
structure AggregatedSigAndAggregationBitsRequest where
  Msgs : List SyncCommitteeMessage
  Slot : Nat
  SubnetId : Nat
  BlockRoot : Bytes
deriving DecidableEq, Repr

/-- The response `zondpb.AggregatedSigAndAggregationBitsResponse`. -/
structure AggregatedSigAndAggregationBitsResponse where
  AggregatedSig : Bytes
  Bits : List Bool
deriving DecidableEq, Repr

/-- The method `AggregatedSigAndAggregationBits`: an error is returned as a
status of code `Internal` carrying its message. -/
def AggregatedSigAndAggregationBits (D : Deps) (req : AggregatedSigAndAggregationBitsRequest) :
    Except String AggregatedSigAndAggregationBitsResponse :=
  match aggregatedSigAndAggregationBits D req.Msgs req.Slot req.SubnetId req.BlockRoot with
  | .error e => .error e
  | .ok (aggregatedSig, bits) => .ok { AggregatedSig := aggregatedSig, Bits := bits }

/-- A configuration with a committee of 8 in 2 subnets (subcommittees of 4),
signatures of 3 bytes, a head in which validator `v` sits at the committee
indices `v` and `v + 4`, and signatures that are concatenated. -/
def toyDeps : Deps where
  SyncCommitteeSize := 8
  SyncCommitteeSubnetCount := 2
  bitsLen := 4
  CryptoBytes := 3
  HeadSyncCommitteeIndices := fun v _ => .ok [v, v + 4]
  MultipleSignaturesFromBytes := fun sigs => .ok sigs
  UnaggregatedSignatures := fun sigs => sigs.flatten

/-- Three messages: validators 2 and 1 for the block root `[7]`, validator 3
for another root. -/
def toyMsgs : List SyncCommitteeMessage :=
  [{ Slot := 1, BlockRoot := [7], ValidatorIndex := 2, Signature := [20] },
   { Slot := 1, BlockRoot := [8], ValidatorIndex := 3, Signature := [30] },
   { Slot := 1, BlockRoot := [7], ValidatorIndex := 1, Signature := [10] }]

/-- The invariant of the first loop of `aggregatedSigAndAggregationBits` over
messages taken from `src`: the appended indices are distinct and as many as
the set bits; each lies in the subnet, has its bit set and has a message in
the map, one of `src` for the block root whose head indices contain it; and
every set bit is the bit of an appended index. -/
def CollectInv (D : Deps) (sz slot subnetId : Nat) (blockRoot : Bytes)
    (src : List SyncCommitteeMessage) (st : AggState) : Prop :=
  st.appendedSyncCommitteeIndices.Nodup ∧
  st.bits.count true = st.appendedSyncCommitteeIndices.length ∧
  (∀ i ∈ st.appendedSyncCommitteeIndices,
    i / sz = subnetId ∧ BitAt st.bits (i % sz) = true) ∧
  (∀ j, BitAt st.bits j = true → ∃ i ∈ st.appendedSyncCommitteeIndices, i % sz = j) ∧
  (∀ i ∈ st.appendedSyncCommitteeIndices,
    ∃ m, st.syncCommitteeIndicesSigMap.lookup i = some m ∧ m ∈ src ∧
      m.BlockRoot = blockRoot ∧
      ∃ l, D.HeadSyncCommitteeIndices m.ValidatorIndex slot = .ok l ∧ i ∈ l)

/-- The last part of `aggregatedSigAndAggregationBits`, from the allocation of
`aggregatedSig` on: what is done with the signatures `sigs` the second loop
has gathered and with the aggregation bits. -/
def aggregate (D : Deps) (sigs : List Bytes) (bits : List Bool) :
    Except String (Bytes × List Bool) :=
  if D.CryptoBytes = 0 then .error "index out of range"
  else
    let aggregatedSig := (List.replicate D.CryptoBytes 0).set 0 192
    if sigs.length ≠ 0 then
      match D.MultipleSignaturesFromBytes sigs with
      | .error e => .error ("could not decompress signatures: " ++ e)
      | .ok uncompressedSigs => .ok (D.UnaggregatedSignatures uncompressedSigs, bits)
    else .ok (aggregatedSig, bits)

/-- The messages of `toyMsgs` in another order. -/
def toyMsgsSwapped : List SyncCommitteeMessage :=
  [{ Slot := 1, BlockRoot := [7], ValidatorIndex := 1, Signature := [10] },
   { Slot := 1, BlockRoot := [7], ValidatorIndex := 2, Signature := [20] },
   { Slot := 1, BlockRoot := [8], ValidatorIndex := 3, Signature := [30] }]

/-- The state in which the first loop ends on `toyMsgs`, subnet 0 and the block
root `[7]`: bits 1 and 2, index 2 appended before index 1. -/
def toyCollected : AggState where
  bits := [false, true, true, false]
  syncCommitteeIndicesSigMap :=
    [(1, { Slot := 1, BlockRoot := [7], ValidatorIndex := 1, Signature := [10] }),
     (2, { Slot := 1, BlockRoot := [7], ValidatorIndex := 2, Signature := [20] })]
  appendedSyncCommitteeIndices := [2, 1]

end validator

/-! ## `validator/client/beacon-api`: REST block to protobuf block -/

namespace beacon_api

/-- The operation messages of a block, in their JSON form and in their
protobuf form. Neither `apimiddleware` nor the protobuf packages are under
`src/`, and the converters only hand these messages to the `convert...ToProto`
helpers, so their types are left open. -/
structure OpTypes where
  ProposerSlashingJson : Type
  AttesterSlashingJson : Type
  AttestationJson : Type
  DepositJson : Type
  SignedVoluntaryExitJson : Type
  WithdrawalJson : Type
  SignedDilithiumToExecutionChangeJson : Type
  ProposerSlashing : Type
  AttesterSlashing : Type
  Attestation : Type
  Deposit : Type
  SignedVoluntaryExit : Type
  Withdrawal : Type
  SignedDilithiumToExecutionChange : Type

namespace apimiddleware

/-- The JSON message `apimiddleware.Eth1DataJson`. -/
structure Eth1DataJson where
  DepositRoot : String
  DepositCount : String
  BlockHash : String

/-- The JSON message `apimiddleware.SyncAggregateJson`. -/
structure SyncAggregateJson where
  SyncCommitteeBits : String
  SyncCommitteeSignature : String

/-- The JSON message `apimiddleware.ExecutionPayloadJson`. -/
structure ExecutionPayloadJson where
  ParentHash : String
  FeeRecipient : String
  StateRoot : String
  ReceiptsRoot : String
  LogsBloom : String
  PrevRandao : String
  BlockNumber : String
  GasLimit : String
  GasUsed : String
  TimeStamp : String
  ExtraData : String
  BaseFeePerGas : String
  BlockHash : String
  Transactions : List String

/-- The JSON message `apimiddleware.ExecutionPayloadCapellaJson`. -/
structure ExecutionPayloadCapellaJson (T : OpTypes) where
  ParentHash : String
  FeeRecipient : String
  StateRoot : String
  ReceiptsRoot : String
  LogsBloom : String
  PrevRandao : String
  BlockNumber : String
  GasLimit : String
  GasUsed : String
  TimeStamp : String
  ExtraData : String
  BaseFeePerGas : String
  BlockHash : String
  Transactions : List String
  Withdrawals : List T.WithdrawalJson

/-- The JSON message `apimiddleware.BeaconBlockBodyJson`; a pointer field is an option. -/
structure BeaconBlockBodyJson (T : OpTypes) where
  RandaoReveal : String
  Eth1Data : Option Eth1DataJson
  Graffiti : String
  ProposerSlashings : List T.ProposerSlashingJson
  AttesterSlashings : List T.AttesterSlashingJson
  Attestations : List T.AttestationJson
  Deposits : List T.DepositJson
  VoluntaryExits : List T.SignedVoluntaryExitJson

/-- The JSON message `apimiddleware.BeaconBlockBodyAltairJson`; a pointer field is an option. -/
structure BeaconBlockBodyAltairJson (T : OpTypes) where
  RandaoReveal : String
  Eth1Data : Option Eth1DataJson
  Graffiti : String
  ProposerSlashings : List T.ProposerSlashingJson
  AttesterSlashings : List T.AttesterSlashingJson
  Attestations : List T.AttestationJson
  Deposits : List T.DepositJson
  VoluntaryExits : List T.SignedVoluntaryExitJson
  SyncAggregate : Option SyncAggregateJson

/-- The JSON message `apimiddleware.BeaconBlockBodyBellatrixJson`; a pointer field is an option. -/
structure BeaconBlockBodyBellatrixJson (T : OpTypes) where
  RandaoReveal : String
  Eth1Data : Option Eth1DataJson
  Graffiti : String
  ProposerSlashings : List T.ProposerSlashingJson
  AttesterSlashings : List T.AttesterSlashingJson
  Attestations : List T.AttestationJson
  Deposits : List T.DepositJson
  VoluntaryExits : List T.SignedVoluntaryExitJson
  SyncAggregate : Option SyncAggregateJson
  ExecutionPayload : Option ExecutionPayloadJson

/-- The JSON message `apimiddleware.BeaconBlockBodyCapellaJson`; a pointer field is an option. -/
structure BeaconBlockBodyCapellaJson (T : OpTypes) where
  RandaoReveal : String
  Eth1Data : Option Eth1DataJson
  Graffiti : String
  ProposerSlashings : List T.ProposerSlashingJson
  AttesterSlashings : List T.AttesterSlashingJson
  Attestations : List T.AttestationJson
  Deposits : List T.DepositJson
  VoluntaryExits : List T.SignedVoluntaryExitJson
  SyncAggregate : Option SyncAggregateJson
  ExecutionPayload : Option (ExecutionPayloadCapellaJson T)
  DilithiumToExecutionChanges : List T.SignedDilithiumToExecutionChangeJson

/-- The JSON message `apimiddleware.BeaconBlockJson`. -/
structure BeaconBlockJson (T : OpTypes) where
  Slot : String
  ProposerIndex : String
  ParentRoot : String
  StateRoot : String
  Body : Option (BeaconBlockBodyJson T)

/-- The JSON message `apimiddleware.BeaconBlockAltairJson`. -/
structure BeaconBlockAltairJson (T : OpTypes) where
  Slot : String
  ProposerIndex : String
  ParentRoot : String
  StateRoot : String
  Body : Option (BeaconBlockBodyAltairJson T)

/-- The JSON message `apimiddleware.BeaconBlockBellatrixJson`. -/
structure BeaconBlockBellatrixJson (T : OpTypes) where
  Slot : String
  ProposerIndex : String
  ParentRoot : String
  StateRoot : String
  Body : Option (BeaconBlockBodyBellatrixJson T)

/-- The JSON message `apimiddleware.BeaconBlockCapellaJson`. -/
structure BeaconBlockCapellaJson (T : OpTypes) where
  Slot : String
  ProposerIndex : String
  ParentRoot : String
  StateRoot : String
  Body : Option (BeaconBlockBodyCapellaJson T)

end apimiddleware

namespace enginev1

/-- The message `enginev1.ExecutionPayload`. -/
structure ExecutionPayload where
  ParentHash : Bytes
  FeeRecipient : Bytes
  StateRoot : Bytes
  ReceiptsRoot : Bytes
  LogsBloom : Bytes
  PrevRandao : Bytes
  BlockNumber : Nat
  GasLimit : Nat
  GasUsed : Nat
  Timestamp : Nat
  ExtraData : Bytes
  BaseFeePerGas : Bytes
  BlockHash : Bytes
  Transactions : List Bytes

/-- The message `enginev1.ExecutionPayloadCapella`. -/
structure ExecutionPayloadCapella (T : OpTypes) where
  ParentHash : Bytes
  FeeRecipient : Bytes
  StateRoot : Bytes
  ReceiptsRoot : Bytes
  LogsBloom : Bytes
  PrevRandao : Bytes
  BlockNumber : Nat
  GasLimit : Nat
  GasUsed : Nat
  Timestamp : Nat
  ExtraData : Bytes
  BaseFeePerGas : Bytes
  BlockHash : Bytes
  Transactions : List Bytes
  Withdrawals : List T.Withdrawal

end enginev1

namespace zondpb

/-- The message `zondpb.SyncAggregate`. -/
structure SyncAggregate where
  SyncCommitteeBits : Bytes
  SyncCommitteeSignature : Bytes

/-- The message `zondpb.BeaconBlockBody`. The converters build every message they
point to, so the pointer fields are plain fields here. -/
structure BeaconBlockBody (T : OpTypes) where
  RandaoReveal : Bytes
  Eth1Data : state_native.Eth1Data
  Graffiti : Bytes
  ProposerSlashings : List T.ProposerSlashing
  AttesterSlashings : List T.AttesterSlashing
  Attestations : List T.Attestation
  Deposits : List T.Deposit
  VoluntaryExits : List T.SignedVoluntaryExit

/-- The message `zondpb.BeaconBlockBodyAltair`. The converters build every message they
point to, so the pointer fields are plain fields here. -/
structure BeaconBlockBodyAltair (T : OpTypes) where
  RandaoReveal : Bytes
  Eth1Data : state_native.Eth1Data
  Graffiti : Bytes
  ProposerSlashings : List T.ProposerSlashing
  AttesterSlashings : List T.AttesterSlashing
  Attestations : List T.Attestation
  Deposits : List T.Deposit
  VoluntaryExits : List T.SignedVoluntaryExit
  SyncAggregate : SyncAggregate

/-- The message `zondpb.BeaconBlockBodyBellatrix`. The converters build every message they
point to, so the pointer fields are plain fields here. -/
structure BeaconBlockBodyBellatrix (T : OpTypes) where
  RandaoReveal : Bytes
  Eth1Data : state_native.Eth1Data
  Graffiti : Bytes
  ProposerSlashings : List T.ProposerSlashing
  AttesterSlashings : List T.AttesterSlashing
  Attestations : List T.Attestation
  Deposits : List T.Deposit
  VoluntaryExits : List T.SignedVoluntaryExit
  SyncAggregate : SyncAggregate
  ExecutionPayload : enginev1.ExecutionPayload

/-- The message `zondpb.BeaconBlockBodyCapella`. The converters build every message they
point to, so the pointer fields are plain fields here. -/
structure BeaconBlockBodyCapella (T : OpTypes) where
  RandaoReveal : Bytes
  Eth1Data : state_native.Eth1Data
  Graffiti : Bytes
  ProposerSlashings : List T.ProposerSlashing
  AttesterSlashings : List T.AttesterSlashing
  Attestations : List T.Attestation
  Deposits : List T.Deposit
  VoluntaryExits : List T.SignedVoluntaryExit
  SyncAggregate : SyncAggregate
  ExecutionPayload : enginev1.ExecutionPayloadCapella T
  DilithiumToExecutionChanges : List T.SignedDilithiumToExecutionChange

/-- The message `zondpb.BeaconBlock`. -/
structure BeaconBlock (T : OpTypes) where
  Slot : Nat
  ProposerIndex : Nat
  ParentRoot : Bytes
  StateRoot : Bytes
  Body : BeaconBlockBody T

/-- The message `zondpb.BeaconBlockAltair`. -/
structure BeaconBlockAltair (T : OpTypes) where
  Slot : Nat
  ProposerIndex : Nat
  ParentRoot : Bytes
  StateRoot : Bytes
  Body : BeaconBlockBodyAltair T

/-- The message `zondpb.BeaconBlockBellatrix`. -/
structure BeaconBlockBellatrix (T : OpTypes) where
  Slot : Nat
  ProposerIndex : Nat
  ParentRoot : Bytes
  StateRoot : Bytes
  Body : BeaconBlockBodyBellatrix T

/-- The message `zondpb.BeaconBlockCapella`. -/
structure BeaconBlockCapella (T : OpTypes) where
  Slot : Nat
  ProposerIndex : Nat
  ParentRoot : Bytes
  StateRoot : Bytes
  Body : BeaconBlockBodyCapella T

end zondpb

open apimiddleware

/-- The functions the converters call that are not under `src/`: the parsers
of the Go library and of `hexutil`, the big-integer helpers of `bytesutil`, and
the `convert...ToProto` helpers of this package. -/
structure Deps (T : OpTypes) where
  /-- The call `strconv.ParseUint(s, 10, 64)`. -/
  ParseUint : String → Except String Nat
  /-- The call `hexutil.Decode(s)`. -/
  Decode : String → Except String Bytes
  /-- The call `new(big.Int).SetString(s, 10)`: the integer, or nothing on a
  malformed string. -/
  SetString : String → Option Int
  /-- The call `bytesutil.BigIntToLittleEndianBytes`. -/
  BigIntToLittleEndianBytes : Int → Bytes
  /-- The call `bytesutil.PadTo`. -/
  PadTo : Bytes → Nat → Bytes
  convertProposerSlashingsToProto : List T.ProposerSlashingJson → Except String (List T.ProposerSlashing)
  convertAttesterSlashingsToProto : List T.AttesterSlashingJson → Except String (List T.AttesterSlashing)
  convertAttestationsToProto : List T.AttestationJson → Except String (List T.Attestation)
  convertDepositsToProto : List T.DepositJson → Except String (List T.Deposit)
  convertVoluntaryExitsToProto : List T.SignedVoluntaryExitJson → Except String (List T.SignedVoluntaryExit)
  convertTransactionsToProto : List String → Except String (List Bytes)
  convertWithdrawalsToProto : List T.WithdrawalJson → Except String (List T.Withdrawal)
  convertDilithiumToExecutionChangesToProto :
    List T.SignedDilithiumToExecutionChangeJson →
      Except String (List T.SignedDilithiumToExecutionChange)

/-- The message of `errors.Wrap(err, message)` and of `errors.Wrapf`. -/
def Wrap (err : String) (message : String) : String := message ++ ": " ++ err

/-- The method `ConvertRESTPhase0BlockToProto`: the protobuf block and the
error, one of them nil. -/
def ConvertRESTPhase0BlockToProto {T : OpTypes} (D : Deps T) (block : BeaconBlockJson T) :
    Option (zondpb.BeaconBlock T) × Option String :=
  match D.ParseUint block.Slot with
  | .error err => (none, some (Wrap err ("failed to parse slot `" ++ block.Slot ++ "`")))
  | .ok blockSlot =>
  match D.ParseUint block.ProposerIndex with
  | .error err => (none, some (Wrap err ("failed to parse proposer index `" ++ block.ProposerIndex ++ "`")))
  | .ok blockProposerIndex =>
  match D.Decode block.ParentRoot with
  | .error err => (none, some (Wrap err ("failed to decode parent root `" ++ block.ParentRoot ++ "`")))
  | .ok parentRoot =>
  match D.Decode block.StateRoot with
  | .error err => (none, some (Wrap err ("failed to decode state root `" ++ block.StateRoot ++ "`")))
  | .ok stateRoot =>
  match block.Body with
  | none => (none, some "block body is nil")
  | some body =>
  match D.Decode body.RandaoReveal with
  | .error err => (none, some (Wrap err ("failed to decode randao reveal `" ++ body.RandaoReveal ++ "`")))
  | .ok randaoReveal =>
  match body.Eth1Data with
  | none => (none, some "eth1 data is nil")
  | some eth1Data =>
  match D.Decode eth1Data.DepositRoot with
  | .error err => (none, some (Wrap err ("failed to decode deposit root `" ++ eth1Data.DepositRoot ++ "`")))
  | .ok depositRoot =>
  match D.ParseUint eth1Data.DepositCount with
  | .error err => (none, some (Wrap err ("failed to parse deposit count `" ++ eth1Data.DepositCount ++ "`")))
  | .ok depositCount =>
  match D.Decode eth1Data.BlockHash with
  | .error err => (none, some (Wrap err ("failed to decode block hash `" ++ eth1Data.BlockHash ++ "`")))
  | .ok blockHash =>
  match D.Decode body.Graffiti with
  | .error err => (none, some (Wrap err ("failed to decode graffiti `" ++ body.Graffiti ++ "`")))
  | .ok graffiti =>
  match D.convertProposerSlashingsToProto body.ProposerSlashings with
  | .error err => (none, some (Wrap err "failed to get proposer slashings"))
  | .ok proposerSlashings =>
  match D.convertAttesterSlashingsToProto body.AttesterSlashings with
  | .error err => (none, some (Wrap err "failed to get attester slashings"))
  | .ok attesterSlashings =>
  match D.convertAttestationsToProto body.Attestations with
  | .error err => (none, some (Wrap err "failed to get attestations"))
  | .ok attestations =>
  match D.convertDepositsToProto body.Deposits with
  | .error err => (none, some (Wrap err "failed to get deposits"))
  | .ok deposits =>
  match D.convertVoluntaryExitsToProto body.VoluntaryExits with
  | .error err => (none, some (Wrap err "failed to get voluntary exits"))
  | .ok voluntaryExits =>
  (some
    { Slot := blockSlot
      ProposerIndex := blockProposerIndex
      ParentRoot := parentRoot
      StateRoot := stateRoot
      Body :=
        { RandaoReveal := randaoReveal
          Eth1Data :=
            { DepositRoot := depositRoot
              DepositCount := depositCount
              BlockHash := blockHash }
          Graffiti := graffiti
          ProposerSlashings := proposerSlashings
          AttesterSlashings := attesterSlashings
          Attestations := attestations
          Deposits := deposits
          VoluntaryExits := voluntaryExits } }, none)

/-- The Phase0 block that `ConvertRESTAltairBlockToProto` builds from an Altair
block of body `body`: the fields of the block and of the body that Phase0 has. -/
def phase0Fields {T : OpTypes} (block : BeaconBlockAltairJson T)
    (body : BeaconBlockBodyAltairJson T) :
    BeaconBlockJson T :=
  { Slot := block.Slot
    ProposerIndex := block.ProposerIndex
    ParentRoot := block.ParentRoot
    StateRoot := block.StateRoot
    Body := some
      { RandaoReveal := body.RandaoReveal
        Eth1Data := body.Eth1Data
        Graffiti := body.Graffiti
        ProposerSlashings := body.ProposerSlashings
        AttesterSlashings := body.AttesterSlashings
        Attestations := body.Attestations
        Deposits := body.Deposits
        VoluntaryExits := body.VoluntaryExits } }

/-- The method `ConvertRESTAltairBlockToProto`. The dereference of a nil block
from the Phase0 converter would be a panic; it is given as an error here, and
is never reached (`ConvertRESTPhase0BlockToProto_shape`). -/
def ConvertRESTAltairBlockToProto {T : OpTypes} (D : Deps T) (block : BeaconBlockAltairJson T) :
    Option (zondpb.BeaconBlockAltair T) × Option String :=
  match block.Body with
  | none => (none, some "block body is nil")
  | some body =>
  match ConvertRESTPhase0BlockToProto D (phase0Fields block body) with
  | (_, some err) =>
    (none, some (Wrap err "failed to get the phase0 fields of the altair block"))
  | (none, none) => (none, some "invalid memory address or nil pointer dereference")
  | (some phase0Block, none) =>
  match body.SyncAggregate with
  | none => (none, some "sync aggregate is nil")
  | some syncAggregate =>
  match D.Decode syncAggregate.SyncCommitteeBits with
  | .error err => (none, some (Wrap err ("failed to decode sync committee bits `" ++ syncAggregate.SyncCommitteeBits ++ "`")))
  | .ok syncCommitteeBits =>
  match D.Decode syncAggregate.SyncCommitteeSignature with
  | .error err => (none, some (Wrap err ("failed to decode sync committee signature `" ++ syncAggregate.SyncCommitteeSignature ++ "`")))
  | .ok syncCommitteeSignature =>
  (some
    { Slot := phase0Block.Slot
      ProposerIndex := phase0Block.ProposerIndex
      ParentRoot := phase0Block.ParentRoot
      StateRoot := phase0Block.StateRoot
      Body :=
        { RandaoReveal := phase0Block.Body.RandaoReveal
          Eth1Data := phase0Block.Body.Eth1Data
          Graffiti := phase0Block.Body.Graffiti
          ProposerSlashings := phase0Block.Body.ProposerSlashings
          AttesterSlashings := phase0Block.Body.AttesterSlashings
          Attestations := phase0Block.Body.Attestations
          Deposits := phase0Block.Body.Deposits
          VoluntaryExits := phase0Block.Body.VoluntaryExits
          SyncAggregate :=
            { SyncCommitteeBits := syncCommitteeBits
              SyncCommitteeSignature := syncCommitteeSignature } } }, none)

/-- The Altair block that `ConvertRESTBellatrixBlockToProto` builds from a
Bellatrix block of body `body`. -/
def altairFields {T : OpTypes} (block : BeaconBlockBellatrixJson T)
    (body : BeaconBlockBodyBellatrixJson T) :
    BeaconBlockAltairJson T :=
  { Slot := block.Slot
    ProposerIndex := block.ProposerIndex
    ParentRoot := block.ParentRoot
    StateRoot := block.StateRoot
    Body := some
      { RandaoReveal := body.RandaoReveal
        Eth1Data := body.Eth1Data
        Graffiti := body.Graffiti
        ProposerSlashings := body.ProposerSlashings
        AttesterSlashings := body.AttesterSlashings
        Attestations := body.Attestations
        Deposits := body.Deposits
        VoluntaryExits := body.VoluntaryExits
        SyncAggregate := body.SyncAggregate } }

/-- The method `ConvertRESTBellatrixBlockToProto`; the nil dereference is as in
`ConvertRESTAltairBlockToProto`. -/
def ConvertRESTBellatrixBlockToProto {T : OpTypes} (D : Deps T) (block : BeaconBlockBellatrixJson T) :
    Option (zondpb.BeaconBlockBellatrix T) × Option String :=
  match block.Body with
  | none => (none, some "block body is nil")
  | some body =>
  match ConvertRESTAltairBlockToProto D (altairFields block body) with
  | (_, some err) =>
    (none, some (Wrap err "failed to get the altair fields of the bellatrix block"))
  | (none, none) => (none, some "invalid memory address or nil pointer dereference")
  | (some altairBlock, none) =>
  match body.ExecutionPayload with
  | none => (none, some "execution payload is nil")
  | some payload =>
  match D.Decode payload.ParentHash with
  | .error err => (none, some (Wrap err ("failed to decode execution payload parent hash `" ++ payload.ParentHash ++ "`")))
  | .ok parentHash =>
  match D.Decode payload.FeeRecipient with
  | .error err => (none, some (Wrap err ("failed to decode execution payload fee recipient `" ++ payload.FeeRecipient ++ "`")))
  | .ok feeRecipient =>
  match D.Decode payload.StateRoot with
  | .error err => (none, some (Wrap err ("failed to decode execution payload state root `" ++ payload.StateRoot ++ "`")))
  | .ok stateRoot =>
  match D.Decode payload.ReceiptsRoot with
  | .error err => (none, some (Wrap err ("failed to decode execution payload receipts root `" ++ payload.ReceiptsRoot ++ "`")))
  | .ok receiptsRoot =>
  match D.Decode payload.LogsBloom with
  | .error err => (none, some (Wrap err ("failed to decode execution payload logs bloom `" ++ payload.LogsBloom ++ "`")))
  | .ok logsBloom =>
  match D.Decode payload.PrevRandao with
  | .error err => (none, some (Wrap err ("failed to decode execution payload prev randao `" ++ payload.PrevRandao ++ "`")))
  | .ok prevRandao =>
  match D.ParseUint payload.BlockNumber with
  | .error err => (none, some (Wrap err ("failed to parse execution payload block number `" ++ payload.BlockNumber ++ "`")))
  | .ok blockNumber =>
  match D.ParseUint payload.GasLimit with
  | .error err => (none, some (Wrap err ("failed to parse execution payload gas limit `" ++ payload.GasLimit ++ "`")))
  | .ok gasLimit =>
  match D.ParseUint payload.GasUsed with
  | .error err => (none, some (Wrap err ("failed to parse execution payload gas used `" ++ payload.GasUsed ++ "`")))
  | .ok gasUsed =>
  match D.ParseUint payload.TimeStamp with
  | .error err => (none, some (Wrap err ("failed to parse execution payload timestamp `" ++ payload.TimeStamp ++ "`")))
  | .ok timestamp =>
  match D.Decode payload.ExtraData with
  | .error err => (none, some (Wrap err ("failed to decode execution payload extra data `" ++ payload.ExtraData ++ "`")))
  | .ok extraData =>
  match D.SetString payload.BaseFeePerGas with
  | none =>
    (none, some ("failed to parse execution payload base fee per gas `" ++
      payload.BaseFeePerGas ++ "`"))
  | some baseFeePerGas =>
  match D.Decode payload.BlockHash with
  | .error err => (none, some (Wrap err ("failed to decode execution payload block hash `" ++ payload.BlockHash ++ "`")))
  | .ok blockHash =>
  match D.convertTransactionsToProto payload.Transactions with
  | .error err => (none, some (Wrap err "failed to get execution payload transactions"))
  | .ok transactions =>
  (some
    { Slot := altairBlock.Slot
      ProposerIndex := altairBlock.ProposerIndex
      ParentRoot := altairBlock.ParentRoot
      StateRoot := altairBlock.StateRoot
      Body :=
        { RandaoReveal := altairBlock.Body.RandaoReveal
          Eth1Data := altairBlock.Body.Eth1Data
          Graffiti := altairBlock.Body.Graffiti
          ProposerSlashings := altairBlock.Body.ProposerSlashings
          AttesterSlashings := altairBlock.Body.AttesterSlashings
          Attestations := altairBlock.Body.Attestations
          Deposits := altairBlock.Body.Deposits
          VoluntaryExits := altairBlock.Body.VoluntaryExits
          SyncAggregate := altairBlock.Body.SyncAggregate
          ExecutionPayload :=
            { ParentHash := parentHash
              FeeRecipient := feeRecipient
              StateRoot := stateRoot
              ReceiptsRoot := receiptsRoot
              LogsBloom := logsBloom
              PrevRandao := prevRandao
              BlockNumber := blockNumber
              GasLimit := gasLimit
              GasUsed := gasUsed
              Timestamp := timestamp
              ExtraData := extraData
              BaseFeePerGas := D.PadTo (D.BigIntToLittleEndianBytes baseFeePerGas) 32
              BlockHash := blockHash
              Transactions := transactions } } }, none)

/-- The Bellatrix block that `ConvertRESTCapellaBlockToProto` builds from a
Capella block of body `body` and execution payload `payload`: the payload is
copied without its withdrawals. -/
def bellatrixFields {T : OpTypes} (block : BeaconBlockCapellaJson T)
    (body : BeaconBlockBodyCapellaJson T) (payload : ExecutionPayloadCapellaJson T) : BeaconBlockBellatrixJson T :=
  { Slot := block.Slot
    ProposerIndex := block.ProposerIndex
    ParentRoot := block.ParentRoot
    StateRoot := block.StateRoot
    Body := some
      { RandaoReveal := body.RandaoReveal
        Eth1Data := body.Eth1Data
        Graffiti := body.Graffiti
        ProposerSlashings := body.ProposerSlashings
        AttesterSlashings := body.AttesterSlashings
        Attestations := body.Attestations
        Deposits := body.Deposits
        VoluntaryExits := body.VoluntaryExits
        SyncAggregate := body.SyncAggregate
        ExecutionPayload := some
          { ParentHash := payload.ParentHash
            FeeRecipient := payload.FeeRecipient
            StateRoot := payload.StateRoot
            ReceiptsRoot := payload.ReceiptsRoot
            LogsBloom := payload.LogsBloom
            PrevRandao := payload.PrevRandao
            BlockNumber := payload.BlockNumber
            GasLimit := payload.GasLimit
            GasUsed := payload.GasUsed
            TimeStamp := payload.TimeStamp
            ExtraData := payload.ExtraData
            BaseFeePerGas := payload.BaseFeePerGas
            BlockHash := payload.BlockHash
            Transactions := payload.Transactions } } }

/-- The method `ConvertRESTCapellaBlockToProto`; the nil dereference is as in
`ConvertRESTAltairBlockToProto`. -/
def ConvertRESTCapellaBlockToProto {T : OpTypes} (D : Deps T) (block : BeaconBlockCapellaJson T) :
    Option (zondpb.BeaconBlockCapella T) × Option String :=
  match block.Body with
  | none => (none, some "block body is nil")
  | some body =>
  match body.ExecutionPayload with
  | none => (none, some "execution payload is nil")
  | some payload =>
  match ConvertRESTBellatrixBlockToProto D (bellatrixFields block body payload) with
  | (_, some err) =>
    (none, some (Wrap err "failed to get the bellatrix fields of the capella block"))
  | (none, none) => (none, some "invalid memory address or nil pointer dereference")
  | (some bellatrixBlock, none) =>
  match D.convertWithdrawalsToProto payload.Withdrawals with
  | .error err => (none, some (Wrap err "failed to get withdrawals"))
  | .ok withdrawals =>
  match D.convertDilithiumToExecutionChangesToProto body.DilithiumToExecutionChanges with
  | .error err => (none, some (Wrap err "failed to get dilithium to execution changes"))
  | .ok dilithiumToExecutionChanges =>
  (some
    { Slot := bellatrixBlock.Slot
      ProposerIndex := bellatrixBlock.ProposerIndex
      ParentRoot := bellatrixBlock.ParentRoot
      StateRoot := bellatrixBlock.StateRoot
      Body :=
        { RandaoReveal := bellatrixBlock.Body.RandaoReveal
          Eth1Data := bellatrixBlock.Body.Eth1Data
          Graffiti := bellatrixBlock.Body.Graffiti
          ProposerSlashings := bellatrixBlock.Body.ProposerSlashings
          AttesterSlashings := bellatrixBlock.Body.AttesterSlashings
          Attestations := bellatrixBlock.Body.Attestations
          Deposits := bellatrixBlock.Body.Deposits
          VoluntaryExits := bellatrixBlock.Body.VoluntaryExits
          SyncAggregate := bellatrixBlock.Body.SyncAggregate
          ExecutionPayload :=
            { ParentHash := bellatrixBlock.Body.ExecutionPayload.ParentHash
              FeeRecipient := bellatrixBlock.Body.ExecutionPayload.FeeRecipient
              StateRoot := bellatrixBlock.Body.ExecutionPayload.StateRoot
              ReceiptsRoot := bellatrixBlock.Body.ExecutionPayload.ReceiptsRoot
              LogsBloom := bellatrixBlock.Body.ExecutionPayload.LogsBloom
              PrevRandao := bellatrixBlock.Body.ExecutionPayload.PrevRandao
              BlockNumber := bellatrixBlock.Body.ExecutionPayload.BlockNumber
              GasLimit := bellatrixBlock.Body.ExecutionPayload.GasLimit
              GasUsed := bellatrixBlock.Body.ExecutionPayload.GasUsed
              Timestamp := bellatrixBlock.Body.ExecutionPayload.Timestamp
              ExtraData := bellatrixBlock.Body.ExecutionPayload.ExtraData
              BaseFeePerGas := bellatrixBlock.Body.ExecutionPayload.BaseFeePerGas
              BlockHash := bellatrixBlock.Body.ExecutionPayload.BlockHash
              Transactions := bellatrixBlock.Body.ExecutionPayload.Transactions
              Withdrawals := withdrawals }
          DilithiumToExecutionChanges := dilithiumToExecutionChanges } }, none)


/-- The block and body fields an Altair protobuf block shares with a Phase0
one are equal. -/
def agreesPhase0 {T : OpTypes} (r : zondpb.BeaconBlockAltair T) (p : zondpb.BeaconBlock T) :
    Prop :=
  r.Slot = p.Slot ∧ r.ProposerIndex = p.ProposerIndex ∧ r.ParentRoot = p.ParentRoot ∧
  r.StateRoot = p.StateRoot ∧ r.Body.RandaoReveal = p.Body.RandaoReveal ∧
  r.Body.Eth1Data = p.Body.Eth1Data ∧ r.Body.Graffiti = p.Body.Graffiti ∧
  r.Body.ProposerSlashings = p.Body.ProposerSlashings ∧
  r.Body.AttesterSlashings = p.Body.AttesterSlashings ∧
  r.Body.Attestations = p.Body.Attestations ∧ r.Body.Deposits = p.Body.Deposits ∧
  r.Body.VoluntaryExits = p.Body.VoluntaryExits

/-- The block and body fields a Bellatrix protobuf block shares with an Altair
one are equal. -/
def agreesAltair {T : OpTypes} (r : zondpb.BeaconBlockBellatrix T)
    (p : zondpb.BeaconBlockAltair T) : Prop :=
  r.Slot = p.Slot ∧ r.ProposerIndex = p.ProposerIndex ∧ r.ParentRoot = p.ParentRoot ∧
  r.StateRoot = p.StateRoot ∧ r.Body.RandaoReveal = p.Body.RandaoReveal ∧
  r.Body.Eth1Data = p.Body.Eth1Data ∧ r.Body.Graffiti = p.Body.Graffiti ∧
  r.Body.ProposerSlashings = p.Body.ProposerSlashings ∧
  r.Body.AttesterSlashings = p.Body.AttesterSlashings ∧
  r.Body.Attestations = p.Body.Attestations ∧ r.Body.Deposits = p.Body.Deposits ∧
  r.Body.VoluntaryExits = p.Body.VoluntaryExits ∧
  r.Body.SyncAggregate = p.Body.SyncAggregate

/-- The block and body fields a Capella protobuf block shares with a Bellatrix
one are equal, the fields of the execution payload included. -/
def agreesBellatrix {T : OpTypes} (r : zondpb.BeaconBlockCapella T)
    (p : zondpb.BeaconBlockBellatrix T) : Prop :=
  r.Slot = p.Slot ∧ r.ProposerIndex = p.ProposerIndex ∧ r.ParentRoot = p.ParentRoot ∧
  r.StateRoot = p.StateRoot ∧ r.Body.RandaoReveal = p.Body.RandaoReveal ∧
  r.Body.Eth1Data = p.Body.Eth1Data ∧ r.Body.Graffiti = p.Body.Graffiti ∧
  r.Body.ProposerSlashings = p.Body.ProposerSlashings ∧
  r.Body.AttesterSlashings = p.Body.AttesterSlashings ∧
  r.Body.Attestations = p.Body.Attestations ∧ r.Body.Deposits = p.Body.Deposits ∧
  r.Body.VoluntaryExits = p.Body.VoluntaryExits ∧
  r.Body.SyncAggregate = p.Body.SyncAggregate ∧
  r.Body.ExecutionPayload.ParentHash = p.Body.ExecutionPayload.ParentHash ∧
  r.Body.ExecutionPayload.FeeRecipient = p.Body.ExecutionPayload.FeeRecipient ∧
  r.Body.ExecutionPayload.StateRoot = p.Body.ExecutionPayload.StateRoot ∧
  r.Body.ExecutionPayload.ReceiptsRoot = p.Body.ExecutionPayload.ReceiptsRoot ∧
  r.Body.ExecutionPayload.LogsBloom = p.Body.ExecutionPayload.LogsBloom ∧
  r.Body.ExecutionPayload.PrevRandao = p.Body.ExecutionPayload.PrevRandao ∧
  r.Body.ExecutionPayload.BlockNumber = p.Body.ExecutionPayload.BlockNumber ∧
  r.Body.ExecutionPayload.GasLimit = p.Body.ExecutionPayload.GasLimit ∧
  r.Body.ExecutionPayload.GasUsed = p.Body.ExecutionPayload.GasUsed ∧
  r.Body.ExecutionPayload.Timestamp = p.Body.ExecutionPayload.Timestamp ∧
  r.Body.ExecutionPayload.ExtraData = p.Body.ExecutionPayload.ExtraData ∧
  r.Body.ExecutionPayload.BaseFeePerGas = p.Body.ExecutionPayload.BaseFeePerGas ∧
  r.Body.ExecutionPayload.BlockHash = p.Body.ExecutionPayload.BlockHash ∧
  r.Body.ExecutionPayload.Transactions = p.Body.ExecutionPayload.Transactions

/-- Example types: every JSON operation is a string, every protobuf operation
a number. -/
def toyTypes : OpTypes where
  ProposerSlashingJson := String
  AttesterSlashingJson := String
  AttestationJson := String
  DepositJson := String
  SignedVoluntaryExitJson := String
  WithdrawalJson := String
  SignedDilithiumToExecutionChangeJson := String
  ProposerSlashing := Nat
  AttesterSlashing := Nat
  Attestation := Nat
  Deposit := Nat
  SignedVoluntaryExit := Nat
  Withdrawal := Nat
  SignedDilithiumToExecutionChange := Nat

/-- Example decimal parser: the digits of the string, most significant first. -/
def toyParseUint (s : String) : Except String Nat :=
  if s.data = [] ∨ ∃ c ∈ s.data, ¬ (48 ≤ c.toNat ∧ c.toNat ≤ 57) then
    .error "invalid syntax"
  else .ok (s.data.foldl (fun n c => 10 * n + (c.toNat - 48)) 0)

/-- Example hexadecimal decoder: the prefix `0x` is required, and what follows
is read as one byte per character. -/
def toyDecode (s : String) : Except String Bytes :=
  match s.data with
  | '0' :: 'x' :: rest => .ok (rest.map (fun c => c.toNat % 256))
  | _ => .error "hex string without 0x prefix"

/-- Example operation converter: the length of each string. -/
def toyConvert (l : List String) : Except String (List Nat) :=
  .ok (l.map String.length)

/-- Example helpers for the converters. -/
def toyDeps : Deps toyTypes where
  ParseUint := toyParseUint
  Decode := toyDecode
  SetString := fun s =>
    match toyParseUint s with
    | .ok n => some (Int.ofNat n)
    | .error _ => none
  BigIntToLittleEndianBytes := fun x => [x.toNat % 256, x.toNat / 256 % 256]
  PadTo := fun b n => b ++ List.replicate (n - b.length) 0
  convertProposerSlashingsToProto := toyConvert
  convertAttesterSlashingsToProto := toyConvert
  convertAttestationsToProto := toyConvert
  convertDepositsToProto := toyConvert
  convertVoluntaryExitsToProto := toyConvert
  convertTransactionsToProto := fun l => .ok (l.map (fun s => s.data.map (fun c => c.toNat % 256)))
  convertWithdrawalsToProto := toyConvert
  convertDilithiumToExecutionChangesToProto := toyConvert

/-- Example Capella execution payload. -/
def toyPayload : ExecutionPayloadCapellaJson toyTypes where
  ParentHash := "0xa"
  FeeRecipient := "0xb"
  StateRoot := "0xc"
  ReceiptsRoot := "0xd"
  LogsBloom := "0xe"
  PrevRandao := "0xf"
  BlockNumber := "9"
  GasLimit := "30"
  GasUsed := "21"
  TimeStamp := "1700"
  ExtraData := "0x"
  BaseFeePerGas := "7"
  BlockHash := "0xh"
  Transactions := ["t"]
  Withdrawals := ["w1", "w2"]

/-- Example Capella body. -/
def toyBody : BeaconBlockBodyCapellaJson toyTypes where
  RandaoReveal := "0xr"
  Eth1Data := some { DepositRoot := "0xd", DepositCount := "12", BlockHash := "0xb" }
  Graffiti := "0xg"
  ProposerSlashings := []
  AttesterSlashings := ["as"]
  Attestations := ["a", "bb"]
  Deposits := []
  VoluntaryExits := ["exit"]
  SyncAggregate := some { SyncCommitteeBits := "0xs", SyncCommitteeSignature := "0xt" }
  ExecutionPayload := some toyPayload
  DilithiumToExecutionChanges := ["change"]

/-- Example Capella block: slot 5, proposer 3. -/
def toyCapella : BeaconBlockCapellaJson toyTypes where
  Slot := "5"
  ProposerIndex := "3"
  ParentRoot := "0xp"
  StateRoot := "0xs"
  Body := some toyBody

/-- Example Bellatrix block: the Bellatrix fields of `toyCapella`. -/
def toyBellatrix : BeaconBlockBellatrixJson toyTypes :=
  bellatrixFields toyCapella toyBody toyPayload

/-- Example Altair block: the Altair fields of `toyCapella`. -/
def toyAltair : BeaconBlockAltairJson toyTypes :=
  { Slot := "5"
    ProposerIndex := "3"
    ParentRoot := "0xp"
    StateRoot := "0xs"
    Body := some
      { RandaoReveal := "0xr"
        Eth1Data := some { DepositRoot := "0xd", DepositCount := "12", BlockHash := "0xb" }
        Graffiti := "0xg"
        ProposerSlashings := []
        AttesterSlashings := ["as"]
        Attestations := ["a", "bb"]
        Deposits := []
        VoluntaryExits := ["exit"]
        SyncAggregate :=
          some { SyncCommitteeBits := "0xs", SyncCommitteeSignature := "0xt" } } }

end beacon_api

/-! ## `validator/client/beacon-api`: waiting for the chain start -/

namespace beacon_api

/-- The JSON error `apimiddleware.DefaultErrorJson` of the gateway. -/
structure DefaultErrorJson where
  Message : String
  Code : Int
deriving DecidableEq, Repr

/-- The JSON message `rpcmiddleware.GenesisResponse_GenesisJson`. -/
structure GenesisResponse_GenesisJson where
  GenesisTime : String
  GenesisValidatorsRoot : String
  GenesisForkVersion : String
deriving DecidableEq, Repr

/-- The three results of `genesisProvider.GetGenesis`. -/
structure GetGenesisResult where
  genesis : Option GenesisResponse_GenesisJson
  httpError : Option DefaultErrorJson
  err : Option String
deriving DecidableEq, Repr

/-- The message `zondpb.ChainStartResponse`. -/
structure ChainStartResponse where
  Started : Bool
  GenesisTime : Nat
  GenesisValidatorsRoot : Bytes
deriving DecidableEq, Repr

/-- The constant `http.StatusNotFound`. -/
def StatusNotFound : Int := 404

/-- What `waitForChainStart` meets outside itself: the answer of the genesis
provider to its call number `k` (from 0), whether at the wait that follows
call `k` the timer fires before the context is done, and the two parsers. -/
structure GenesisEnv where
  GetGenesis : Nat → GetGenesisResult
  timerFirst : Nat → Bool
  ParseUint : String → Except String Nat
  Decode : String → Except String Bytes

/-- A character of the class `[a-fA-F0-9]`. -/
def isHexDigit (c : Char) : Bool :=
  (48 ≤ c.toNat && c.toNat ≤ 57) || (97 ≤ c.toNat && c.toNat ≤ 102) ||
    (65 ≤ c.toNat && c.toNat ≤ 70)

/-- The function `validRoot`: the string matches `^0x[a-fA-F0-9]{64}$`. -/
def validRoot (root : String) : Bool :=
  match root.data with
  | '0' :: 'x' :: rest => rest.length == 64 && rest.all isHexDigit
  | _ => false

/-- How the loop of `waitForChainStart` ends: with the error of a failed query,
with a cancelled context, or with the genesis of a query that succeeded. -/
inductive LoopExit where
  | failed (err : String)
  | canceled
  | ready (genesis : Option GenesisResponse_GenesisJson)
deriving DecidableEq, Repr

/-- The loop `for err != nil` of `waitForChainStart`, entered with the result
of call number `k`; `fuel` bounds the number of waits. The result is how the
loop ends and how many calls of `GetGenesis` were made, or nothing when the
fuel runs out. -/
def queryLoop (E : GenesisEnv) : Nat → Nat → Option (LoopExit × Nat)
  | fuel, k =>
    match (E.GetGenesis k).err with
    | none => some (.ready (E.GetGenesis k).genesis, k + 1)
    | some err =>
      match (E.GetGenesis k).httpError with
      | none => some (.failed (Wrap err "failed to get genesis data"), k + 1)
      | some httpError =>
        if httpError.Code ≠ StatusNotFound then
          some (.failed (Wrap err "failed to get genesis data"), k + 1)
        else
          match fuel with
          | 0 => none
          | fuel1 + 1 =>
            if E.timerFirst k then queryLoop E fuel1 (k + 1)
            else some (.canceled, k + 1)

/-- The part of `waitForChainStart` after the loop: the response built from the
genesis. A nil genesis is dereferenced, which panics. -/
def chainStart (E : GenesisEnv) (genesis : Option GenesisResponse_GenesisJson) :
    Except String (Option ChainStartResponse × Option String) :=
  match genesis with
  | none => .error "invalid memory address or nil pointer dereference"
  | some genesis =>
    match E.ParseUint genesis.GenesisTime with
    | .error err =>
      .ok (none, some (Wrap err ("failed to parse genesis time: " ++ genesis.GenesisTime)))
    | .ok genesisTime =>
      if ¬ validRoot genesis.GenesisValidatorsRoot then
        .ok (none, some ("invalid genesis validators root: " ++ genesis.GenesisValidatorsRoot))
      else
        match E.Decode genesis.GenesisValidatorsRoot with
        | .error err => .ok (none, some (Wrap err "failed to decode genesis validators root"))
        | .ok genesisValidatorRoot =>
          .ok (some { Started := true, GenesisTime := genesisTime,
                      GenesisValidatorsRoot := genesisValidatorRoot }, none)

/-- The method `waitForChainStart`, with at most `fuel` waits: the response and
the error (or a panic), and the number of calls of `GetGenesis` made; nothing
when it is still waiting after `fuel` waits. -/
def waitForChainStart (E : GenesisEnv) (fuel : Nat) :
    Option (Except String (Option ChainStartResponse × Option String) × Nat) :=
  match queryLoop E fuel 0 with
  | none => none
  | some (.failed err, calls) => some (.ok (none, some err), calls)
  | some (.canceled, calls) => some (.ok (none, some "context canceled"), calls)
  | some (.ready genesis, calls) => some (chainStart E genesis, calls)

/-- An example environment: the node answers 404 twice, then 500, and the
timer always fires first. -/
def toyGenesisEnv : GenesisEnv where
  GetGenesis := fun k =>
    if k < 2 then
      { genesis := none, httpError := some { Message := "not found", Code := 404 },
        err := some "failed to get json response" }
    else
      { genesis := none, httpError := some { Message := "internal", Code := 500 },
        err := some "failed to get json response" }
  timerFirst := fun _ => true
  ParseUint := toyParseUint
  Decode := toyDecode

end beacon_api

/-! ## `beacon-chain/rpc/eth/beacon`: block broadcast validation and sync
committee signatures -/

namespace beacon

/-- The constant `broadcastValidationQueryParam`. -/
def broadcastValidationQueryParam : String := "broadcast_validation"

/-- The constant `broadcastValidationConsensus`. -/
def broadcastValidationConsensus : String := "consensus"

/-- The constant `broadcastValidationConsensusAndEquivocation`. -/
def broadcastValidationConsensusAndEquivocation : String := "consensus_and_equivocation"

/-- The type `url.Values` of the Go library: the values of each key of a query. -/
abbrev Values := List (String × List String)

/-- The method `url.Values.Get`: the first value of the key, the empty string
when the key has no value. -/
def Values.Get (v : Values) (key : String) : String :=
  match v.lookup key with
  | some (x :: _) => x
  | _ => ""

/-- The message of `errors.Wrap(err, message)` and of `errors.Wrapf`. -/
def Wrap (err : String) (message : String) : String := message ++ ": " ++ err

/-- The calls a broadcast validation makes outside the handlers, recorded in
the order they are made. -/
inductive Call where
  | NewSignedBeaconBlock
  | State
  | ExecuteStateTransition
  | HighestReceivedBlockSlot
deriving DecidableEq, Repr

/-- What the validation of a broadcast uses of the server and of packages that
are not under `src/`: over generic blocks `G`, wrapped blocks `B` and states
`S`, the wrapper `blocks.NewSignedBeaconBlock`, the parent root and the slot
of a wrapped block, `Stater.State`, `transition.ExecuteStateTransition` and
`ForkchoiceFetcher.HighestReceivedBlockSlot`. -/
structure Server (G B S : Type) where
  NewSignedBeaconBlock : G → Except String B
  ParentRoot : B → Bytes
  Slot : B → Nat
  State : Bytes → Except String S
  ExecuteStateTransition : S → B → Except String S
  HighestReceivedBlockSlot : Nat

/-- The method `validateConsensus`: the error, and the calls made. -/
def validateConsensus {G B S : Type} (bs : Server G B S) (blk : B) :
    Option String × List Call :=
  let parentRoot := bs.ParentRoot blk
  match bs.State parentRoot with
  | .error err => (some (Wrap err "could not get parent state"), [.State])
  | .ok parentState =>
    match bs.ExecuteStateTransition parentState blk with
    | .error err =>
      (some (Wrap err "could not execute state transition"),
        [.State, .ExecuteStateTransition])
    | .ok _ => (none, [.State, .ExecuteStateTransition])

/-- The method `validateEquivocation`: the error, and the calls made. -/
def validateEquivocation {G B S : Type} (bs : Server G B S) (blk : B) :
    Option String × List Call :=
  if bs.HighestReceivedBlockSlot = bs.Slot blk then
    (some ("block for slot " ++ toString (bs.Slot blk) ++ " already exists in fork choice"),
      [.HighestReceivedBlockSlot])
  else (none, [.HighestReceivedBlockSlot])

/-- The method `validateBroadcast` on the query of the request and a block: the
error, and the calls made. -/
def validateBroadcast {G B S : Type} (bs : Server G B S) (query : Values) (blk : G) :
    Option String × List Call :=
  let param := query.Get broadcastValidationQueryParam
  if param = broadcastValidationConsensus then
    match bs.NewSignedBeaconBlock blk with
    | .error err =>
      (some (Wrap err "could not create signed beacon block"), [.NewSignedBeaconBlock])
    | .ok b =>
      match validateConsensus bs b with
      | (some err, calls) =>
        (some (Wrap err "consensus validation failed"), .NewSignedBeaconBlock :: calls)
      | (none, calls) => (none, .NewSignedBeaconBlock :: calls)
  else if param = broadcastValidationConsensusAndEquivocation then
    match bs.NewSignedBeaconBlock blk with
    | .error err =>
      (some (Wrap err "could not create signed beacon block"), [.NewSignedBeaconBlock])
    | .ok b =>
      match validateConsensus bs b with
      | (some err, calls) =>
        (some (Wrap err "consensus validation failed"), .NewSignedBeaconBlock :: calls)
      | (none, calls) =>
        match validateEquivocation bs b with
        | (some err, calls2) =>
          (some (Wrap err "equivocation validation failed"),
            .NewSignedBeaconBlock :: (calls ++ calls2))
        | (none, calls2) => (none, .NewSignedBeaconBlock :: (calls ++ calls2))
  else (none, [])

/-- An example server over blocks given by their slot: every block wraps, the
parent state is known, the transition accepts the slots after the state's, and
fork choice has seen slot 7. -/
def toyServer : Server Nat Nat Nat where
  NewSignedBeaconBlock := fun g => .ok g
  ParentRoot := fun _ => [0]
  Slot := fun b => b
  State := fun _ => .ok 5
  ExecuteStateTransition := fun s b =>
    if s < b then .ok b else .error "block slot not after state slot"
  HighestReceivedBlockSlot := 7

/-- An example server on which every block wraps and no state transition
fails, but no parent state is found. -/
def noParentServer : Server Nat Nat Nat where
  NewSignedBeaconBlock := fun g => .ok g
  ParentRoot := fun _ => [0]
  Slot := fun b => b
  State := fun _ => .error "state not found"
  ExecuteStateTransition := fun _ b => .ok b
  HighestReceivedBlockSlot := 0

/-- The message `zondpbv2.SyncCommitteeMessage` of a request. -/
structure SyncCommitteeMessage where
  Slot : Nat
  BeaconBlockRoot : Bytes
  ValidatorIndex : Nat
  Signature : Bytes
deriving DecidableEq, Repr

/-- The failure `helpers.SingleIndexedVerificationFailure`. -/
structure SingleIndexedVerificationFailure where
  Index : Nat
  Message : String
deriving DecidableEq, Repr

/-- The function `validateSyncCommitteeMessage`. -/
def validateSyncCommitteeMessage (msg : SyncCommitteeMessage) : Option String :=
  if msg.BeaconBlockRoot.length ≠ 32 then some "invalid block root length"
  else if msg.Signature.length ≠ 96 then some "invalid signature length"
  else none

/-- The message `v1alpha1Msg` that `SubmitPoolSyncCommitteeSignatures` builds
from a valid message of the request. -/
def v1alpha1Msg (msg : SyncCommitteeMessage) : validator.SyncCommitteeMessage :=
  { Slot := msg.Slot
    BlockRoot := msg.BeaconBlockRoot
    ValidatorIndex := msg.ValidatorIndex
    Signature := msg.Signature }

/-- The first loop of `SubmitPoolSyncCommitteeSignatures` from position `i` on:
the valid messages, converted, and the failures, both in the order met. -/
def validateLoop : Nat → List SyncCommitteeMessage →
    List validator.SyncCommitteeMessage × List SingleIndexedVerificationFailure →
    List validator.SyncCommitteeMessage × List SingleIndexedVerificationFailure
  | _, [], acc => acc
  | i, msg :: rest, (validMessages, msgFailures) =>
    match validateSyncCommitteeMessage msg with
    | some err =>
      validateLoop (i + 1) rest
        (validMessages, msgFailures ++ [{ Index := i, Message := err }])
    | none =>
      validateLoop (i + 1) rest (validMessages ++ [v1alpha1Msg msg], msgFailures)

/-- The second loop of `SubmitPoolSyncCommitteeSignatures`: the messages are
submitted in order until a submission fails. The result is the error of that
submission, if any, and the messages `SubmitSyncMessage` was called with. -/
def submitLoop (SubmitSyncMessage : validator.SyncCommitteeMessage → Option String) :
    List validator.SyncCommitteeMessage → Option String × List validator.SyncCommitteeMessage
  | [] => (none, [])
  | msg :: rest =>
    match SubmitSyncMessage msg with
    | some err => (some err, [msg])
    | none =>
      let r := submitLoop SubmitSyncMessage rest
      (r.1, msg :: r.2)

/-- What a call of `SubmitPoolSyncCommitteeSignatures` leaves: whether the empty
response is returned, the status code and message of the error, the messages
submitted, the failures recorded by the first loop, and the failures handed to
`grpc.AppendCustomErrorHeader`, if it was called. -/
structure SubmitResult where
  response : Bool
  err : Option (String × String)
  submitted : List validator.SyncCommitteeMessage
  msgFailures : List SingleIndexedVerificationFailure
  header : Option (List SingleIndexedVerificationFailure)
deriving DecidableEq, Repr

/-- The method `SubmitPoolSyncCommitteeSignatures`, over the two calls it makes
outside the sources: `V1Alpha1ValidatorServer.SubmitSyncMessage` and
`grpc.AppendCustomErrorHeader`, each returning its error. -/
def SubmitPoolSyncCommitteeSignatures
    (SubmitSyncMessage : validator.SyncCommitteeMessage → Option String)
    (AppendCustomErrorHeader : List SingleIndexedVerificationFailure → Option String)
    (Data : List SyncCommitteeMessage) : SubmitResult :=
  let (validMessages, msgFailures) := validateLoop 0 Data ([], [])
  match submitLoop SubmitSyncMessage validMessages with
  | (some err, submitted) =>
    { response := false
      err := some ("Internal", "Could not submit message: " ++ err)
      submitted := submitted
      msgFailures := msgFailures
      header := none }
  | (none, submitted) =>
    if msgFailures.length > 0 then
      match AppendCustomErrorHeader msgFailures with
      | some err =>
        { response := false
          err := some ("InvalidArgument",
            "One or more messages failed validation. " ++
              "Could not prepare detailed failure information: " ++ err)
          submitted := submitted
          msgFailures := msgFailures
          header := some msgFailures }
      | none =>
        { response := false
          err := some ("InvalidArgument", "One or more messages failed validation")
          submitted := submitted
          msgFailures := msgFailures
          header := some msgFailures }
    else
      { response := true
        err := none
        submitted := submitted
        msgFailures := msgFailures
        header := none }

/-- A request message with a block root of 32 bytes and a signature of 96
bytes, for a validator. -/
def goodMsg (v : Nat) : SyncCommitteeMessage :=
  { Slot := 1, BeaconBlockRoot := List.replicate 32 0, ValidatorIndex := v,
    Signature := List.replicate 96 0 }

/-- A request message whose block root is too short. -/
def badRootMsg (v : Nat) : SyncCommitteeMessage :=
  { Slot := 1, BeaconBlockRoot := [0], ValidatorIndex := v,
    Signature := List.replicate 96 0 }

/-- A request message whose signature is too short. -/
def badSigMsg (v : Nat) : SyncCommitteeMessage :=
  { Slot := 1, BeaconBlockRoot := List.replicate 32 0, ValidatorIndex := v,
    Signature := [0] }

/-- An example `SubmitSyncMessage`: the submission for validator 1 fails. -/
def toySubmit (msg : validator.SyncCommitteeMessage) : Option String :=
  if msg.ValidatorIndex = 1 then some "unavailable" else none

/-- An example request: two valid messages with an invalid one between them. -/
def toyRequest : List SyncCommitteeMessage := [goodMsg 1, badRootMsg 5, goodMsg 2]

/-- An example request: an invalid message, a valid one, another invalid one. -/
def toyRequest2 : List SyncCommitteeMessage := [badSigMsg 4, goodMsg 2, badRootMsg 5]

end beacon

namespace state_native

theorem readSlice_grow (h : Heap) (s : Slice) (L : List (Option Eth1Data))
    (ys : List (List (Option Eth1Data))) (rs : List Nat)
    (hL : readSlice h s = some L) :
    readSlice { arrays := h.arrays ++ ys, refs := rs } s = some L := by
  unfold readSlice at hL ⊢
  by_cases h0 : s.len = 0
  · simpa [h0] using hL
  · simp only [h0, if_false] at hL ⊢
    cases ha : h.arrays[s.arr]? with
    | none => simp [ha] at hL
    | some a =>
      have hlt : s.arr < h.arrays.length := by
        by_contra hge
        have : h.arrays[s.arr]? = none := List.getElem?_eq_none (by omega)
        simp [this] at ha
      have : (h.arrays ++ ys)[s.arr]? = some a := by
        rw [List.getElem?_append_left hlt]; exact ha
      simpa [this, ha] using hL

theorem readSlice_length (h : Heap) (s : Slice) (L : List (Option Eth1Data))
    (hL : readSlice h s = some L) : L.length = s.len := by
  unfold readSlice at hL
  by_cases h0 : s.len = 0
  · simp [h0] at hL; simp [← hL, h0]
  · simp only [h0, if_false] at hL
    cases ha : h.arrays[s.arr]? with
    | none => simp [ha] at hL
    | some a =>
      simp only [ha] at hL
      by_cases hle : s.len ≤ a.length
      · simp [hle] at hL; simp [← hL, hle]
      · simp [hle] at hL


theorem readSlice_new (h : Heap) (L : List (Option Eth1Data)) (rs : List Nat) (n c : Nat)
    (hn : L.length = n) :
    readSlice (Heap.mk (h.arrays ++ [L]) rs) (Slice.mk h.arrays.length n c) = some L := by
  unfold readSlice
  by_cases h0 : n = 0
  · subst hn; simp at h0; simp [h0]
  · subst hn; simp [h0]

theorem detachVotes_ok (h : Heap) (b : BeaconState) (p c : Nat) (L : List (Option Eth1Data))
    (hp : b.sharedFieldReferences FieldIndex.Eth1DataVotes = some p)
    (hc : h.refs[p]? = some c)
    (hL : readSlice h b.eth1DataVotes = some L) :
    detachVotes h b = .ok
      (Heap.mk (h.arrays ++ [L]) (h.refs.set p (if 0 < c then c - 1 else c) ++ [1]),
       { b with sharedFieldReferences :=
           setAt b.sharedFieldReferences FieldIndex.Eth1DataVotes (some h.refs.length) },
       Slice.mk h.arrays.length b.eth1DataVotes.len b.eth1DataVotes.len) := by
  have hlen := readSlice_length h _ L hL
  have hsrc : readSlice (Heap.mk (h.arrays ++ [List.replicate b.eth1DataVotes.len none]) h.refs)
      b.eth1DataVotes = some L := readSlice_grow h _ L _ _ hL
  have hdst : readSlice (Heap.mk (h.arrays ++ [List.replicate b.eth1DataVotes.len none]) h.refs)
      (Slice.mk h.arrays.length b.eth1DataVotes.len b.eth1DataVotes.len)
      = some (List.replicate b.eth1DataVotes.len none) :=
    readSlice_new h _ _ _ _ (by simp)
  have hcopy : copySlice (Heap.mk (h.arrays ++ [List.replicate b.eth1DataVotes.len none]) h.refs)
      (Slice.mk h.arrays.length b.eth1DataVotes.len b.eth1DataVotes.len) b.eth1DataVotes
      = .ok (Heap.mk (h.arrays ++ [L]) h.refs) := by
    unfold copySlice
    rw [hsrc, hdst]
    by_cases h0 : b.eth1DataVotes.len = 0
    · have : L = [] := List.eq_nil_of_length_eq_zero (by omega)
      simp [h0, this]
    · simp [h0]
      rw [← hlen]
  unfold detachVotes makeSlice
  simp only [bind, Except.bind, hcopy, MinusRef, hp, hc, NewRef, pure, Except.pure,
    List.length_set]


theorem readSlice_of_valid (h : Heap) (s : Slice) (hv : Slice.valid h s) :
    ∃ L, readSlice h s = some L := by
  obtain ⟨hle, hcap⟩ := hv
  unfold readSlice
  by_cases h0 : s.len = 0
  · exact ⟨[], by simp [h0]⟩
  · rcases hcap with hc0 | ⟨a, ha, hca⟩
    · omega
    · exact ⟨a.take s.len, by simp [h0, ha]; omega⟩

theorem appendSlice_spec (h : Heap) (s : Slice) (v : Option Eth1Data)
    (L : List (Option Eth1Data)) (hv : Slice.valid h s) (hL : readSlice h s = some L) :
    ∃ h1 s1, appendSlice h s v = .ok (h1, s1) ∧ readSlice h1 s1 = some (L ++ [v]) ∧
      s1.len = s.len + 1 ∧ h1.refs = h.refs ∧
      (¬ s.len < s.cap → h1.arrays = h.arrays ++
          [L ++ [v] ++ List.replicate (growCap s.cap (s.len + 1) - (s.len + 1)) none] ∧
        s1.arr = h.arrays.length) := by
  obtain ⟨hle, hcap⟩ := hv
  have hlen := readSlice_length h s L hL
  unfold appendSlice
  rw [hL]
  by_cases hlt : s.len < s.cap
  · rcases hcap with hc0 | ⟨a, ha, hca⟩
    · omega
    · have harr : s.arr < h.arrays.length := by
        by_contra hge
        have : h.arrays[s.arr]? = none := List.getElem?_eq_none (by omega)
        simp [this] at ha
      have hLa : L = a.take s.len := by
        unfold readSlice at hL
        by_cases h0 : s.len = 0
        · simp [h0] at hL ⊢; exact hL
        · have : s.len ≤ a.length := by omega
          simp [h0, ha, this] at hL; exact hL.symm
      refine ⟨Heap.mk (h.arrays.set s.arr (a.set s.len v)) h.refs,
        Slice.mk s.arr (s.len + 1) s.cap, by simp [hlt, ha, hca], ?_, rfl, rfl,
        fun hn => absurd hlt hn⟩
      unfold readSlice
      have hsl : s.len < a.length := by omega
      simp [harr, hsl]
      rw [hLa, List.take_succ]
      simp [List.take_set_of_lt, hsl]
      refine ⟨by omega, ?_⟩
      apply List.ext_getElem?
      intro i
      rw [List.getElem?_take, List.getElem?_take]
      split
      · next hi => rw [List.getElem?_set_ne (by omega)]
      · rfl
  · refine ⟨Heap.mk (h.arrays ++
        [L ++ [v] ++ List.replicate (growCap s.cap (s.len + 1) - (s.len + 1)) none]) h.refs,
      Slice.mk h.arrays.length (s.len + 1) (growCap s.cap (s.len + 1)), by simp [hlt], ?_,
      rfl, rfl, fun _ => ⟨rfl, rfl⟩⟩
    unfold readSlice
    simp
    rw [← hlen]
    simp
    have hsplit : ∀ rest : List (Option Eth1Data),
        List.take (L.length + 1) (L ++ v :: rest) = L ++ [v] := by
      intro rest
      have : L ++ v :: rest = (L ++ [v]) ++ rest := by simp
      rw [this, List.take_left']
      simp
    exact hsplit _


theorem addDirtyIndices_frame (b : BeaconState) (i : FieldIndex) (l : List Nat) :
    (addDirtyIndices b i l).eth1DataVotes = b.eth1DataVotes ∧
    (addDirtyIndices b i l).sharedFieldReferences = b.sharedFieldReferences ∧
    (addDirtyIndices b i l).eth1Data = b.eth1Data ∧
    (addDirtyIndices b i l).eth1DepositIndex = b.eth1DepositIndex := by
  unfold addDirtyIndices
  split
  · exact ⟨rfl, rfl, rfl, rfl⟩
  · split <;> exact ⟨rfl, rfl, rfl, rfl⟩

theorem append_shared_eval (h : Heap) (b : BeaconState) (val : Option Eth1Data)
    (p c : Nat) (L : List (Option Eth1Data))
    (hp : b.sharedFieldReferences FieldIndex.Eth1DataVotes = some p)
    (hc : h.refs[p]? = some c) (hshared : 1 < c)
    (hL : readSlice h b.eth1DataVotes = some L) :
    ∃ r, AppendEth1DataVotes h b val = .ok r ∧
      h.arrays <+: r.heap.arrays ∧
      readSlice r.heap b.eth1DataVotes = some L ∧
      h.arrays.length ≤ r.state.eth1DataVotes.arr ∧
      readSlice r.heap r.state.eth1DataVotes = some (L ++ [val]) ∧
      r.heap.refs[p]? = some (c - 1) ∧
      r.state.sharedFieldReferences FieldIndex.Eth1DataVotes = some h.refs.length ∧
      r.heap.refs[h.refs.length]? = some 1 ∧
      r.heap.refs.length = h.refs.length + 1 ∧ r.err = none := by
  have hlen := readSlice_length h _ L hL
  have hplt : p < h.refs.length := by
    by_contra hge
    have : h.refs[p]? = none := List.getElem?_eq_none (by omega)
    simp [this] at hc
  have hvalid : Slice.valid (Heap.mk (h.arrays ++ [L])
      (h.refs.set p (if 0 < c then c - 1 else c) ++ [1]))
      (Slice.mk h.arrays.length b.eth1DataVotes.len b.eth1DataVotes.len) := by
    refine ⟨le_refl _, Or.inr ⟨L, by simp, by simp [hlen]⟩⟩
  have hread := readSlice_new h L (h.refs.set p (if 0 < c then c - 1 else c) ++ [1])
    b.eth1DataVotes.len b.eth1DataVotes.len hlen
  obtain ⟨h1, s1, happ, hr1, hs1, hrefs1, hfresh⟩ := appendSlice_spec _ _ val L hvalid hread
  obtain ⟨harr1, hsarr⟩ := hfresh (by simp)
  simp only at harr1 hsarr hrefs1 hs1
  refine ⟨⟨h1, addDirtyIndices (markFieldAsDirty
      { b with sharedFieldReferences :=
          setAt b.sharedFieldReferences FieldIndex.Eth1DataVotes (some h.refs.length),
               eth1DataVotes := s1 } FieldIndex.Eth1DataVotes)
      FieldIndex.Eth1DataVotes [s1.len - 1], none⟩, ?_, ?_, ?_, ?_, ?_, ?_, ?_, ?_, ?_, rfl⟩
  · unfold AppendEth1DataVotes
    simp only [bind, Except.bind, Refs, hp, hc, hshared, if_true, detachVotes_ok h b p c L hp hc hL,
      happ, pure, Except.pure]
    rfl
  · exact ⟨_, by rw [harr1, List.append_assoc]⟩
  · have := readSlice_grow h b.eth1DataVotes L
      ([L] ++ [L ++ [val] ++ List.replicate
        (growCap b.eth1DataVotes.len (b.eth1DataVotes.len + 1) - (b.eth1DataVotes.len + 1)) none])
      h1.refs hL
    rw [← List.append_assoc, ← harr1] at this
    exact this
  · simp only [(addDirtyIndices_frame _ _ _).1]
    simp [markFieldAsDirty, hsarr]
  · simp only [(addDirtyIndices_frame _ _ _).1]
    simpa [markFieldAsDirty] using hr1
  · rw [hrefs1]
    have hc0 : 0 < c := by omega
    simp [hc0, List.getElem?_append_left, hplt]
  · simp only [(addDirtyIndices_frame _ _ _).2.1]
    simp [markFieldAsDirty, setAt]
  · rw [hrefs1]
    simp [List.getElem?_append_right]
  · rw [hrefs1]; simp

theorem append_unshared_eval (h : Heap) (b : BeaconState) (val : Option Eth1Data)
    (p c : Nat) (L : List (Option Eth1Data))
    (hp : b.sharedFieldReferences FieldIndex.Eth1DataVotes = some p)
    (hc : h.refs[p]? = some c) (hns : ¬ 1 < c)
    (hv : Slice.valid h b.eth1DataVotes)
    (hL : readSlice h b.eth1DataVotes = some L) :
    ∃ r, AppendEth1DataVotes h b val = .ok r ∧ r.err = none ∧
      readSlice r.heap r.state.eth1DataVotes = some (L ++ [val]) ∧
      r.heap.refs = h.refs ∧
      r.state.sharedFieldReferences = b.sharedFieldReferences := by
  obtain ⟨h1, s1, happ, hr1, hs1, hrefs1, -⟩ := appendSlice_spec h _ val L hv hL
  refine ⟨⟨h1, addDirtyIndices (markFieldAsDirty { b with eth1DataVotes := s1 }
      FieldIndex.Eth1DataVotes) FieldIndex.Eth1DataVotes [s1.len - 1], none⟩,
    ?_, rfl, ?_, hrefs1, ?_⟩
  · unfold AppendEth1DataVotes
    simp only [bind, Except.bind, Refs, hp, hc, hns, if_false, happ, pure, Except.pure]
    rfl
  · simp only [(addDirtyIndices_frame _ _ _).1]
    simpa [markFieldAsDirty] using hr1
  · simp only [(addDirtyIndices_frame _ _ _).2.1]
    simp [markFieldAsDirty]

/-- C7. Copy-on-write on append: when the reference shared for the votes has a
count above 1, `AppendEth1DataVotes` succeeds, leaves every array that existed
before untouched (the list behind the old slice header keeps its length and
elements), puts the appended list in an array allocated during the call,
lowers the count of the shared reference by exactly one, and gives the state a
newly allocated reference whose count is 1. -/
theorem AppendEth1DataVotes_copy_on_write (h : Heap) (b : BeaconState)
    (val : Option Eth1Data) (p c : Nat) (L : List (Option Eth1Data))
    (hp : b.sharedFieldReferences FieldIndex.Eth1DataVotes = some p)
    (hc : h.refs[p]? = some c) (hshared : 1 < c)
    (hL : readSlice h b.eth1DataVotes = some L) :
    ∃ r, AppendEth1DataVotes h b val = .ok r ∧
      h.arrays <+: r.heap.arrays ∧
      readSlice r.heap b.eth1DataVotes = some L ∧
      h.arrays.length ≤ r.state.eth1DataVotes.arr ∧
      readSlice r.heap r.state.eth1DataVotes = some (L ++ [val]) ∧
      r.heap.refs[p]? = some (c - 1) ∧
      r.state.sharedFieldReferences FieldIndex.Eth1DataVotes = some h.refs.length ∧
      r.heap.refs[h.refs.length]? = some 1 ∧
      r.heap.refs.length = h.refs.length + 1 ∧ r.err = none :=
  append_shared_eval h b val p c L hp hc hshared hL

/-- C8. Appending a vote: on a state whose vote slice is valid and shows the
list `L`, shared or not, `AppendEth1DataVotes v` returns no error and the
state then shows exactly `L` followed by `v`, of length `len(L) + 1`. -/
theorem AppendEth1DataVotes_appends (h : Heap) (b : BeaconState)
    (val : Option Eth1Data) (p c : Nat) (L : List (Option Eth1Data))
    (hp : b.sharedFieldReferences FieldIndex.Eth1DataVotes = some p)
    (hc : h.refs[p]? = some c)
    (hv : Slice.valid h b.eth1DataVotes)
    (hL : readSlice h b.eth1DataVotes = some L) :
    ∃ r, AppendEth1DataVotes h b val = .ok r ∧ r.err = none ∧
      readSlice r.heap r.state.eth1DataVotes = some (L ++ [val]) ∧
      r.state.eth1DataVotes.len = L.length + 1 := by
  by_cases hs : 1 < c
  · obtain ⟨r, hr, -, -, -, hread, -, -, -, -, herr⟩ :=
      append_shared_eval h b val p c L hp hc hs hL
    exact ⟨r, hr, herr, hread, by
      have := readSlice_length _ _ _ hread; simpa using this.symm⟩
  · obtain ⟨r, hr, herr, hread, -, -⟩ := append_unshared_eval h b val p c L hp hc hs hv hL
    exact ⟨r, hr, herr, hread, by
      have := readSlice_length _ _ _ hread; simpa using this.symm⟩


/-- C7, at a concrete shared list: two holders, one vote, a second vote appended. -/
theorem AppendEth1DataVotes_copy_on_write_witness :
    (sharedState.sharedFieldReferences FieldIndex.Eth1DataVotes = some 0 ∧
      sharedHeap.refs[0]? = some 2 ∧ 1 < 2 ∧
      readSlice sharedHeap sharedState.eth1DataVotes = some [some voteA]) ∧
    ∃ r, AppendEth1DataVotes sharedHeap sharedState (some voteB) = .ok r ∧
      sharedHeap.arrays <+: r.heap.arrays ∧
      readSlice r.heap sharedState.eth1DataVotes = some [some voteA] ∧
      sharedHeap.arrays.length ≤ r.state.eth1DataVotes.arr ∧
      readSlice r.heap r.state.eth1DataVotes = some ([some voteA] ++ [some voteB]) ∧
      r.heap.refs[0]? = some (2 - 1) ∧
      r.state.sharedFieldReferences FieldIndex.Eth1DataVotes = some sharedHeap.refs.length ∧
      r.heap.refs[sharedHeap.refs.length]? = some 1 ∧
      r.heap.refs.length = sharedHeap.refs.length + 1 ∧ r.err = none :=
  ⟨⟨rfl, rfl, by decide, rfl⟩,
   AppendEth1DataVotes_copy_on_write sharedHeap sharedState (some voteB) 0 2 [some voteA]
     rfl rfl (by decide) rfl⟩

/-- C8, at a concrete list held by one state, with room left in its array. -/
theorem AppendEth1DataVotes_appends_witness :
    (ownedState.sharedFieldReferences FieldIndex.Eth1DataVotes = some 0 ∧
      ownedHeap.refs[0]? = some 1 ∧ Slice.valid ownedHeap ownedState.eth1DataVotes ∧
      readSlice ownedHeap ownedState.eth1DataVotes = some [some voteA]) ∧
    ∃ r, AppendEth1DataVotes ownedHeap ownedState (some voteB) = .ok r ∧ r.err = none ∧
      readSlice r.heap r.state.eth1DataVotes = some ([some voteA] ++ [some voteB]) ∧
      r.state.eth1DataVotes.len = [some voteA].length + 1 :=
  ⟨⟨rfl, rfl, ⟨by decide, Or.inr ⟨[some voteA, none], rfl, by decide⟩⟩, rfl⟩,
   AppendEth1DataVotes_appends ownedHeap ownedState (some voteB) 0 1 [some voteA]
     rfl rfl ⟨by decide, Or.inr ⟨[some voteA, none], rfl, by decide⟩⟩ rfl⟩

/-- C6 as stated fails: on a state whose deposit index is 5,
`SetEth1DepositIndex(3)` succeeds and leaves the index at 3, below 5. -/
theorem SetEth1DepositIndex_can_decrease :
    ∃ r, SetEth1DepositIndex sharedHeap depositState 3 = .ok r ∧
      r.state.eth1DepositIndex = 3 ∧ r.state.eth1DepositIndex < depositState.eth1DepositIndex :=
  ⟨_, rfl, rfl, by decide⟩

/-- C6, amended: `SetEth1DepositIndex(val)` always succeeds with no error, leaves
the heap alone and sets the deposit index to `val`; so the index after the call
is at least the index before exactly when `val` is. -/
theorem SetEth1DepositIndex_sets (h : Heap) (b : BeaconState) (val : Nat) :
    ∃ r, SetEth1DepositIndex h b val = .ok r ∧ r.err = none ∧ r.heap = h ∧
      r.state.eth1DepositIndex = val ∧
      (b.eth1DepositIndex ≤ r.state.eth1DepositIndex ↔ b.eth1DepositIndex ≤ val) :=
  ⟨_, rfl, rfl, rfl, rfl, Iff.rfl⟩

end state_native

namespace stateutil

theorem Depth_eq_clog (n : Nat) : Depth n = Nat.clog 2 n := by
  unfold Depth
  by_cases h1 : n ≤ 1
  · simp [h1, Nat.clog_of_right_le_one h1]
  · simp only [h1, if_false]
    have hm : n - 1 ≠ 0 := by omega
    have hlo : 2 ^ (n - 1).log2 ≤ n - 1 := Nat.log2_self_le hm
    have hhi : n - 1 < 2 ^ ((n - 1).log2 + 1) := Nat.lt_log2_self
    apply le_antisymm
    · have : (n - 1).log2 < Nat.clog 2 n :=
        (Nat.pow_lt_iff_lt_clog (by norm_num)).1 (by omega)
      omega
    · exact (Nat.le_pow_iff_clog_le (by norm_num)).1 (by omega)

theorem le_pow_Depth (n : Nat) : n ≤ 2 ^ Depth n := by
  rw [Depth_eq_clog]
  exact Nat.le_pow_clog (by norm_num) n

theorem VectorizedSha256_length (H : Chunk → Chunk → Chunk) :
    ∀ (n : Nat) (l : List Chunk), l.length ≤ n → (VectorizedSha256 H l).length = l.length / 2 := by
  intro n
  induction n using Nat.strong_induction_on with
  | _ n ih =>
    intro l hl
    match l, hl with
    | [], _ => simp [VectorizedSha256]
    | [_], _ => simp [VectorizedSha256]
    | a :: b :: rest, hl =>
      simp only [VectorizedSha256, List.length_cons]
      have hr : rest.length ≤ n - 2 := by simp at hl; omega
      rw [ih (n - 2) (by simp at hl; omega) rest hr]
      omega

theorem VectorizedSha256_append (H : Chunk → Chunk → Chunk) :
    ∀ (n : Nat) (l r : List Chunk), l.length = 2 * n →
      VectorizedSha256 H (l ++ r) = VectorizedSha256 H l ++ VectorizedSha256 H r := by
  intro n
  induction n with
  | zero =>
    intro l r hl
    have : l = [] := List.eq_nil_of_length_eq_zero (by omega)
    subst this
    simp [VectorizedSha256]
  | succ n ih =>
    intro l r hl
    match l, hl with
    | [], hl => simp at hl
    | [_], hl => simp at hl; omega
    | a :: b :: rest, hl =>
      have hr : rest.length = 2 * n := by simp at hl; omega
      have hrec := ih rest r hr
      show VectorizedSha256 H (a :: b :: (rest ++ r)) = _
      simp only [List.cons_append, VectorizedSha256, hrec]

theorem VectorizedSha256_replicate (H : Chunk → Chunk → Chunk) (z : Chunk) :
    ∀ k : Nat, VectorizedSha256 H (List.replicate (2 * k) z) = List.replicate k (H z z) := by
  intro k
  induction k with
  | zero => simp [VectorizedSha256]
  | succ k ih =>
    have : 2 * (k + 1) = (2 * k + 1) + 1 := by ring
    rw [this, List.replicate_succ, List.replicate_succ]
    simp only [VectorizedSha256]
    rw [ih, List.replicate_succ]

theorem VectorizedSha256_take (H : Chunk → Chunk → Chunk) :
    ∀ (m : Nat) (l : List Chunk),
      VectorizedSha256 H (l.take (2 * m)) = (VectorizedSha256 H l).take m := by
  intro m
  induction m with
  | zero => intro l; simp [VectorizedSha256]
  | succ m ih =>
    intro l
    have h2 : 2 * (m + 1) = (2 * m + 1) + 1 := by ring
    match l with
    | [] => simp [VectorizedSha256]
    | [x] => simp [VectorizedSha256, h2]
    | a :: b :: rest =>
      rw [h2]
      simp only [List.take_succ_cons, VectorizedSha256]
      rw [ih rest]

theorem VectorizedSha256_drop (H : Chunk → Chunk → Chunk) :
    ∀ (m : Nat) (l : List Chunk), 2 * m ≤ l.length →
      VectorizedSha256 H (l.drop (2 * m)) = (VectorizedSha256 H l).drop m := by
  intro m
  induction m with
  | zero => intro l _; simp
  | succ m ih =>
    intro l hl
    have h2 : 2 * (m + 1) = (2 * m + 1) + 1 := by ring
    match l, hl with
    | [], hl => simp at hl
    | [x], hl => simp at hl; omega
    | a :: b :: rest, hl =>
      rw [h2]
      simp only [List.drop_succ_cons, VectorizedSha256]
      exact ih rest (by simp at hl; omega)

/-- Hashing the leaves pairwise lowers the tree by one level. -/
theorem fullTreeRoot_succ (H : Chunk → Chunk → Chunk) :
    ∀ (d : Nat) (l : List Chunk), l.length = 2 ^ (d + 1) →
      fullTreeRoot H (d + 1) l = fullTreeRoot H d (VectorizedSha256 H l) := by
  intro d
  induction d with
  | zero =>
    intro l hl
    match l, hl with
    | [a, b], _ => rfl
  | succ d ih =>
    intro l hl
    have hp : 2 ^ (d + 1 + 1) = 2 * 2 ^ (d + 1) := by ring
    have hp1 : 2 ^ (d + 1) = 2 * 2 ^ d := by ring
    have e1 : fullTreeRoot H (d + 1 + 1) l =
        H (fullTreeRoot H (d + 1) (l.take (2 ^ (d + 1))))
          (fullTreeRoot H (d + 1) (l.drop (2 ^ (d + 1)))) := rfl
    have e2 : fullTreeRoot H (d + 1) (VectorizedSha256 H l) =
        H (fullTreeRoot H d ((VectorizedSha256 H l).take (2 ^ d)))
          (fullTreeRoot H d ((VectorizedSha256 H l).drop (2 ^ d))) := rfl
    rw [e1, e2, ih (l.take (2 ^ (d + 1))) (by simp; omega),
      ih (l.drop (2 ^ (d + 1))) (by simp; omega)]
    rw [← VectorizedSha256_take, ← VectorizedSha256_drop H (2 ^ d) l (by omega), ← hp1]

/-- The level loop computes the root of the full tree over the level padded with
the zero hash of that level: started at level `i` with `k` rounds to go on
between 1 and `2 ^ k` chunks, it ends with exactly one chunk. -/
theorem hashLevels_eq (H : Chunk → Chunk → Chunk) :
    ∀ (k i : Nat) (xs : List Chunk), 1 ≤ xs.length → xs.length ≤ 2 ^ k →
      hashLevels H k i xs =
        [fullTreeRoot H k (xs ++ List.replicate (2 ^ k - xs.length) (ZeroHashes H i))] := by
  intro k
  induction k with
  | zero =>
    intro i xs h1 h2
    match xs, h1, h2 with
    | [x], _, _ => simp [hashLevels, fullTreeRoot]
  | succ k ih =>
    intro i xs h1 h2
    have hp : 2 ^ (k + 1) = 2 * 2 ^ k := by ring
    have hz : ZeroHashes H (i + 1) = H (ZeroHashes H i) (ZeroHashes H i) := rfl
    have hfull : (xs ++ List.replicate (2 ^ (k + 1) - xs.length) (ZeroHashes H i)).length
        = 2 ^ (k + 1) := by simp; omega
    rw [fullTreeRoot_succ H k _ hfull]
    by_cases hodd : xs.length % 2 = 1
    · have hstep : hashLevels H (k + 1) i xs =
          hashLevels H k (i + 1) (VectorizedSha256 H (xs ++ [ZeroHashes H i])) := by
        simp [hashLevels, hodd]
      have hlen1 : (xs ++ [ZeroHashes H i]).length = 2 * ((xs.length + 1) / 2) := by
        simp; omega
      have hvl : (VectorizedSha256 H (xs ++ [ZeroHashes H i])).length = (xs.length + 1) / 2 := by
        rw [VectorizedSha256_length H _ _ (le_refl _)]; simp
      rw [hstep, ih (i + 1) _ (by rw [hvl]; omega) (by rw [hvl]; omega), hvl]
      have hsplit : xs ++ List.replicate (2 ^ (k + 1) - xs.length) (ZeroHashes H i) =
          (xs ++ [ZeroHashes H i]) ++
            List.replicate (2 * (2 ^ k - (xs.length + 1) / 2)) (ZeroHashes H i) := by
        have hm : 2 ^ (k + 1) - xs.length = 2 * (2 ^ k - (xs.length + 1) / 2) + 1 := by omega
        rw [hm, List.replicate_succ, List.append_assoc]
        rfl
      rw [hsplit, VectorizedSha256_append H _ _ _ hlen1, VectorizedSha256_replicate, hz]
    · have hstep : hashLevels H (k + 1) i xs =
          hashLevels H k (i + 1) (VectorizedSha256 H xs) := by
        simp [hashLevels, hodd]
      have hlen1 : xs.length = 2 * (xs.length / 2) := by omega
      have hvl : (VectorizedSha256 H xs).length = xs.length / 2 :=
        VectorizedSha256_length H _ _ (le_refl _)
      rw [hstep, ih (i + 1) _ (by rw [hvl]; omega) (by rw [hvl]; omega), hvl]
      have hm : 2 ^ (k + 1) - xs.length = 2 * (2 ^ k - xs.length / 2) := by omega
      rw [hm, VectorizedSha256_append H _ _ _ hlen1, VectorizedSha256_replicate, hz]

theorem hashLevels_merkleRoot (H : Chunk → Chunk → Chunk) (chunks : List Chunk)
    (hne : 1 ≤ chunks.length) :
    hashLevels H (Depth chunks.length) 0 chunks = [merkleRoot H chunks] := by
  rw [hashLevels_eq H _ 0 chunks hne (le_pow_Depth _), Depth_eq_clog]
  rfl

theorem packLoop_spec :
    ∀ (fuel : Nat) (items : Bytes), items.length ≤ fuel →
      (packLoop fuel items).length = (items.length + 31) / 32 ∧
      (packLoop fuel items).flatten =
        items ++ List.replicate (32 * ((items.length + 31) / 32) - items.length) 0 ∧
      ∀ c ∈ packLoop fuel items, c.length = 32 := by
  intro fuel
  induction fuel with
  | zero =>
    intro items h
    have : items = [] := List.eq_nil_of_length_eq_zero (by omega)
    subst this
    simp [packLoop]
  | succ fuel ih =>
    intro items h
    by_cases h0 : items.length = 0
    · have : items = [] := List.eq_nil_of_length_eq_zero h0
      subst this
      simp [packLoop]
    · obtain ⟨ihl, ihf, ihc⟩ := ih (items.drop 32) (by simp; omega)
      have hstep : packLoop (fuel + 1) items =
          ToBytes32 (items.take 32) :: packLoop fuel (items.drop 32) := by
        simp [packLoop, h0, bytesPerChunk]
      rw [hstep]
      have hdl : (items.drop 32).length = items.length - 32 := by simp
      refine ⟨?_, ?_, ?_⟩
      · simp only [List.length_cons, ihl, hdl]; omega
      · simp only [List.flatten_cons, ihf, hdl, ToBytes32]
        by_cases hlt : items.length < 32
        · have hd : items.drop 32 = [] := List.drop_eq_nil_of_le (by omega)
          have ht : (items.take 32).take 32 = items := by
            rw [List.take_take]; exact List.take_of_length_le (by omega)
          have htl : (items.take 32).length = items.length := by simp; omega
          have e1 : (items.length + 31) / 32 = 1 := by omega
          rw [hd, ht, htl, e1]
          simp
          omega
        · have htl : (items.take 32).length = 32 := by simp; omega
          have e1 : (items.length + 31) / 32 = (items.length - 32 + 31) / 32 + 1 := by omega
          have e2 : 32 * ((items.length - 32 + 31) / 32 + 1) - items.length =
              32 * ((items.length - 32 + 31) / 32) - (items.length - 32) := by omega
          rw [List.take_take, htl, e1, e2]
          simp only [min_self, Nat.sub_self, List.replicate_zero, List.append_nil]
          rw [← List.append_assoc, List.take_append_drop]
      · intro c hc
        rcases List.mem_cons.1 hc with rfl | hc
        · simp [ToBytes32]
        · exact ihc c hc

/-- The chunks of a non-empty pubkey: `PackByChunk` succeeds with one chunk for
every started run of 32 bytes, each 32 bytes long, which together spell the
pubkey followed by zero bytes. -/
theorem PackByChunk_single (pubkey : Bytes) (hne : pubkey.length ≠ 0) :
    ∃ chunks, PackByChunk [pubkey] = .ok chunks ∧
      chunks.length = (pubkey.length + 31) / 32 ∧
      chunks.flatten = pubkey ++ List.replicate (32 * chunks.length - pubkey.length) 0 ∧
      (∀ c ∈ chunks, c.length = 32) := by
  by_cases h32 : pubkey.length = 32
  · refine ⟨[ToBytes32 pubkey], by simp [PackByChunk, h32, bytesPerChunk], by simp [h32], ?_, ?_⟩
    · simp [ToBytes32, h32]
    · intro c hc
      simp at hc
      subst hc
      simp [ToBytes32, h32]
  · obtain ⟨hl, hf, hc⟩ := packLoop_spec pubkey.length pubkey (le_refl _)
    refine ⟨packLoop pubkey.length pubkey, ?_, hl, ?_, hc⟩
    · simp [PackByChunk, h32, bytesPerChunk, hne]
    · rw [hf, hl]

/-- The number `nextPowerOfTwo n` is the least power of two that is at least `n`. -/
theorem nextPowerOfTwo_least (n : Nat) :
    n ≤ nextPowerOfTwo n ∧ ∀ k, n ≤ 2 ^ k → nextPowerOfTwo n ≤ 2 ^ k := by
  refine ⟨Nat.le_pow_clog (by norm_num) n, fun k hk => ?_⟩
  exact Nat.pow_le_pow_right (by norm_num) ((Nat.le_pow_iff_clog_le (by norm_num)).1 hk)

theorem merkleizePubkey_root_exists (H : Chunk → Chunk → Chunk) (pubkey : Bytes)
    (hne : pubkey.length ≠ 0) :
    ∃ chunks, PackByChunk [pubkey] = .ok chunks ∧
      chunks.length = (pubkey.length + 31) / 32 ∧
      chunks.flatten = pubkey ++ List.replicate (32 * chunks.length - pubkey.length) 0 ∧
      (∀ c ∈ chunks, c.length = 32) ∧
      hashLevels H (Depth chunks.length) 0 chunks = [merkleRoot H chunks] ∧
      merkleizePubkey H pubkey = .ok (merkleRoot H chunks) := by
  obtain ⟨chunks, hpack, hl, hf, hc⟩ := PackByChunk_single pubkey hne
  have h1 : 1 ≤ chunks.length := by omega
  have hlev := hashLevels_merkleRoot H chunks h1
  refine ⟨chunks, hpack, hl, hf, hc, hlev, ?_⟩
  unfold merkleizePubkey
  simp [hne, hpack, hlev]

/-- C9. For every non-empty pubkey `merkleizePubkey` succeeds, and what it
returns is the root of the full binary tree over the chunks of the pubkey
right-padded with zero chunks to the next power of two; the level loop, which
pads an odd level `i` with `ZeroHashes[i]` and halves `Depth(n)` times, ends
with exactly one chunk. -/
theorem merkleizePubkey_is_merkleRoot (H : Chunk → Chunk → Chunk) (pubkey : Bytes)
    (hne : pubkey.length ≠ 0) :
    ∃ chunks, PackByChunk [pubkey] = .ok chunks ∧
      chunks.length = (pubkey.length + 31) / 32 ∧
      chunks.flatten = pubkey ++ List.replicate (32 * chunks.length - pubkey.length) 0 ∧
      (∀ c ∈ chunks, c.length = 32) ∧
      hashLevels H (Depth chunks.length) 0 chunks = [merkleRoot H chunks] ∧
      merkleizePubkey H pubkey = .ok (merkleRoot H chunks) :=
  merkleizePubkey_root_exists H pubkey hne

/-- C9 at a pubkey of 70 bytes (three chunks, so level 0 is odd), with the toy
hash. -/
theorem merkleizePubkey_is_merkleRoot_witness :
    (List.range 70).length ≠ 0 ∧
    ∃ chunks, PackByChunk [List.range 70] = .ok chunks ∧
      chunks.length = ((List.range 70).length + 31) / 32 ∧
      chunks.flatten =
        List.range 70 ++ List.replicate (32 * chunks.length - (List.range 70).length) 0 ∧
      (∀ c ∈ chunks, c.length = 32) ∧
      hashLevels toyHash (Depth chunks.length) 0 chunks = [merkleRoot toyHash chunks] ∧
      merkleizePubkey toyHash (List.range 70) = .ok (merkleRoot toyHash chunks) :=
  ⟨by simp, merkleizePubkey_is_merkleRoot toyHash (List.range 70) (by simp)⟩

theorem MerkleizeVector_eq (H : Chunk → Chunk → Chunk) (xs : List Chunk) :
    MerkleizeVector H xs xs.length = .ok (merkleRoot H xs) := by
  unfold MerkleizeVector
  by_cases h0 : xs.length = 0
  · have : xs = [] := List.eq_nil_of_length_eq_zero h0
    subst this
    simp [Depth, ZeroHashes, merkleRoot, nextPowerOfTwo, fullTreeRoot]
  · simp only [h0, if_false]
    rw [hashLevels_merkleRoot H xs (by omega)]

theorem merkleRoot_pair (H : Chunk → Chunk → Chunk) (a b : Chunk) :
    merkleRoot H [a, b] = H a b := by
  have hc : Nat.clog 2 2 = 1 := Nat.clog_pow 2 1 (by norm_num)
  show fullTreeRoot H (Nat.clog 2 2)
    ([a, b] ++ List.replicate (2 ^ Nat.clog 2 2 - 2) zeroChunk) = H a b
  rw [hc]
  rfl

theorem pubKeyRoots_ok (H : Chunk → Chunk → Chunk) :
    ∀ pubkeys : List Bytes, (∀ pk ∈ pubkeys, pk.length ≠ 0) →
      ∃ roots, pubKeyRoots H pubkeys = .ok roots ∧
        List.Forall₂ (fun pk r => merkleizePubkey H pk = .ok r) pubkeys roots := by
  intro pubkeys
  induction pubkeys with
  | nil => intro _; exact ⟨[], rfl, List.Forall₂.nil⟩
  | cons pk rest ih =>
    intro hall
    obtain ⟨chunks, -, -, -, -, -, hpk⟩ :=
      merkleizePubkey_root_exists H pk (hall pk (List.mem_cons_self _ _))
    obtain ⟨roots, hroots, hall2⟩ := ih (fun q hq => hall q (List.mem_cons_of_mem _ hq))
    exact ⟨merkleRoot H chunks :: roots, by simp [pubKeyRoots, hpk, hroots],
      List.Forall₂.cons hpk hall2⟩

/-- C10. For a sync committee whose member pubkeys and aggregate pubkey are all
non-empty, `SyncCommitteeRoot` succeeds and returns `H(P, A)`: `P` is the Merkle
root of the list of the roots `merkleizePubkey` gives the member pubkeys, in
committee order, and `A` is the root `merkleizePubkey` gives the aggregate
pubkey. -/
theorem SyncCommitteeRoot_two_leaf (H : Chunk → Chunk → Chunk) (c : SyncCommittee)
    (hmem : ∀ pk ∈ c.Pubkeys, pk.length ≠ 0) (hagg : c.AggregatePubkey.length ≠ 0) :
    ∃ roots A, List.Forall₂ (fun pk r => merkleizePubkey H pk = .ok r) c.Pubkeys roots ∧
      merkleizePubkey H c.AggregatePubkey = .ok A ∧
      SyncCommitteeRoot H (some c) = .ok (H (merkleRoot H roots) A) := by
  obtain ⟨roots, hroots, hall⟩ := pubKeyRoots_ok H c.Pubkeys hmem
  obtain ⟨chunks, -, -, -, -, -, hA⟩ := merkleizePubkey_root_exists H c.AggregatePubkey hagg
  refine ⟨roots, merkleRoot H chunks, hall, hA, ?_⟩
  have h2 : MerkleizeVector H [merkleRoot H roots, merkleRoot H chunks] 2 =
      .ok (H (merkleRoot H roots) (merkleRoot H chunks)) := by
    have := MerkleizeVector_eq H [merkleRoot H roots, merkleRoot H chunks]
    rw [show [merkleRoot H roots, merkleRoot H chunks].length = 2 from rfl] at this
    rw [this, merkleRoot_pair]
  unfold SyncCommitteeRoot
  simp [hroots, BitwiseMerkleize, MerkleizeVector_eq, hA, h2]

/-- C10 at a committee of three members, with the toy hash. -/
theorem SyncCommitteeRoot_two_leaf_witness :
    ((∀ pk ∈ exampleCommittee.Pubkeys, pk.length ≠ 0) ∧
      exampleCommittee.AggregatePubkey.length ≠ 0) ∧
    ∃ roots A,
      List.Forall₂ (fun pk r => merkleizePubkey toyHash pk = .ok r)
        exampleCommittee.Pubkeys roots ∧
      merkleizePubkey toyHash exampleCommittee.AggregatePubkey = .ok A ∧
      SyncCommitteeRoot toyHash (some exampleCommittee) =
        .ok (toyHash (merkleRoot toyHash roots) A) :=
  ⟨⟨by decide, by decide⟩,
   SyncCommitteeRoot_two_leaf toyHash exampleCommittee (by decide) (by decide)⟩

end stateutil

namespace transition

theorem foldl_Add_fields (es : List SigEntry) :
    ∀ s : SignatureBatch,
      (es.foldl SignatureBatch.Add s).Descriptions = s.Descriptions ++ es.map (·.Description) ∧
      (es.foldl SignatureBatch.Add s).Signatures = s.Signatures ++ es.map (·.Signature) := by
  induction es with
  | nil => intro s; simp
  | cons e rest ih =>
    intro s
    obtain ⟨h1, h2⟩ := ih (s.Add e)
    simp only [List.foldl_cons, h1, h2]
    simp [SignatureBatch.Add]

theorem batchOf_fields (es : List SigEntry) :
    (batchOf es).Descriptions = es.map (·.Description) ∧
    (batchOf es).Signatures = es.map (·.Signature) := by
  obtain ⟨h1, h2⟩ := foldl_Add_fields es NewSet
  exact ⟨by simpa [batchOf, NewSet] using h1, by simpa [batchOf, NewSet] using h2⟩

theorem attestationSigEntries_fields (x : SigData × List SigData) :
    (attestationSigEntries x).map (·.Signature) = (x.1 :: x.2).map (fun t => t.Signature) ∧
    (attestationSigEntries x).map (·.Description) =
      List.replicate ((x.1 :: x.2).map (fun t => t.Signature)).length descAttestation := by
  unfold attestationSigEntries
  refine ⟨by simp [List.map_map, Function.comp_def], ?_⟩
  rw [List.map_map, List.length_map]
  exact List.eq_replicate_iff.2 ⟨by simp, by
    intro d hd
    obtain ⟨t, -, rfl⟩ := List.mem_map.1 hd
    rfl⟩

/-- The signatures an attestation contributes, in the order of its entries. -/
theorem AttestationSignatureBatch_spec {σ : Type} (E : Engine σ) (st : σ) :
    ∀ (atts : List Attestation) (s : SignatureBatch),
      AttestationSignatureBatch E st atts = .ok s →
      ∃ groups : List (List Bytes),
        List.Forall₂ (fun a g => ∃ x, E.attestationEntries st a = .ok x ∧
          g = (x.1 :: x.2).map (fun t => t.Signature)) atts groups ∧
        s.Signatures = groups.flatten ∧
        s.Descriptions = List.replicate groups.flatten.length descAttestation ∧
        atts.length ≤ groups.flatten.length := by
  intro atts
  induction atts with
  | nil =>
    intro s h
    simp only [AttestationSignatureBatch, Except.ok.injEq] at h
    subst h
    exact ⟨[], List.Forall₂.nil, rfl, rfl, le_refl _⟩
  | cons a rest ih =>
    intro s h
    simp only [AttestationSignatureBatch] at h
    cases hx : E.attestationEntries st a with
    | error e => simp [hx] at h
    | ok x =>
      cases hr : AttestationSignatureBatch E st rest with
      | error e => simp [hx, hr] at h
      | ok s1 =>
        simp only [hx, hr, Except.ok.injEq] at h
        subst h
        obtain ⟨groups, hall, hsig, hdesc, hlen⟩ := ih s1 hr
        obtain ⟨hd, hs⟩ := batchOf_fields (attestationSigEntries x)
        refine ⟨(x.1 :: x.2).map (fun t => t.Signature) :: groups,
          List.Forall₂.cons ⟨x, hx, rfl⟩ hall, ?_, ?_, ?_⟩
        · show (batchOf (attestationSigEntries x)).Signatures ++ s1.Signatures = _
          rw [hs, hsig, (attestationSigEntries_fields x).1, List.flatten_cons]
        · show (batchOf (attestationSigEntries x)).Descriptions ++ s1.Descriptions = _
          rw [hd, hdesc, (attestationSigEntries_fields x).2, List.flatten_cons,
            List.length_append, List.replicate_add]
        · rw [List.flatten_cons, List.length_append]
          simp only [List.length_map, List.length_cons]
          omega

/-- The entries of a list of operations have a property every entry of every
operation has. -/
theorem collectEntries_forall {α : Type} (f : α → Except String (List SigEntry))
    (P : SigEntry → Prop) (hf : ∀ a es, f a = .ok es → ∀ e ∈ es, P e) :
    ∀ (l : List α) (es : List SigEntry), collectEntries f l = .ok es → ∀ e ∈ es, P e := by
  intro l
  induction l with
  | nil =>
    intro es h e he
    simp only [collectEntries, Except.ok.injEq] at h
    subst h
    cases he
  | cons a rest ih =>
    intro es h e he
    simp only [collectEntries] at h
    cases ha : f a with
    | error x => simp [ha] at h
    | ok es1 =>
      cases hr : collectEntries f rest with
      | error x => simp [ha, hr] at h
      | ok more =>
        simp only [ha, hr, Except.ok.injEq] at h
        subst h
        rcases List.mem_append.1 he with h1 | h1
        · exact hf a es1 ha e h1
        · exact ih more hr e h1

/-- A block without slashings has no slashing entries; one without proposer
slashings has only entries described "attestation signature" among them. -/
theorem slashingSigEntries_spec {σ : Type} (E : Engine σ) (st : σ) (body : BeaconBlockBody)
    (slashings : List SigEntry) (h : slashingSigEntries E st body = .ok slashings) :
    (body.ProposerSlashings = [] → body.AttesterSlashings = [] → slashings = []) ∧
    (body.ProposerSlashings = [] → ∀ e ∈ slashings, e.Description = descAttestation) := by
  unfold slashingSigEntries at h
  constructor
  · intro h1 h2
    rw [h1, h2] at h
    simp only [collectEntries, Except.ok.injEq] at h
    rw [← h]
    rfl
  · intro h1
    rw [h1] at h
    simp only [collectEntries] at h
    cases hr : collectEntries
        (fun s => (E.attesterSlashingEntries st s).map attesterSlashingSigEntries)
        body.AttesterSlashings with
    | error x => simp [hr] at h
    | ok ats =>
      simp only [hr, Except.ok.injEq, List.nil_append] at h
      subst h
      refine collectEntries_forall _ (fun e => e.Description = descAttestation) ?_ _ ats hr
      intro s es hs e he
      cases hx : E.attesterSlashingEntries st s with
      | error x => simp [hx, Except.map] at hs
      | ok l =>
        simp only [hx, Except.map, Except.ok.injEq] at hs
        subst hs
        obtain ⟨t, -, rfl⟩ := List.mem_map.1 he
        rfl

/-- What a successful run of the Block Processor went through. -/
theorem ProcessBlockNoVerifyAnySig_ok_inv {σ : Type} (E : Engine σ) (st st2 : σ)
    (signed : SignedBeaconBlock) (set : SignatureBatch)
    (h : ProcessBlockNoVerifyAnySig E st signed = .ok (set, st2)) :
    E.version st = signed.version ∧
    E.processOperations st signed.Slot signed.ProposerIndex signed.ParentRoot signed.Body
      = .ok st2 ∧
    ∃ pk slashings aSet later,
      E.proposerPubkey st2 signed.ProposerIndex = .ok pk ∧
      slashingSigEntries E st2 signed.Body = .ok slashings ∧
      AttestationSignatureBatch E st2 signed.Body.Attestations = .ok aSet ∧
      laterSigEntries E st2 signed.version signed.Body = .ok later ∧
      set = ((((NewSet.Join (NewSet.Add
          { PublicKey := pk, Message := E.blockSigningRoot st2 signed,
            Signature := signed.Signature, Description := descBlock })).Join
        (NewSet.Add
          { PublicKey := pk, Message := E.randaoSigningRoot st2 signed.Slot,
            Signature := signed.Body.RandaoReveal, Description := descRandao })).Join
        (batchOf slashings)).Join aSet).Join (batchOf later) := by
  unfold ProcessBlockNoVerifyAnySig at h
  by_cases hv : E.version st = signed.version
  · simp only [ne_eq, hv, not_true_eq_false, if_false] at h
    cases hop : E.processOperations st signed.Slot signed.ProposerIndex signed.ParentRoot
        signed.Body with
    | error e => simp [hop, bind, Except.bind] at h
    | ok st1 =>
      cases hpk : E.proposerPubkey st1 signed.ProposerIndex with
      | error e =>
        simp [hop, hpk, bind, Except.bind, BlockSignatureBatch, wrap] at h
      | ok pk =>
        cases hsl : slashingSigEntries E st1 signed.Body with
        | error e =>
          simp [hop, hpk, hsl, bind, Except.bind, BlockSignatureBatch, RandaoSignatureBatch,
            wrap, pure, Except.pure] at h
        | ok slashings =>
          cases ha : AttestationSignatureBatch E st1 signed.Body.Attestations with
          | error e =>
            simp [hop, hpk, hsl, ha, bind, Except.bind, BlockSignatureBatch,
              RandaoSignatureBatch, wrap, pure, Except.pure] at h
          | ok aSet =>
            cases ho : laterSigEntries E st1 signed.version signed.Body with
            | error e =>
              simp [hop, hpk, hsl, ha, ho, bind, Except.bind, BlockSignatureBatch,
                RandaoSignatureBatch, wrap, pure, Except.pure] at h
            | ok later =>
              simp only [hop, hpk, hsl, ha, ho, bind, Except.bind, BlockSignatureBatch,
                RandaoSignatureBatch, wrap, pure, Except.pure, Except.ok.injEq,
                Prod.mk.injEq] at h
              obtain ⟨hset, hst⟩ := h
              subst hst
              exact ⟨hv, rfl, pk, slashings, aSet, later, hpk, hsl, ha, ho, hset.symm⟩
  · simp [hv] at h

/-- The Block Processor succeeds when each of its steps does. -/
theorem ProcessBlockNoVerifyAnySig_ok_of {σ : Type} (E : Engine σ) (st st2 : σ)
    (signed : SignedBeaconBlock) (pk : Bytes) (slashings : List SigEntry)
    (aSet : SignatureBatch) (later : List SigEntry)
    (hv : E.version st = signed.version)
    (hop : E.processOperations st signed.Slot signed.ProposerIndex signed.ParentRoot
      signed.Body = .ok st2)
    (hpk : E.proposerPubkey st2 signed.ProposerIndex = .ok pk)
    (hsl : slashingSigEntries E st2 signed.Body = .ok slashings)
    (ha : AttestationSignatureBatch E st2 signed.Body.Attestations = .ok aSet)
    (ho : laterSigEntries E st2 signed.version signed.Body = .ok later) :
    ∃ set, ProcessBlockNoVerifyAnySig E st signed = .ok (set, st2) := by
  unfold ProcessBlockNoVerifyAnySig
  simp [hv, hop, hpk, hsl, ha, ho, bind, Except.bind, BlockSignatureBatch,
    RandaoSignatureBatch, wrap, pure, Except.pure]

/-- C1. A state of one fork version and a block of another: the Block Processor
fails with the version-mismatch error, whose message names the version of the
state and then the version of the block; being an error, it carries no
signature set. -/
theorem ProcessBlockNoVerifyAnySig_version_mismatch {σ : Type} (E : Engine σ) (st : σ)
    (signed : SignedBeaconBlock) (h : E.version st ≠ signed.version) :
    ProcessBlockNoVerifyAnySig E st signed =
      .error ("state and block are different version. " ++ toString (E.version st) ++ " != " ++
        toString signed.version) := by
  unfold ProcessBlockNoVerifyAnySig
  rw [if_pos h]
  rfl

/-- C1 at a Phase0 state and an Altair block: the message reads "0 != 1". -/
theorem ProcessBlockNoVerifyAnySig_version_mismatch_witness :
    toyEngine.version (toyState Phase0) ≠ (toyBlock Altair).version ∧
    ProcessBlockNoVerifyAnySig toyEngine (toyState Phase0) (toyBlock Altair) =
      .error "state and block are different version. 0 != 1" :=
  ⟨by decide,
   ProcessBlockNoVerifyAnySig_version_mismatch toyEngine (toyState Phase0) (toyBlock Altair)
     (by decide)⟩

/-- C2. When the slots are processed, the block is applied and the root of the
resulting state differs from the root the block declares, the transition fails
with the state-root mismatch error, whose message starts with
"could not validate state root". -/
theorem ExecuteStateTransitionNoVerifyAnySig_root_mismatch {σ : Type} (E : Engine σ)
    (st st1 st2 : σ) (signed : SignedBeaconBlock) (set : SignatureBatch) (root : Bytes)
    (hslots : E.ProcessSlots st signed.Slot = .ok st1)
    (hblock : ProcessBlockNoVerifyAnySig E st1 signed = .ok (set, st2))
    (hroot : E.HashTreeRoot st2 = .ok root)
    (hne : root ≠ signed.StateRoot) :
    ExecuteStateTransitionNoVerifyAnySig E st signed =
      .error ("could not validate state root" ++
        (", wanted: " ++ hexOf root ++ ", received: " ++ hexOf signed.StateRoot)) := by
  unfold ExecuteStateTransitionNoVerifyAnySig
  simp only [hslots, hblock, hroot, wrap, bind, Except.bind, ne_eq, hne, not_false_eq_true,
    if_true]
  rfl

/-- C2 at a block declaring the root `[0]` where the state after it has the root
`[0, 1, 1]`. -/
theorem ExecuteStateTransitionNoVerifyAnySig_root_mismatch_witness :
    (toyEngine.ProcessSlots (toyState Phase0) (toyBlock Phase0).Slot =
        .ok { version := 0, slot := 1, applied := 0 } ∧
      ProcessBlockNoVerifyAnySig toyEngine { version := 0, slot := 1, applied := 0 }
        (toyBlock Phase0) = .ok (toySet, { version := 0, slot := 1, applied := 1 }) ∧
      toyEngine.HashTreeRoot { version := 0, slot := 1, applied := 1 } = .ok [0, 1, 1] ∧
      [0, 1, 1] ≠ (toyBlock Phase0).StateRoot) ∧
    ExecuteStateTransitionNoVerifyAnySig toyEngine (toyState Phase0) (toyBlock Phase0) =
      .error "could not validate state root, wanted: 0x000101, received: 0x00" :=
  ⟨⟨rfl, rfl, rfl, by decide⟩,
   ExecuteStateTransitionNoVerifyAnySig_root_mismatch toyEngine (toyState Phase0)
     { version := 0, slot := 1, applied := 0 } { version := 0, slot := 1, applied := 1 }
     (toyBlock Phase0) toySet [0, 1, 1] rfl rfl rfl (by decide)⟩

/-- C3. When the dry run `CalculateStateRoot` succeeds with the root `r`, the
full no-verify transition on the same state and the same block with its
declared state root set to `r` succeeds, and the state it returns has the root
`r`: there is no state-root mismatch. -/
theorem CalculateStateRoot_then_execute {σ : Type} (E : Engine σ) (st : σ)
    (signed : SignedBeaconBlock) (r : Bytes)
    (h : CalculateStateRoot E st signed = .ok r) :
    ∃ set st2, ExecuteStateTransitionNoVerifyAnySig E st (signed.withStateRoot r) =
        .ok (set, st2) ∧ E.HashTreeRoot st2 = .ok r := by
  unfold CalculateStateRoot at h
  cases hs : E.ProcessSlots st signed.Slot with
  | error e => simp [hs, wrap, bind, Except.bind] at h
  | ok st1 =>
    cases hb : ProcessBlockNoVerifyAnySig E st1 signed with
    | error e => simp [hs, hb, wrap, bind, Except.bind] at h
    | ok res =>
      obtain ⟨set0, st2⟩ := res
      simp only [hs, hb, wrap, bind, Except.bind] at h
      obtain ⟨hv, hop, pk, slashings, aSet, later, hpk, hsl, ha, ho, -⟩ :=
        ProcessBlockNoVerifyAnySig_ok_inv E st1 st2 signed set0 hb
      obtain ⟨set, hset⟩ := ProcessBlockNoVerifyAnySig_ok_of E st1 st2
        (signed.withStateRoot r) pk slashings aSet later hv hop hpk hsl ha ho
      refine ⟨set, st2, ?_, h⟩
      unfold ExecuteStateTransitionNoVerifyAnySig
      have hs2 : E.ProcessSlots st (signed.withStateRoot r).Slot = .ok st1 := hs
      simp only [hs2, hset, h, wrap, bind, Except.bind]
      simp [SignedBeaconBlock.withStateRoot, pure, Except.pure]

/-- C3 on the toy engine: the dry run gives `[0, 1, 1]`, and the block declaring
that root is accepted. -/
theorem CalculateStateRoot_then_execute_witness :
    CalculateStateRoot toyEngine (toyState Phase0) (toyBlock Phase0) = .ok [0, 1, 1] ∧
    ∃ set st2, ExecuteStateTransitionNoVerifyAnySig toyEngine (toyState Phase0)
        ((toyBlock Phase0).withStateRoot [0, 1, 1]) = .ok (set, st2) ∧
      toyEngine.HashTreeRoot st2 = .ok [0, 1, 1] :=
  ⟨rfl, CalculateStateRoot_then_execute toyEngine (toyState Phase0) (toyBlock Phase0)
    [0, 1, 1] rfl⟩

/-- C4 as stated fails: the toy engine accepts `slashingBlock`, a block with
one proposer slashing and two attestations, and in the signature set the two
signatures of the slashing stand directly after the RANDAO signature: the
third entry is not described "attestation signature" and its signature is not
the signature of an attestation of the block. The attestation entries follow
at the fifth and sixth place. -/
theorem ProcessBlockNoVerifyAnySig_slashing_entries_first :
    ProcessBlockNoVerifyAnySig toyEngine { version := 0, slot := 1, applied := 0 }
        (slashingBlock Phase0) = .ok (slashingSet, { version := 0, slot := 1, applied := 1 }) ∧
    (slashingBlock Phase0).Body.Attestations.map (fun a => a.Signature) = [[11], [21]] ∧
    slashingSet.Descriptions[2]? = some "proposer slashing signature" ∧
    slashingSet.Descriptions[2]? ≠ some "attestation signature" ∧
    slashingSet.Signatures[2]? = some [30, 1] ∧
    [30, 1] ∉ (slashingBlock Phase0).Body.Attestations.map (fun a => a.Signature) ∧
    slashingSet.Signatures.drop 4 = [[11], [21]] :=
  ⟨rfl, rfl, rfl, by decide, rfl, by decide, rfl⟩

/-- C4, amended. For a block the Block Processor accepts, the signature set has
as many descriptions as signatures. The descriptions are "block signature",
"randao signature", then those of the signatures of the proposer and attester
slashings of the block, then one "attestation signature" for every signature
of the attestations, then those of the later entries (exits, sync aggregate,
credential changes); the signatures are the block signature, the RANDAO
reveal, those of the slashings and then, attestation by attestation in block
order, the signatures of each attestation, followed by the later ones. With
`N` attestations there are at least `2 + N` entries. When the block has no
proposer slashing, every slashing entry is described "attestation signature";
when it has no proposer and no attester slashing, the attestation entries
stand directly after the RANDAO signature. -/
theorem ProcessBlockNoVerifyAnySig_descriptions {σ : Type} (E : Engine σ) (st st2 : σ)
    (signed : SignedBeaconBlock) (set : SignatureBatch)
    (h : ProcessBlockNoVerifyAnySig E st signed = .ok (set, st2)) :
    set.Descriptions.length = set.Signatures.length ∧
    ∃ (slashings : List SigEntry) (groups : List (List Bytes)) (later : List SigEntry),
      slashingSigEntries E st2 signed.Body = .ok slashings ∧
      laterSigEntries E st2 signed.version signed.Body = .ok later ∧
      List.Forall₂ (fun a g => ∃ x, E.attestationEntries st2 a = .ok x ∧
        g = (x.1 :: x.2).map (fun t => t.Signature)) signed.Body.Attestations groups ∧
      set.Descriptions = "block signature" :: "randao signature" ::
        (slashings.map (·.Description) ++
          List.replicate groups.flatten.length "attestation signature" ++
          later.map (·.Description)) ∧
      set.Signatures = signed.Signature :: signed.Body.RandaoReveal ::
        (slashings.map (·.Signature) ++ groups.flatten ++ later.map (·.Signature)) ∧
      signed.Body.Attestations.length ≤ groups.flatten.length ∧
      2 + signed.Body.Attestations.length ≤ set.Descriptions.length ∧
      (signed.Body.ProposerSlashings = [] →
        ∀ e ∈ slashings, e.Description = "attestation signature") ∧
      (signed.Body.ProposerSlashings = [] → signed.Body.AttesterSlashings = [] →
        set.Descriptions = "block signature" :: "randao signature" ::
          (List.replicate groups.flatten.length "attestation signature" ++
            later.map (·.Description)) ∧
        set.Signatures = signed.Signature :: signed.Body.RandaoReveal ::
          (groups.flatten ++ later.map (·.Signature))) := by
  obtain ⟨-, -, pk, slashings, aSet, later, -, hsl, ha, ho, hset⟩ :=
    ProcessBlockNoVerifyAnySig_ok_inv E st st2 signed set h
  obtain ⟨groups, hall, hsig, hdesc, hlen⟩ :=
    AttestationSignatureBatch_spec E st2 signed.Body.Attestations aSet ha
  obtain ⟨hsd, hss⟩ := batchOf_fields slashings
  obtain ⟨hod, hos⟩ := batchOf_fields later
  obtain ⟨hnone, hatt⟩ := slashingSigEntries_spec E st2 signed.Body slashings hsl
  have hD : set.Descriptions = "block signature" :: "randao signature" ::
      (slashings.map (·.Description) ++
        List.replicate groups.flatten.length "attestation signature" ++
        later.map (·.Description)) := by
    rw [hset]
    simp only [SignatureBatch.Join, SignatureBatch.Add, NewSet, hod, hsd, hdesc]
    rfl
  have hS : set.Signatures = signed.Signature :: signed.Body.RandaoReveal ::
      (slashings.map (·.Signature) ++ groups.flatten ++ later.map (·.Signature)) := by
    rw [hset]
    simp only [SignatureBatch.Join, SignatureBatch.Add, NewSet, hos, hss, hsig]
    rfl
  refine ⟨?_, slashings, groups, later, hsl, ho, hall, hD, hS, hlen, ?_, hatt, ?_⟩
  · rw [hD, hS]; simp
  · rw [hD]
    simp only [List.length_cons, List.length_append, List.length_replicate, List.length_map]
    omega
  · intro h1 h2
    have h0 := hnone h1 h2
    rw [h0] at hD hS
    exact ⟨hD, hS⟩

/-- C4, amended, on the toy engine, for a block with two attestations and no
slashing. -/
theorem ProcessBlockNoVerifyAnySig_descriptions_witness :
    ProcessBlockNoVerifyAnySig toyEngine { version := 0, slot := 1, applied := 0 }
        (toyBlock Phase0) = .ok (toySet, { version := 0, slot := 1, applied := 1 }) ∧
    (toySet.Descriptions.length = toySet.Signatures.length ∧
    ∃ (slashings : List SigEntry) (groups : List (List Bytes)) (later : List SigEntry),
      slashingSigEntries toyEngine { version := 0, slot := 1, applied := 1 }
        (toyBlock Phase0).Body = .ok slashings ∧
      laterSigEntries toyEngine { version := 0, slot := 1, applied := 1 }
        (toyBlock Phase0).version (toyBlock Phase0).Body = .ok later ∧
      List.Forall₂ (fun a g => ∃ x, toyEngine.attestationEntries
          { version := 0, slot := 1, applied := 1 } a = .ok x ∧
        g = (x.1 :: x.2).map (fun t => t.Signature)) (toyBlock Phase0).Body.Attestations groups ∧
      toySet.Descriptions = "block signature" :: "randao signature" ::
        (slashings.map (·.Description) ++
          List.replicate groups.flatten.length "attestation signature" ++
          later.map (·.Description)) ∧
      toySet.Signatures = (toyBlock Phase0).Signature :: (toyBlock Phase0).Body.RandaoReveal ::
        (slashings.map (·.Signature) ++ groups.flatten ++ later.map (·.Signature)) ∧
      (toyBlock Phase0).Body.Attestations.length ≤ groups.flatten.length ∧
      2 + (toyBlock Phase0).Body.Attestations.length ≤ toySet.Descriptions.length ∧
      ((toyBlock Phase0).Body.ProposerSlashings = [] →
        ∀ e ∈ slashings, e.Description = "attestation signature") ∧
      ((toyBlock Phase0).Body.ProposerSlashings = [] →
        (toyBlock Phase0).Body.AttesterSlashings = [] →
        toySet.Descriptions = "block signature" :: "randao signature" ::
          (List.replicate groups.flatten.length "attestation signature" ++
            later.map (·.Description)) ∧
        toySet.Signatures = (toyBlock Phase0).Signature ::
          (toyBlock Phase0).Body.RandaoReveal ::
          (groups.flatten ++ later.map (·.Signature)))) :=
  ⟨rfl, ProcessBlockNoVerifyAnySig_descriptions toyEngine
    { version := 0, slot := 1, applied := 0 } { version := 0, slot := 1, applied := 1 }
    (toyBlock Phase0) toySet rfl⟩

end transition

namespace consensus_types

/-- C11. For every function name and version, wherever it is called,
`ErrNotSupported` is a non-nil error, other than the sentinel, for which
`errors.Is(.., ErrUnsupportedField)` holds: the sentinel `ErrUnsupportedField`
is at the end of its `Unwrap` chain, under the `withStack` and the
`withMessage` that `Wrap` builds. Its message is the function name,
" is not supported for ", the name of the version and ": unsupported getter". -/
theorem ErrNotSupported_wraps (funcName : String) (ver : Nat) (addr : Nat)
    (stack : List Nat) :
    ∃ e, ErrNotSupported funcName ver addr stack = some e ∧
      e ≠ ErrUnsupportedField ∧
      Is (some e) ErrUnsupportedField = true ∧
      (∃ m, e.Unwrap = some m ∧ m.Unwrap = some ErrUnsupportedField ∧
        ErrUnsupportedField.Unwrap = none) ∧
      e.Error = funcName ++ " is not supported for " ++ version.String ver ++
        ": unsupported getter" := by
  refine ⟨.withStack (addr + 1) (.withMessage addr ErrUnsupportedField
    (funcName ++ " is not supported for " ++ version.String ver)) stack, rfl, ?_, ?_,
    ⟨_, rfl, rfl, rfl⟩, ?_⟩
  · intro h
    cases h
  · simp [Is, ErrUnsupportedField]
  · simp [GoError.Error, ErrUnsupportedField, String.append_assoc]

/-- The error of `ErrNotSupported` on an example: the message, and the sentinel
two `Unwrap` steps down. -/
theorem ErrNotSupported_examples :
    (ErrNotSupported "Validators" 1 10 []).map GoError.Error =
      some "Validators is not supported for altair: unsupported getter" ∧
    Is (ErrNotSupported "Validators" 1 10 []) ErrUnsupportedField = true ∧
    Is (ErrNotSupported "Validators" 1 10 []) ErrNilObjectWrapped = false ∧
    ((ErrNotSupported "Validators" 1 10 []).bind GoError.Unwrap).bind GoError.Unwrap =
      some ErrUnsupportedField :=
  ⟨by decide,
   by simp [Is, ErrNotSupported, Wrap, ErrUnsupportedField],
   by simp [Is, ErrNotSupported, Wrap, ErrUnsupportedField, ErrNilObjectWrapped],
   rfl⟩

end consensus_types

namespace state_native

/-- C13. On a state whose state roots are not nil and number `n`:
`StateRootAtIndex(idx)` returns no root and the error "index <idx> out of
range" when `idx ≥ n`, and the root at position `idx` with no error when
`idx < n`. -/
theorem StateRootAtIndex_spec (b : BeaconState) (roots : List Chunk) (idx : Nat)
    (hroots : b.stateRoots = some roots) :
    (roots.length ≤ idx →
      StateRootAtIndex b idx = (none, some ("index " ++ toString idx ++ " out of range"))) ∧
    (∀ h : idx < roots.length, StateRootAtIndex b idx = (some (roots.get ⟨idx, h⟩), none)) := by
  constructor
  · intro h
    simp [StateRootAtIndex, hroots, stateRootAtIndex, h]
  · intro h
    have hn : ¬ roots.length ≤ idx := by omega
    simp [StateRootAtIndex, hroots, stateRootAtIndex, hn, List.getD_eq_getElem?_getD,
      List.getElem?_eq_getElem h]

/-- C13 on a state with three roots: index 1 gives the second root, index 3 the
error. -/
theorem StateRootAtIndex_spec_witness :
    rootsState.stateRoots =
      some [List.replicate 32 1, List.replicate 32 2, List.replicate 32 3] ∧
    StateRootAtIndex rootsState 3 = (none, some "index 3 out of range") ∧
    StateRootAtIndex rootsState 1 = (some (List.replicate 32 2), none) :=
  ⟨rfl,
   (StateRootAtIndex_spec rootsState
      [List.replicate 32 1, List.replicate 32 2, List.replicate 32 3] 3 rfl).1 (by decide),
   (StateRootAtIndex_spec rootsState
      [List.replicate 32 1, List.replicate 32 2, List.replicate 32 3] 1 rfl).2 (by decide)⟩

/-- The versions of the four forks are 0 to 3. -/
theorem version_cases (v : Nat) (h : v ≤ 3) :
    v = transition.Phase0 ∨ v = transition.Altair ∨ v = transition.Bellatrix ∨
      v = transition.Capella := by
  unfold transition.Phase0 transition.Altair transition.Bellatrix transition.Capella
  omega

/-- The fields of a message, by the version it belongs to. -/
theorem fields_by_version (m : ProtoState) :
    (∀ f ∈ commonFields, f ∈ m.fields) ∧
    (FieldIndex.PreviousEpochAttestations ∈ m.fields ↔ m.version = transition.Phase0) ∧
    (FieldIndex.CurrentEpochAttestations ∈ m.fields ↔ m.version = transition.Phase0) ∧
    (FieldIndex.PreviousEpochParticipationBits ∈ m.fields ↔
      transition.Altair ≤ m.version) ∧
    (FieldIndex.CurrentEpochParticipationBits ∈ m.fields ↔
      transition.Altair ≤ m.version) ∧
    (FieldIndex.InactivityScores ∈ m.fields ↔ transition.Altair ≤ m.version) ∧
    (FieldIndex.CurrentSyncCommittee ∈ m.fields ↔ transition.Altair ≤ m.version) ∧
    (FieldIndex.NextSyncCommittee ∈ m.fields ↔ transition.Altair ≤ m.version) ∧
    (FieldIndex.LatestExecutionPayloadHeader ∈ m.fields ↔
      m.version = transition.Bellatrix) ∧
    (FieldIndex.LatestExecutionPayloadHeaderCapella ∈ m.fields ↔
      m.version = transition.Capella) ∧
    (FieldIndex.NextWithdrawalIndex ∈ m.fields ↔ m.version = transition.Capella) ∧
    (FieldIndex.NextWithdrawalValidatorIndex ∈ m.fields ↔
      m.version = transition.Capella) ∧
    (FieldIndex.HistoricalSummaries ∈ m.fields ↔ m.version = transition.Capella) := by
  cases m <;> simp only [ProtoState.fields, ProtoState.version] <;> decide

/-- C12. For a non-nil state of one of the four fork versions, `ToProto` and
`ToProtoUnsafe` return the message of that version, and the fields of that
message are those of the forks up to it: pending attestations in Phase0 only,
participation lists, inactivity scores and sync committees from Altair on, an
execution payload header from Bellatrix on, withdrawal indices and historical
summaries in Capella only. For every other version, and for a nil state, both
return nil. -/
theorem ToProto_variant (V : ValHelpers) (b : BeaconState) :
    ToProto V none = none ∧ ToProtoUnsafe none = none ∧
    ((3 < b.version ∧ ToProto V (some b) = none ∧ ToProtoUnsafe (some b) = none) ∨
     (b.version ≤ 3 ∧ ∃ m u, ToProto V (some b) = some m ∧ ToProtoUnsafe (some b) = some u ∧
        m.version = b.version ∧ u.version = b.version ∧ m.fields = u.fields ∧
        (∀ f ∈ commonFields, f ∈ m.fields) ∧
        (FieldIndex.PreviousEpochAttestations ∈ m.fields ↔ b.version = transition.Phase0) ∧
        (FieldIndex.CurrentEpochAttestations ∈ m.fields ↔ b.version = transition.Phase0) ∧
        (FieldIndex.PreviousEpochParticipationBits ∈ m.fields ↔
          transition.Altair ≤ b.version) ∧
        (FieldIndex.CurrentEpochParticipationBits ∈ m.fields ↔
          transition.Altair ≤ b.version) ∧
        (FieldIndex.InactivityScores ∈ m.fields ↔ transition.Altair ≤ b.version) ∧
        (FieldIndex.CurrentSyncCommittee ∈ m.fields ↔ transition.Altair ≤ b.version) ∧
        (FieldIndex.NextSyncCommittee ∈ m.fields ↔ transition.Altair ≤ b.version) ∧
        (FieldIndex.LatestExecutionPayloadHeader ∈ m.fields ↔
          b.version = transition.Bellatrix) ∧
        (FieldIndex.LatestExecutionPayloadHeaderCapella ∈ m.fields ↔
          b.version = transition.Capella) ∧
        (FieldIndex.NextWithdrawalIndex ∈ m.fields ↔ b.version = transition.Capella) ∧
        (FieldIndex.NextWithdrawalValidatorIndex ∈ m.fields ↔
          b.version = transition.Capella) ∧
        (FieldIndex.HistoricalSummaries ∈ m.fields ↔ b.version = transition.Capella))) := by
  refine ⟨rfl, rfl, ?_⟩
  by_cases hv : b.version ≤ 3
  · right
    refine ⟨hv, ?_⟩
    rcases version_cases b.version hv with h | h | h | h
    · refine ⟨_, _, by simp only [ToProto, h, if_true]; rfl,
        by simp only [ToProtoUnsafe, h, if_true]; rfl, ?_⟩
      rw [h]
      exact ⟨rfl, rfl, rfl, fields_by_version _⟩
    · refine ⟨_, _, by simp only [ToProto, h]; rfl,
        by simp only [ToProtoUnsafe, h]; rfl, ?_⟩
      rw [h]
      exact ⟨rfl, rfl, rfl, fields_by_version _⟩
    · refine ⟨_, _, by simp only [ToProto, h]; rfl,
        by simp only [ToProtoUnsafe, h]; rfl, ?_⟩
      rw [h]
      exact ⟨rfl, rfl, rfl, fields_by_version _⟩
    · refine ⟨_, _, by simp only [ToProto, h]; rfl,
        by simp only [ToProtoUnsafe, h]; rfl, ?_⟩
      rw [h]
      exact ⟨rfl, rfl, rfl, fields_by_version _⟩
  · left
    have h0 : b.version ≠ transition.Phase0 := by unfold transition.Phase0; omega
    have h1 : b.version ≠ transition.Altair := by unfold transition.Altair; omega
    have h2 : b.version ≠ transition.Bellatrix := by unfold transition.Bellatrix; omega
    have h3 : b.version ≠ transition.Capella := by unfold transition.Capella; omega
    exact ⟨by omega, by simp [ToProto, h0, h1, h2, h3], by simp [ToProtoUnsafe, h0, h1, h2, h3]⟩

theorem SetEth1DataVotes_eval (h : Heap) (b : BeaconState) (val : Slice) (p c : Nat)
    (hp : b.sharedFieldReferences FieldIndex.Eth1DataVotes = some p)
    (hc : h.refs[p]? = some c) :
    ∃ st : BeaconState, SetEth1DataVotes h b val =
        .ok ⟨Heap.mk h.arrays (h.refs.set p (if 0 < c then c - 1 else c) ++ [1]), st, none⟩ ∧
      st.eth1DataVotes = val ∧ st.eth1Data = b.eth1Data ∧
      st.eth1DepositIndex = b.eth1DepositIndex := by
  unfold SetEth1DataVotes
  simp only [bind, Except.bind, MinusRef, hp, hc, NewRef, pure, Except.pure]
  exact ⟨_, rfl, rfl, rfl, rfl⟩

/-- C18. On a state whose shared reference for the votes exists,
`SetEth1DataVotes(val)` returns no error; the state then holds exactly the
slice `val`, which shows the same list as before the call whatever the state
held; the eth1 data and the eth1 deposit index are unchanged. -/
theorem SetEth1DataVotes_overwrites (h : Heap) (b : BeaconState) (val : Slice) (p c : Nat)
    (hp : b.sharedFieldReferences FieldIndex.Eth1DataVotes = some p)
    (hc : h.refs[p]? = some c) :
    ∃ r, SetEth1DataVotes h b val = .ok r ∧ r.err = none ∧
      r.state.eth1DataVotes = val ∧
      r.heap.arrays = h.arrays ∧
      readSlice r.heap r.state.eth1DataVotes = readSlice h val ∧
      r.state.eth1Data = b.eth1Data ∧
      r.state.eth1DepositIndex = b.eth1DepositIndex := by
  obtain ⟨st, hst, h1, h2, h3⟩ := SetEth1DataVotes_eval h b val p c hp hc
  exact ⟨_, hst, rfl, h1, rfl, by rw [h1]; rfl, h2, h3⟩

/-- C18 on the state of `sharedHeap`, whose one vote is replaced by the empty
list. -/
theorem SetEth1DataVotes_overwrites_witness :
    (sharedState.sharedFieldReferences FieldIndex.Eth1DataVotes = some 0 ∧
      sharedHeap.refs[0]? = some 2) ∧
    ∃ r, SetEth1DataVotes sharedHeap sharedState { arr := 0, len := 0, cap := 0 } = .ok r ∧
      r.err = none ∧
      r.state.eth1DataVotes = { arr := 0, len := 0, cap := 0 } ∧
      r.heap.arrays = sharedHeap.arrays ∧
      readSlice r.heap r.state.eth1DataVotes =
        readSlice sharedHeap { arr := 0, len := 0, cap := 0 } ∧
      r.state.eth1Data = sharedState.eth1Data ∧
      r.state.eth1DepositIndex = sharedState.eth1DepositIndex :=
  ⟨⟨rfl, rfl⟩,
   SetEth1DataVotes_overwrites sharedHeap sharedState { arr := 0, len := 0, cap := 0 } 0 2
     rfl rfl⟩

end state_native

namespace transition

/-- C14. Advancing a state to the slot it is already at succeeds and returns
the state itself: no round of the Slot Processor runs. -/
theorem ProcessSlots_same_slot {σ : Type} (P : SlotProcessor σ) (st : σ) :
    ProcessSlots P st (P.Slot st) = .ok st := by
  unfold ProcessSlots
  rw [if_neg (Nat.lt_irrefl _), Nat.sub_self]
  rfl

/-- What advancing does when the target is ahead: on the toy state, from slot 0
to slot 5, crossing one epoch boundary. -/
theorem ProcessSlots_toy :
    ProcessSlots toySlots { version := 0, slot := 0, applied := 7 } 5 =
      .ok { version := 0, slot := 5, applied := 0 } ∧
    ProcessSlots toySlots { version := 0, slot := 3, applied := 7 } 2 =
      .error "expected state.slot 3 < slot 2" := by
  constructor <;> rfl

end transition

namespace slots

theorem toInt64_of_range (x : Int) (h1 : -2 ^ 63 ≤ x) (h2 : x < 2 ^ 63) : toInt64 x = x := by
  unfold toInt64
  omega

theorem runTicks_succ (d : Int) (k : Nat) (st : TickerLoop) :
    runTicks d (k + 1) st =
      (st.slot :: (runTicks d k (tick d st).2).1, (runTicks d k (tick d st).2).2) := rfl

theorem runTicks_spec (d : Int) :
    ∀ (k : Nat) (st : TickerLoop), st.slot + k < 2 ^ 64 →
      (runTicks d k st).1 = List.range' st.slot k ∧
      (runTicks d k st).2.slot = st.slot + k ∧
      (runTicks d k st).2.nextTickTime = st.nextTickTime + k * d := by
  intro k
  induction k with
  | zero => intro st _; simp [runTicks]
  | succ k ih =>
    intro st h
    have hs : (st.slot + 1) % 2 ^ 64 = st.slot + 1 := Nat.mod_eq_of_lt (by omega)
    have hslot : (tick d st).2.slot = st.slot + 1 := hs
    have htime : (tick d st).2.nextTickTime = st.nextTickTime + d := rfl
    obtain ⟨h1, h2, h3⟩ := ih (tick d st).2 (by rw [hslot]; omega)
    rw [runTicks_succ]
    refine ⟨?_, ?_, ?_⟩
    · show st.slot :: (runTicks d k (tick d st).2).1 = _
      rw [h1, hslot, List.range'_succ]
    · show (runTicks d k (tick d st).2).2.slot = _
      rw [h2, hslot]
      omega
    · show (runTicks d k (tick d st).2).2.nextTickTime = _
      rw [h3, htime]
      push_cast
      ring

theorem startLoop_aligned (genesisTime sinceGenesis : Int) (secondsPerSlot : Nat)
    (hd : 0 < slotDuration secondsPerSlot)
    (hs : sinceGenesis + slotDuration secondsPerSlot < 2 ^ 63) :
    ∃ st0, startLoop genesisTime secondsPerSlot sinceGenesis = .ok st0 ∧
      st0.nextTickTime = genesisTime + st0.slot * slotDuration secondsPerSlot ∧
      (st0.slot : Int) < 2 ^ 63 := by
  unfold startLoop
  by_cases hlt : sinceGenesis < slotDuration secondsPerSlot
  · refine ⟨TickerLoop.mk genesisTime 0, by simp only [hlt, if_true], ?_, ?_⟩
    · simp
    · simp
  · have hge : slotDuration secondsPerSlot ≤ sinceGenesis := by omega
    have hs0 : 0 ≤ sinceGenesis := by omega
    have htr : Truncate sinceGenesis (slotDuration secondsPerSlot) =
        sinceGenesis - sinceGenesis % slotDuration secondsPerSlot := by
      unfold Truncate
      rw [if_neg (by omega), Int.tmod_eq_emod hs0 (by omega)]
    have hmod1 : 0 ≤ sinceGenesis % slotDuration secondsPerSlot :=
      Int.emod_nonneg _ (by omega)
    have hmod2 : sinceGenesis % slotDuration secondsPerSlot < slotDuration secondsPerSlot :=
      Int.emod_lt_of_pos _ hd
    have hwrap : toInt64 (Truncate sinceGenesis (slotDuration secondsPerSlot) +
        slotDuration secondsPerSlot) =
        sinceGenesis - sinceGenesis % slotDuration secondsPerSlot +
          slotDuration secondsPerSlot := by
      rw [htr]
      exact toInt64_of_range _ (by omega) (by omega)
    have hdiv : sinceGenesis - sinceGenesis % slotDuration secondsPerSlot +
          slotDuration secondsPerSlot =
        (sinceGenesis / slotDuration secondsPerSlot + 1) * slotDuration secondsPerSlot := by
      have := Int.emod_add_ediv sinceGenesis (slotDuration secondsPerSlot)
      linarith [mul_comm (slotDuration secondsPerSlot)
        (sinceGenesis / slotDuration secondsPerSlot)]
    have hq0 : 0 ≤ sinceGenesis / slotDuration secondsPerSlot :=
      Int.ediv_nonneg hs0 (by omega)
    have hqle : sinceGenesis / slotDuration secondsPerSlot ≤ sinceGenesis :=
      Int.ediv_le_self _ hs0
    have htd : Int.tdiv ((sinceGenesis / slotDuration secondsPerSlot + 1) *
          slotDuration secondsPerSlot) (slotDuration secondsPerSlot) =
        sinceGenesis / slotDuration secondsPerSlot + 1 := by
      rw [Int.tdiv_eq_ediv (Int.mul_nonneg (by omega) (by omega)) (by omega)]
      exact Int.mul_ediv_cancel _ (by omega)
    have hnat : ((sinceGenesis / slotDuration secondsPerSlot + 1) % 2 ^ 64).toNat =
        (sinceGenesis / slotDuration secondsPerSlot + 1).toNat := by
      rw [Int.emod_eq_of_lt (by omega) (by omega)]
    have hdne : slotDuration secondsPerSlot ≠ 0 := by omega
    refine ⟨TickerLoop.mk
        (genesisTime + (sinceGenesis / slotDuration secondsPerSlot + 1) *
          slotDuration secondsPerSlot)
        (sinceGenesis / slotDuration secondsPerSlot + 1).toNat, ?_, ?_, ?_⟩
    · simp only [hlt, if_false, hdne, hwrap, hdiv, htd, hnat]
    · show _ = genesisTime + ((sinceGenesis / slotDuration secondsPerSlot + 1).toNat : Int) *
        slotDuration secondsPerSlot
      rw [Int.toNat_of_nonneg (by omega)]
    · show ((sinceGenesis / slotDuration secondsPerSlot + 1).toNat : Int) < 2 ^ 63
      rw [Int.toNat_of_nonneg (by omega)]
      omega

/-- C15. For a positive slot duration `d`, and as long as the `int64` and
`uint64` arithmetic of the loop does not overflow, the loop of
`SlotTicker.start` keeps `nextTickTime = genesisTime + slot * d`: it holds when
the loop is entered and after every tick, the slots sent on the channel are
consecutive, and the slot sent at a tick is the number of slot durations
between the genesis time and that tick. -/
theorem start_ticks_aligned (genesisTime sinceGenesis : Int) (secondsPerSlot : Nat)
    (hd : 0 < slotDuration secondsPerSlot)
    (hs : sinceGenesis + slotDuration secondsPerSlot < 2 ^ 63) :
    ∃ st0, startLoop genesisTime secondsPerSlot sinceGenesis = .ok st0 ∧
      st0.nextTickTime = genesisTime + st0.slot * slotDuration secondsPerSlot ∧
      ∀ k : Nat, st0.slot + k < 2 ^ 64 →
        (runTicks (slotDuration secondsPerSlot) k st0).1 = List.range' st0.slot k ∧
        (runTicks (slotDuration secondsPerSlot) k st0).2.slot = st0.slot + k ∧
        (runTicks (slotDuration secondsPerSlot) k st0).2.nextTickTime =
          genesisTime + (runTicks (slotDuration secondsPerSlot) k st0).2.slot *
            slotDuration secondsPerSlot := by
  obtain ⟨st0, h0, hinv, -⟩ := startLoop_aligned genesisTime sinceGenesis secondsPerSlot hd hs
  refine ⟨st0, h0, hinv, fun k hk => ?_⟩
  obtain ⟨h1, h2, h3⟩ := runTicks_spec (slotDuration secondsPerSlot) k st0 hk
  refine ⟨h1, h2, ?_⟩
  rw [h3, h2, hinv]
  push_cast
  ring

/-- C15 at a genesis 30 seconds back and slots of 12 seconds: the loop starts at
slot 3, due 36 seconds after the genesis time. -/
theorem start_ticks_aligned_witness :
    (0 < slotDuration 12 ∧ (30000000000 : Int) + slotDuration 12 < 2 ^ 63) ∧
    ∃ st0, startLoop 1700000000000000000 12 30000000000 = .ok st0 ∧
      st0.nextTickTime = 1700000000000000000 + st0.slot * slotDuration 12 ∧
      ∀ k : Nat, st0.slot + k < 2 ^ 64 →
        (runTicks (slotDuration 12) k st0).1 = List.range' st0.slot k ∧
        (runTicks (slotDuration 12) k st0).2.slot = st0.slot + k ∧
        (runTicks (slotDuration 12) k st0).2.nextTickTime =
          1700000000000000000 + (runTicks (slotDuration 12) k st0).2.slot *
            slotDuration 12 :=
  ⟨⟨by decide, by decide⟩,
   start_ticks_aligned 1700000000000000000 30000000000 12 (by decide) (by decide)⟩

theorem checkOffsets_ok_iff (sd : Int) :
    ∀ (l : List Int) (last : Int),
      checkOffsets sd last l = .ok () ↔
        (List.Chain (fun a b => a ≤ b) last l ∧ ∀ x ∈ l, x < sd) := by
  intro l
  induction l with
  | nil => intro last; simp [checkOffsets]
  | cons offset rest ih =>
    intro last
    by_cases h1 : offset < last
    · simp only [checkOffsets, h1, if_true, List.chain_cons]
      constructor
      · intro h; cases h
      · rintro ⟨⟨hle, -⟩, -⟩; omega
    · by_cases h2 : offset ≥ sd
      · simp only [checkOffsets, h1, h2, if_true, if_false]
        constructor
        · intro h; cases h
        · rintro ⟨-, hall⟩
          have := hall offset (List.mem_cons_self _ _)
          omega
      · simp only [checkOffsets, h1, h2, if_false, ih offset, List.chain_cons,
          List.mem_cons, forall_eq_or_imp]
        constructor
        · rintro ⟨hc, hall⟩
          exact ⟨⟨by omega, hc⟩, by omega, hall⟩
        · rintro ⟨⟨-, hc⟩, -, hall⟩
          exact ⟨hc, hall⟩

/-- C16. The constructor `NewSlotTickerWithIntervals` returns a ticker, started
with the genesis time and the intervals it was given, when the Unix value of
the genesis time is not zero, there is at least one interval, no interval is
below its predecessor (the first not below zero) and every interval is below
the slot duration; in every other case it panics, and no ticker is started. -/
theorem NewSlotTickerWithIntervals_ok_iff (secondsPerSlot : Nat) (genesisTime : Int)
    (intervals : List Int) :
    ((Unix genesisTime ≠ 0 ∧ intervals ≠ [] ∧
        List.Chain (fun a b => a ≤ b) 0 intervals ∧
        ∀ x ∈ intervals, x < slotDuration secondsPerSlot) →
      NewSlotTickerWithIntervals secondsPerSlot genesisTime intervals =
        .ok { genesisTime := genesisTime, intervals := intervals }) ∧
    (¬ (Unix genesisTime ≠ 0 ∧ intervals ≠ [] ∧
        List.Chain (fun a b => a ≤ b) 0 intervals ∧
        ∀ x ∈ intervals, x < slotDuration secondsPerSlot) →
      ∃ msg, NewSlotTickerWithIntervals secondsPerSlot genesisTime intervals =
        .error msg) := by
  have hcheck := checkOffsets_ok_iff (slotDuration secondsPerSlot) intervals 0
  constructor
  · rintro ⟨hu, hne, hc, hall⟩
    have hlen : intervals.length ≠ 0 := by
      intro h; exact hne (List.eq_nil_of_length_eq_zero h)
    have hok := hcheck.2 ⟨hc, hall⟩
    simp only [NewSlotTickerWithIntervals, hu, hlen, if_false, hok]
  · intro hnot
    unfold NewSlotTickerWithIntervals
    by_cases hu : Unix genesisTime = 0
    · exact ⟨"zero genesis time", by simp only [hu, if_true]⟩
    · by_cases hlen : intervals.length = 0
      · exact ⟨"at least one interval has to be entered", by
          simp only [hu, hlen, if_true, if_false]⟩
      · cases hres : checkOffsets (slotDuration secondsPerSlot) 0 intervals with
        | error e => exact ⟨e, by simp only [hu, hlen, if_false]⟩
        | ok u =>
          exfalso
          apply hnot
          obtain ⟨hc, hall⟩ := hcheck.1 hres
          refine ⟨hu, ?_, hc, hall⟩
          intro hnil
          apply hlen
          rw [hnil]
          rfl

/-- C16 at two increasing intervals below a slot of 12 seconds: the ticker is
returned. -/
theorem NewSlotTickerWithIntervals_ok_iff_witness :
    (Unix 1700000000000000000 ≠ 0 ∧ ([0, 4000000000] : List Int) ≠ [] ∧
      List.Chain (fun a b => a ≤ b) (0 : Int) [0, 4000000000] ∧
      ∀ x ∈ ([0, 4000000000] : List Int), x < slotDuration 12) ∧
    NewSlotTickerWithIntervals 12 1700000000000000000 [0, 4000000000] =
      .ok { genesisTime := 1700000000000000000, intervals := [0, 4000000000] } :=
  ⟨⟨by decide, by decide,
      List.Chain.cons (by decide) (List.Chain.cons (by decide) List.Chain.nil), by decide⟩,
   (NewSlotTickerWithIntervals_ok_iff 12 1700000000000000000 [0, 4000000000]).1
     ⟨by decide, by decide,
      List.Chain.cons (by decide) (List.Chain.cons (by decide) List.Chain.nil), by decide⟩⟩

/-- C16 on examples: two increasing intervals below a slot of 12 seconds are
accepted; decreasing intervals are not. -/
theorem NewSlotTickerWithIntervals_examples :
    NewSlotTickerWithIntervals 12 1700000000000000000 [0, 4000000000] =
      .ok { genesisTime := 1700000000000000000, intervals := [0, 4000000000] } ∧
    NewSlotTickerWithIntervals 12 1700000000000000000 [4000000000, 0] =
      .error "invalid decreasing offsets" ∧
    NewSlotTickerWithIntervals 12 1700000000000000000 [12000000000] =
      .error "invalid ticker offset" ∧
    NewSlotTickerWithIntervals 12 1700000000000000000 [] =
      .error "at least one interval has to be entered" ∧
    NewSlotTickerWithIntervals 12 999999999 [0] = .error "zero genesis time" := by
  refine ⟨?_, ?_, ?_, ?_, ?_⟩ <;> rfl

end slots

namespace validator

theorem BitAt_SetBitAt (bits : List Bool) (idx j : Nat) (h : idx < bits.length) :
    BitAt (SetBitAt bits idx true) j = true ↔ (BitAt bits j = true ∨ j = idx) := by
  unfold BitAt SetBitAt
  simp only [List.getD_eq_getElem?_getD, List.getElem?_set]
  by_cases hj : idx = j
  · subst hj
    simp [h]
  · have hj2 : ¬ j = idx := fun e => hj e.symm
    simp [hj, hj2]

/-- The bits after the inner loop: those set before, and one for every index of
the message that lies in the subnet. -/
theorem addIndices_bits (sz subnetId : Nat) (msg : SyncCommitteeMessage) :
    ∀ (idxs : List Nat) (st st1 : AggState), sz ≤ st.bits.length →
      addIndices sz subnetId msg st idxs = .ok st1 →
      st1.bits.length = st.bits.length ∧
      ∀ j, BitAt st1.bits j = true ↔
        (BitAt st.bits j = true ∨ ∃ i ∈ idxs, i / sz = subnetId ∧ i % sz = j) := by
  intro idxs
  induction idxs with
  | nil =>
    intro st st1 _ h
    simp only [addIndices, Except.ok.injEq] at h
    subst h
    simp
  | cons index rest ih =>
    intro st st1 hlen h
    by_cases hz : sz = 0
    · simp [addIndices, hz] at h
    · have hmod : index % sz < st.bits.length :=
        Nat.lt_of_lt_of_le (Nat.mod_lt _ (Nat.pos_of_ne_zero hz)) hlen
      by_cases hc : index / sz = subnetId ∧ ¬ BitAt st.bits (index % sz)
      · simp only [addIndices, hz, if_false, hc, not_false_eq_true, and_self, if_true] at h
        obtain ⟨hl, hb⟩ := ih _ st1 (by simpa [SetBitAt] using hlen) h
        refine ⟨by simpa [SetBitAt] using hl, fun j => ?_⟩
        rw [hb j, BitAt_SetBitAt _ _ _ hmod]
        constructor
        · rintro ((hj | hj) | ⟨i, hi, h1, h2⟩)
          · exact Or.inl hj
          · exact Or.inr ⟨index, List.mem_cons_self _ _, hc.1, hj.symm⟩
          · exact Or.inr ⟨i, List.mem_cons_of_mem _ hi, h1, h2⟩
        · rintro (hj | ⟨i, hi, h1, h2⟩)
          · exact Or.inl (Or.inl hj)
          · rcases List.mem_cons.1 hi with rfl | hi
            · exact Or.inl (Or.inr h2.symm)
            · exact Or.inr ⟨i, hi, h1, h2⟩
      · have hstep : addIndices sz subnetId msg st (index :: rest) =
            addIndices sz subnetId msg st rest := by
          simp only [addIndices, hz, if_false]
          rw [if_neg hc]
        rw [hstep] at h
        obtain ⟨hl, hb⟩ := ih st st1 hlen h
        refine ⟨hl, fun j => ?_⟩
        rw [hb j]
        constructor
        · rintro (hj | ⟨i, hi, h1, h2⟩)
          · exact Or.inl hj
          · exact Or.inr ⟨i, List.mem_cons_of_mem _ hi, h1, h2⟩
        · rintro (hj | ⟨i, hi, h1, h2⟩)
          · exact Or.inl hj
          · rcases List.mem_cons.1 hi with rfl | hi
            · left
              by_contra hnb
              exact hc ⟨h1, by rw [h2]; exact hnb⟩
            · exact Or.inr ⟨i, hi, h1, h2⟩

/-- The bits after the first loop: those set before, and one for every index in
the subnet of a message for the block root. -/
theorem collect_bits (D : Deps) (sz slot subnetId : Nat) (blockRoot : Bytes) :
    ∀ (msgs : List SyncCommitteeMessage) (st st1 : AggState), sz ≤ st.bits.length →
      collect D sz slot subnetId blockRoot st msgs = .ok st1 →
      st1.bits.length = st.bits.length ∧
      ∀ j, BitAt st1.bits j = true ↔
        (BitAt st.bits j = true ∨ ∃ m ∈ msgs, m.BlockRoot = blockRoot ∧
          ∃ idxs, D.HeadSyncCommitteeIndices m.ValidatorIndex slot = .ok idxs ∧
            ∃ i ∈ idxs, i / sz = subnetId ∧ i % sz = j) := by
  intro msgs
  induction msgs with
  | nil =>
    intro st st1 _ h
    simp only [collect, Except.ok.injEq] at h
    subst h
    simp
  | cons msg rest ih =>
    intro st st1 hlen h
    by_cases hr : blockRoot = msg.BlockRoot
    · cases hh : D.HeadSyncCommitteeIndices msg.ValidatorIndex slot with
      | error e => simp [collect, hr, hh] at h
      | ok idxs =>
        cases ha : addIndices sz subnetId msg st idxs with
        | error e => simp [collect, hr, hh, ha] at h
        | ok st2 =>
          have hstep : collect D sz slot subnetId blockRoot st (msg :: rest) =
              collect D sz slot subnetId blockRoot st2 rest := by
            simp only [collect, hr, if_true, hh, ha]
          rw [hstep] at h
          obtain ⟨hl2, hb2⟩ := addIndices_bits sz subnetId msg idxs st st2 hlen ha
          obtain ⟨hl, hb⟩ := ih st2 st1 (by rw [hl2]; exact hlen) h
          refine ⟨by rw [hl, hl2], fun j => ?_⟩
          rw [hb j, hb2 j]
          constructor
          · rintro ((hj | hex) | ⟨m, hm, h1, h2⟩)
            · exact Or.inl hj
            · exact Or.inr ⟨msg, List.mem_cons_self _ _, hr.symm, idxs, hh, hex⟩
            · exact Or.inr ⟨m, List.mem_cons_of_mem _ hm, h1, h2⟩
          · rintro (hj | ⟨m, hm, h1, idxs2, h2, h3⟩)
            · exact Or.inl (Or.inl hj)
            · rcases List.mem_cons.1 hm with rfl | hm
              · rw [hh] at h2
                cases h2
                exact Or.inl (Or.inr h3)
              · exact Or.inr ⟨m, hm, h1, idxs2, h2, h3⟩
    · have hstep : collect D sz slot subnetId blockRoot st (msg :: rest) =
          collect D sz slot subnetId blockRoot st rest := by
        simp only [collect, hr, if_false]
      rw [hstep] at h
      obtain ⟨hl, hb⟩ := ih st st1 hlen h
      refine ⟨hl, fun j => ?_⟩
      rw [hb j]
      constructor
      · rintro (hj | ⟨m, hm, h1, h2⟩)
        · exact Or.inl hj
        · exact Or.inr ⟨m, List.mem_cons_of_mem _ hm, h1, h2⟩
      · rintro (hj | ⟨m, hm, h1, h2⟩)
        · exact Or.inl hj
        · rcases List.mem_cons.1 hm with rfl | hm
          · exact absurd h1.symm hr
          · exact Or.inr ⟨m, hm, h1, h2⟩

/-- What a successful call went through: the first loop ended in a state whose
bits are the bits returned. -/
theorem aggregated_ok_inv (D : Deps) (msgs : List SyncCommitteeMessage) (slot subnetId : Nat)
    (blockRoot sig : Bytes) (bits : List Bool)
    (h : aggregatedSigAndAggregationBits D msgs slot subnetId blockRoot = .ok (sig, bits)) :
    ∃ st, collect D (D.SyncCommitteeSize / D.SyncCommitteeSubnetCount) slot subnetId blockRoot
        { bits := List.replicate D.bitsLen false, syncCommitteeIndicesSigMap := [],
          appendedSyncCommitteeIndices := [] } msgs = .ok st ∧ st.bits = bits := by
  unfold aggregatedSigAndAggregationBits at h
  by_cases hc : D.SyncCommitteeSubnetCount = 0
  · simp [hc] at h
  · simp only [hc, if_false] at h
    cases hcol : collect D (D.SyncCommitteeSize / D.SyncCommitteeSubnetCount) slot subnetId
        blockRoot (AggState.mk (List.replicate D.bitsLen false) [] []) msgs with
    | error e => simp [hcol] at h
    | ok st =>
      refine ⟨st, rfl, ?_⟩
      simp only [hcol] at h
      cases hg : gatherSigs st.syncCommitteeIndicesSigMap
          (st.appendedSyncCommitteeIndices.insertionSort (fun a b => a ≤ b)) with
      | error e => simp [hg] at h
      | ok sigs =>
        simp only [hg] at h
        by_cases hcb : D.CryptoBytes = 0
        · simp [hcb] at h
        · simp only [hcb, if_false] at h
          by_cases hs : sigs.length ≠ 0
          · rw [if_pos hs] at h
            cases hm : D.MultipleSignaturesFromBytes sigs with
            | error e => simp [hm] at h
            | ok u =>
              simp only [hm, Except.ok.injEq, Prod.mk.injEq] at h
              exact h.2
          · rw [if_neg hs] at h
            simp only [Except.ok.injEq, Prod.mk.injEq] at h
            exact h.2

/-- The inner loop keeps every appended index in the map, and only fails on a
subcommittee size of zero. -/
theorem addIndices_map (sz subnetId : Nat) (msg : SyncCommitteeMessage) (hz : sz ≠ 0) :
    ∀ (idxs : List Nat) (st : AggState),
      (∀ i ∈ st.appendedSyncCommitteeIndices,
        (st.syncCommitteeIndicesSigMap.lookup i).isSome = true) →
      ∃ st1, addIndices sz subnetId msg st idxs = .ok st1 ∧
        ∀ i ∈ st1.appendedSyncCommitteeIndices,
          (st1.syncCommitteeIndicesSigMap.lookup i).isSome = true := by
  intro idxs
  induction idxs with
  | nil => intro st h; exact ⟨st, rfl, h⟩
  | cons index rest ih =>
    intro st h
    by_cases hc : index / sz = subnetId ∧ ¬ BitAt st.bits (index % sz)
    · have hstep : addIndices sz subnetId msg st (index :: rest) =
          addIndices sz subnetId msg
            (AggState.mk (SetBitAt st.bits (index % sz) true)
              ((index, msg) :: st.syncCommitteeIndicesSigMap)
              (st.appendedSyncCommitteeIndices ++ [index])) rest := by
        simp only [addIndices, hz, if_false]
        rw [if_pos hc]
      rw [hstep]
      apply ih
      intro i hi
      simp only [List.mem_append, List.mem_singleton] at hi
      simp only [List.lookup_cons]
      by_cases he : i = index
      · simp [he]
      · have hne : (i == index) = false := by simpa using he
        rw [hne]
        rcases hi with hi | hi
        · exact h i hi
        · exact absurd hi he
    · have hstep : addIndices sz subnetId msg st (index :: rest) =
          addIndices sz subnetId msg st rest := by
        simp only [addIndices, hz, if_false]
        rw [if_neg hc]
      rw [hstep]
      exact ih st h

/-- The first loop keeps every appended index in the map, and succeeds when the
lookups of the messages for the block root do. -/
theorem collect_map (D : Deps) (sz slot subnetId : Nat) (blockRoot : Bytes) (hz : sz ≠ 0) :
    ∀ (msgs : List SyncCommitteeMessage) (st : AggState),
      (∀ m ∈ msgs, m.BlockRoot = blockRoot →
        ∃ idxs, D.HeadSyncCommitteeIndices m.ValidatorIndex slot = .ok idxs) →
      (∀ i ∈ st.appendedSyncCommitteeIndices,
        (st.syncCommitteeIndicesSigMap.lookup i).isSome = true) →
      ∃ st1, collect D sz slot subnetId blockRoot st msgs = .ok st1 ∧
        ∀ i ∈ st1.appendedSyncCommitteeIndices,
          (st1.syncCommitteeIndicesSigMap.lookup i).isSome = true := by
  intro msgs
  induction msgs with
  | nil => intro st _ h; exact ⟨st, rfl, h⟩
  | cons msg rest ih =>
    intro st hlook h
    have hrest : ∀ m ∈ rest, m.BlockRoot = blockRoot →
        ∃ idxs, D.HeadSyncCommitteeIndices m.ValidatorIndex slot = .ok idxs :=
      fun m hm => hlook m (List.mem_cons_of_mem _ hm)
    by_cases hr : blockRoot = msg.BlockRoot
    · obtain ⟨idxs, hh⟩ := hlook msg (List.mem_cons_self _ _) hr.symm
      obtain ⟨st2, ha, h2⟩ := addIndices_map sz subnetId msg hz idxs st h
      have hstep : collect D sz slot subnetId blockRoot st (msg :: rest) =
          collect D sz slot subnetId blockRoot st2 rest := by
        simp only [collect, hr, if_true, hh, ha]
      rw [hstep]
      exact ih st2 hrest h2
    · have hstep : collect D sz slot subnetId blockRoot st (msg :: rest) =
          collect D sz slot subnetId blockRoot st rest := by
        simp only [collect, hr, if_false]
      rw [hstep]
      exact ih st hrest h

/-- The second loop succeeds when the map has an entry for every index. -/
theorem gatherSigs_ok (sigMap : List (Nat × SyncCommitteeMessage)) :
    ∀ l : List Nat, (∀ i ∈ l, (sigMap.lookup i).isSome = true) →
      ∃ sigs, gatherSigs sigMap l = .ok sigs ∧ sigs.length = l.length := by
  intro l
  induction l with
  | nil => intro _; exact ⟨[], rfl, rfl⟩
  | cons i rest ih =>
    intro h
    obtain ⟨sigs, hs, hl⟩ := ih (fun j hj => h j (List.mem_cons_of_mem _ hj))
    have hi := h i (List.mem_cons_self _ _)
    cases hm : sigMap.lookup i with
    | none => simp [hm] at hi
    | some msg => exact ⟨msg.Signature :: sigs, by simp [gatherSigs, hm, hs], by simp [hl]⟩

/-- The function returns whenever the configuration is sound, the lookups of the
messages for the block root succeed and the collected signatures decompress:
the second loop never fails. -/
theorem aggregated_returns (D : Deps) (msgs : List SyncCommitteeMessage)
    (slot subnetId : Nat) (blockRoot : Bytes)
    (hcount : D.SyncCommitteeSubnetCount ≠ 0)
    (hsize : D.SyncCommitteeSize / D.SyncCommitteeSubnetCount ≠ 0)
    (hcb : D.CryptoBytes ≠ 0)
    (hlook : ∀ m ∈ msgs, m.BlockRoot = blockRoot →
      ∃ idxs, D.HeadSyncCommitteeIndices m.ValidatorIndex slot = .ok idxs)
    (hdec : ∀ sigs, ∃ u, D.MultipleSignaturesFromBytes sigs = .ok u) :
    ∃ sig bits, aggregatedSigAndAggregationBits D msgs slot subnetId blockRoot =
      .ok (sig, bits) := by
  obtain ⟨st, hcol, hmap⟩ := collect_map D _ slot subnetId blockRoot hsize msgs
    (AggState.mk (List.replicate D.bitsLen false) [] []) hlook (by simp)
  obtain ⟨sigs, hg, -⟩ := gatherSigs_ok st.syncCommitteeIndicesSigMap
    (st.appendedSyncCommitteeIndices.insertionSort (fun a b => a ≤ b))
    (fun i hi => hmap i ((List.perm_insertionSort _ _).mem_iff.1 hi))
  unfold aggregatedSigAndAggregationBits
  simp only [hcount, if_false, hcol, hg, hcb]
  by_cases hs : sigs.length ≠ 0
  · obtain ⟨u, hu⟩ := hdec sigs
    rw [if_pos hs]
    simp only [hu]
    exact ⟨_, _, rfl⟩
  · rw [if_neg hs]
    exact ⟨_, _, rfl⟩

/-- C17. When `aggregatedSigAndAggregationBits` returns, and the aggregation bits
have room for a subcommittee, bit `j` of the bits returned is set exactly when
some message for the given block root has, among the head sync committee
indices of its validator, an index `i` with `i / subCommitteeSize = subnetId`
and `i mod subCommitteeSize = j`. -/
theorem aggregationBits_spec (D : Deps) (msgs : List SyncCommitteeMessage)
    (slot subnetId : Nat) (blockRoot sig : Bytes) (bits : List Bool)
    (hroom : D.SyncCommitteeSize / D.SyncCommitteeSubnetCount ≤ D.bitsLen)
    (h : aggregatedSigAndAggregationBits D msgs slot subnetId blockRoot = .ok (sig, bits)) :
    ∀ j, BitAt bits j = true ↔
      ∃ m ∈ msgs, m.BlockRoot = blockRoot ∧
        ∃ idxs, D.HeadSyncCommitteeIndices m.ValidatorIndex slot = .ok idxs ∧
          ∃ i ∈ idxs, i / (D.SyncCommitteeSize / D.SyncCommitteeSubnetCount) = subnetId ∧
            i % (D.SyncCommitteeSize / D.SyncCommitteeSubnetCount) = j := by
  obtain ⟨st, hcol, hbits⟩ := aggregated_ok_inv D msgs slot subnetId blockRoot sig bits h
  obtain ⟨-, hb⟩ := collect_bits D _ slot subnetId blockRoot msgs _ st
    (by simpa using hroom) hcol
  intro j
  rw [← hbits, hb j]
  have h0 : BitAt (List.replicate D.bitsLen false) j = false := by
    unfold BitAt
    rw [List.getD_eq_getElem?_getD, List.getElem?_replicate]
    split <;> rfl
  simp [h0]

/-- C17 on the toy configuration: validators 2 and 1 voted for the root, so the
bits 2 and 1 of subnet 0 are set. -/
theorem aggregationBits_spec_witness :
    (toyDeps.SyncCommitteeSize / toyDeps.SyncCommitteeSubnetCount ≤ toyDeps.bitsLen ∧
      aggregatedSigAndAggregationBits toyDeps toyMsgs 1 0 [7] =
        .ok ([10, 20], [false, true, true, false])) ∧
    ∀ j, BitAt [false, true, true, false] j = true ↔
      ∃ m ∈ toyMsgs, m.BlockRoot = [7] ∧
        ∃ idxs, toyDeps.HeadSyncCommitteeIndices m.ValidatorIndex 1 = .ok idxs ∧
          ∃ i ∈ idxs, i / (toyDeps.SyncCommitteeSize / toyDeps.SyncCommitteeSubnetCount) = 0 ∧
            i % (toyDeps.SyncCommitteeSize / toyDeps.SyncCommitteeSubnetCount) = j :=
  ⟨⟨by decide, rfl⟩,
   aggregationBits_spec toyDeps toyMsgs 1 0 [7] [10, 20] [false, true, true, false]
     (by decide) rfl⟩

end validator

/-! ## Theorems: REST block to protobuf block -/

namespace beacon_api

open apimiddleware

/-- The Phase0 converter returns either an error and no block, or a block and
no error. -/
theorem ConvertRESTPhase0BlockToProto_shape {T : OpTypes} (D : Deps T)
    (block : BeaconBlockJson T) :
    (∃ e, ConvertRESTPhase0BlockToProto D block = (none, some e)) ∨
    (∃ r, ConvertRESTPhase0BlockToProto D block = (some r, none)) := by
  unfold ConvertRESTPhase0BlockToProto
  repeat' split
  all_goals first | exact Or.inl ⟨_, rfl⟩ | exact Or.inr ⟨_, rfl⟩

/-- The Altair converter returns either an error and no block, or a block and
no error. -/
theorem ConvertRESTAltairBlockToProto_shape {T : OpTypes} (D : Deps T)
    (block : BeaconBlockAltairJson T) :
    (∃ e, ConvertRESTAltairBlockToProto D block = (none, some e)) ∨
    (∃ r, ConvertRESTAltairBlockToProto D block = (some r, none)) := by
  unfold ConvertRESTAltairBlockToProto
  repeat' split
  all_goals first | exact Or.inl ⟨_, rfl⟩ | exact Or.inr ⟨_, rfl⟩

/-- The Bellatrix converter returns either an error and no block, or a block
and no error. -/
theorem ConvertRESTBellatrixBlockToProto_shape {T : OpTypes} (D : Deps T)
    (block : BeaconBlockBellatrixJson T) :
    (∃ e, ConvertRESTBellatrixBlockToProto D block = (none, some e)) ∨
    (∃ r, ConvertRESTBellatrixBlockToProto D block = (some r, none)) := by
  unfold ConvertRESTBellatrixBlockToProto
  repeat' split
  all_goals first | exact Or.inl ⟨_, rfl⟩ | exact Or.inr ⟨_, rfl⟩

/-- The Capella converter returns either an error and no block, or a block and
no error. -/
theorem ConvertRESTCapellaBlockToProto_shape {T : OpTypes} (D : Deps T)
    (block : BeaconBlockCapellaJson T) :
    (∃ e, ConvertRESTCapellaBlockToProto D block = (none, some e)) ∨
    (∃ r, ConvertRESTCapellaBlockToProto D block = (some r, none)) := by
  unfold ConvertRESTCapellaBlockToProto
  repeat' split
  all_goals first | exact Or.inl ⟨_, rfl⟩ | exact Or.inr ⟨_, rfl⟩

/-- A result of one of the two shapes with an error has no block. -/
theorem nil_of_shape {α : Type} (res : Option α × Option String)
    (h : (∃ e, res = (none, some e)) ∨ (∃ r, res = (some r, none))) :
    res.2 ≠ none → res.1 = none := by
  intro herr
  rcases h with ⟨e, he⟩ | ⟨r, hr⟩
  · rw [he]
  · rw [hr] at herr
    exact absurd rfl herr

/-- When the Altair converter returns no error, the Phase0 converter succeeds
on the Phase0 fields of the block and the two blocks agree. -/
theorem Altair_refines_Phase0 {T : OpTypes} (D : Deps T) (block : BeaconBlockAltairJson T)
    (h : (ConvertRESTAltairBlockToProto D block).2 = none) :
    ∃ body p r, block.Body = some body ∧
      ConvertRESTPhase0BlockToProto D (phase0Fields block body) = (some p, none) ∧
      ConvertRESTAltairBlockToProto D block = (some r, none) ∧ agreesPhase0 r p := by
  cases hb : block.Body with
  | none => simp [ConvertRESTAltairBlockToProto, hb] at h
  | some body =>
    rcases ConvertRESTPhase0BlockToProto_shape D (phase0Fields block body) with
      ⟨e, hp⟩ | ⟨p, hp⟩
    · simp [ConvertRESTAltairBlockToProto, hb, hp] at h
    · cases hs : body.SyncAggregate with
      | none => simp [ConvertRESTAltairBlockToProto, hb, hp, hs] at h
      | some sa =>
        cases h1 : D.Decode sa.SyncCommitteeBits with
        | error e => simp [ConvertRESTAltairBlockToProto, hb, hp, hs, h1] at h
        | ok bits =>
          cases h2 : D.Decode sa.SyncCommitteeSignature with
          | error e => simp [ConvertRESTAltairBlockToProto, hb, hp, hs, h1, h2] at h
          | ok sig =>
            have hr : ∃ r, ConvertRESTAltairBlockToProto D block = (some r, none) ∧
                agreesPhase0 r p := by
              simp only [ConvertRESTAltairBlockToProto, hb, hp, hs, h1, h2]
              refine ⟨_, rfl, ?_⟩
              unfold agreesPhase0
              repeat' constructor
            obtain ⟨r, hr1, hr2⟩ := hr
            exact ⟨body, p, r, rfl, hp, hr1, hr2⟩

/-- When the Bellatrix converter returns no error, the Altair converter
succeeds on the Altair fields of the block and the two blocks agree. -/
theorem Bellatrix_refines_Altair {T : OpTypes} (D : Deps T)
    (block : BeaconBlockBellatrixJson T)
    (h : (ConvertRESTBellatrixBlockToProto D block).2 = none) :
    ∃ body p r, block.Body = some body ∧
      ConvertRESTAltairBlockToProto D (altairFields block body) = (some p, none) ∧
      ConvertRESTBellatrixBlockToProto D block = (some r, none) ∧ agreesAltair r p := by
  cases hb : block.Body with
  | none => simp [ConvertRESTBellatrixBlockToProto, hb] at h
  | some body =>
    rcases ConvertRESTAltairBlockToProto_shape D (altairFields block body) with
      ⟨e, hp⟩ | ⟨p, hp⟩
    · simp [ConvertRESTBellatrixBlockToProto, hb, hp] at h
    · have hr : ∃ r, ConvertRESTBellatrixBlockToProto D block = (some r, none) ∧
          agreesAltair r p := by
        revert h
        simp only [ConvertRESTBellatrixBlockToProto, hb, hp]
        repeat' split
        all_goals first
          | (intro _; refine ⟨_, rfl, ?_⟩; unfold agreesAltair; repeat' constructor)
          | (intro h; simp at h)
      obtain ⟨r, hr1, hr2⟩ := hr
      exact ⟨body, p, r, rfl, hp, hr1, hr2⟩

/-- When the Capella converter returns no error, the Bellatrix converter
succeeds on the Bellatrix fields of the block and the two blocks agree. -/
theorem Capella_refines_Bellatrix {T : OpTypes} (D : Deps T)
    (block : BeaconBlockCapellaJson T)
    (h : (ConvertRESTCapellaBlockToProto D block).2 = none) :
    ∃ body payload p r, block.Body = some body ∧ body.ExecutionPayload = some payload ∧
      ConvertRESTBellatrixBlockToProto D (bellatrixFields block body payload) =
        (some p, none) ∧
      ConvertRESTCapellaBlockToProto D block = (some r, none) ∧ agreesBellatrix r p := by
  cases hb : block.Body with
  | none => simp [ConvertRESTCapellaBlockToProto, hb] at h
  | some body =>
    cases hs : body.ExecutionPayload with
    | none => simp [ConvertRESTCapellaBlockToProto, hb, hs] at h
    | some payload =>
      rcases ConvertRESTBellatrixBlockToProto_shape D (bellatrixFields block body payload) with
        ⟨e, hp⟩ | ⟨p, hp⟩
      · simp [ConvertRESTCapellaBlockToProto, hb, hs, hp] at h
      · have hr : ∃ r, ConvertRESTCapellaBlockToProto D block = (some r, none) ∧
            agreesBellatrix r p := by
          revert h
          simp only [ConvertRESTCapellaBlockToProto, hb, hs, hp]
          repeat' split
          all_goals first
            | (intro _; refine ⟨_, rfl, ?_⟩; unfold agreesBellatrix; repeat' constructor)
            | (intro h; simp at h)
        obtain ⟨r, hr1, hr2⟩ := hr
        exact ⟨body, payload, p, r, rfl, hs, hp, hr1, hr2⟩

/-- C20. Each later-fork converter refines the one before it. Whenever the
Altair converter returns no error, the Phase0 converter returns a block and no
error on the Phase0 fields of the JSON block, the Altair converter returns a
block, and slot, proposer index, parent root, state root and every body field
the two forks share are equal in the two blocks; likewise for Bellatrix over
Altair, and for Capella over Bellatrix with the fields of the execution
payload. Whenever one of the four converters returns an error, the block it
returns is nil. -/
theorem converters_refine {T : OpTypes} (D : Deps T) :
    (∀ block : BeaconBlockAltairJson T,
      (ConvertRESTAltairBlockToProto D block).2 = none →
      ∃ body p r, block.Body = some body ∧
        ConvertRESTPhase0BlockToProto D (phase0Fields block body) = (some p, none) ∧
        ConvertRESTAltairBlockToProto D block = (some r, none) ∧ agreesPhase0 r p) ∧
    (∀ block : BeaconBlockBellatrixJson T,
      (ConvertRESTBellatrixBlockToProto D block).2 = none →
      ∃ body p r, block.Body = some body ∧
        ConvertRESTAltairBlockToProto D (altairFields block body) = (some p, none) ∧
        ConvertRESTBellatrixBlockToProto D block = (some r, none) ∧ agreesAltair r p) ∧
    (∀ block : BeaconBlockCapellaJson T,
      (ConvertRESTCapellaBlockToProto D block).2 = none →
      ∃ body payload p r, block.Body = some body ∧ body.ExecutionPayload = some payload ∧
        ConvertRESTBellatrixBlockToProto D (bellatrixFields block body payload) =
          (some p, none) ∧
        ConvertRESTCapellaBlockToProto D block = (some r, none) ∧ agreesBellatrix r p) ∧
    (∀ block : BeaconBlockJson T,
      (ConvertRESTPhase0BlockToProto D block).2 ≠ none →
        (ConvertRESTPhase0BlockToProto D block).1 = none) ∧
    (∀ block : BeaconBlockAltairJson T,
      (ConvertRESTAltairBlockToProto D block).2 ≠ none →
        (ConvertRESTAltairBlockToProto D block).1 = none) ∧
    (∀ block : BeaconBlockBellatrixJson T,
      (ConvertRESTBellatrixBlockToProto D block).2 ≠ none →
        (ConvertRESTBellatrixBlockToProto D block).1 = none) ∧
    (∀ block : BeaconBlockCapellaJson T,
      (ConvertRESTCapellaBlockToProto D block).2 ≠ none →
        (ConvertRESTCapellaBlockToProto D block).1 = none) :=
  ⟨Altair_refines_Phase0 D, Bellatrix_refines_Altair D, Capella_refines_Bellatrix D,
   fun block => nil_of_shape _ (ConvertRESTPhase0BlockToProto_shape D block),
   fun block => nil_of_shape _ (ConvertRESTAltairBlockToProto_shape D block),
   fun block => nil_of_shape _ (ConvertRESTBellatrixBlockToProto_shape D block),
   fun block => nil_of_shape _ (ConvertRESTCapellaBlockToProto_shape D block)⟩

/-- C20 on the example blocks: the three later-fork converters accept them, so
the lower-fork converters accept their projections with equal shared fields;
and the Capella block with the slot "x" is refused, with no block returned. -/
theorem converters_refine_witness :
    ((ConvertRESTAltairBlockToProto toyDeps toyAltair).2 = none ∧
      (ConvertRESTBellatrixBlockToProto toyDeps toyBellatrix).2 = none ∧
      (ConvertRESTCapellaBlockToProto toyDeps toyCapella).2 = none ∧
      (ConvertRESTCapellaBlockToProto toyDeps { toyCapella with Slot := "x" }).2 ≠ none) ∧
    (∃ body p r, toyAltair.Body = some body ∧
      ConvertRESTPhase0BlockToProto toyDeps (phase0Fields toyAltair body) = (some p, none) ∧
      ConvertRESTAltairBlockToProto toyDeps toyAltair = (some r, none) ∧ agreesPhase0 r p) ∧
    (∃ body p r, toyBellatrix.Body = some body ∧
      ConvertRESTAltairBlockToProto toyDeps (altairFields toyBellatrix body) = (some p, none) ∧
      ConvertRESTBellatrixBlockToProto toyDeps toyBellatrix = (some r, none) ∧
      agreesAltair r p) ∧
    (∃ body payload p r, toyCapella.Body = some body ∧
      body.ExecutionPayload = some payload ∧
      ConvertRESTBellatrixBlockToProto toyDeps (bellatrixFields toyCapella body payload) =
        (some p, none) ∧
      ConvertRESTCapellaBlockToProto toyDeps toyCapella = (some r, none) ∧
      agreesBellatrix r p) ∧
    (ConvertRESTCapellaBlockToProto toyDeps { toyCapella with Slot := "x" }).1 = none :=
  ⟨⟨rfl, rfl, rfl, by decide⟩,
   (converters_refine toyDeps).1 toyAltair rfl,
   (converters_refine toyDeps).2.1 toyBellatrix rfl,
   (converters_refine toyDeps).2.2.1 toyCapella rfl,
   (converters_refine toyDeps).2.2.2.2.2.2 { toyCapella with Slot := "x" } (by decide)⟩

/-- The result of the Capella converter on the example block, and the error
on the block with the slot "x": the errors of the lower forks, wrapped. -/
theorem ConvertRESTCapellaBlockToProto_examples :
    (ConvertRESTCapellaBlockToProto toyDeps toyCapella).1.map
        (fun r => ((r.Slot, r.ProposerIndex, r.Body.Eth1Data.DepositCount,
          r.Body.Attestations, r.Body.ExecutionPayload.GasLimit,
          r.Body.ExecutionPayload.Withdrawals) :
            Nat × Nat × Nat × List Nat × Nat × List Nat)) =
      some (5, 3, 12, [1, 2], 30, [2, 2]) ∧
    ConvertRESTCapellaBlockToProto toyDeps { toyCapella with Slot := "x" } =
      (none, some ("failed to get the bellatrix fields of the capella block: " ++
        "failed to get the altair fields of the bellatrix block: " ++
        "failed to get the phase0 fields of the altair block: " ++
        "failed to parse slot " ++ "\x60" ++ "x" ++ "\x60" ++ ": invalid syntax")) :=
  ⟨rfl, rfl⟩

end beacon_api

/-! ## Theorems: dirty-field tracking of the eth1 setters -/

namespace state_native

/-- The copy-on-write branch leaves the dirty-tracking maps and the length of
the votes alone. -/
theorem detachVotes_dirty (h : Heap) (b : BeaconState) (h1 : Heap) (b1 : BeaconState)
    (votes : Slice) (hd : detachVotes h b = .ok (h1, b1, votes)) :
    b1.dirtyFields = b.dirtyFields ∧ b1.dirtyIndices = b.dirtyIndices ∧
    b1.rebuildTrie = b.rebuildTrie ∧ votes.len = b.eth1DataVotes.len := by
  unfold detachVotes at hd
  simp only [bind, Except.bind, pure, Except.pure, makeSlice] at hd
  split at hd
  · cases hd
  · split at hd
    · cases hd
    · cases hd
      exact ⟨rfl, rfl, rfl, rfl⟩

/-- Go `append` returns a slice one element longer. -/
theorem appendSlice_len (h : Heap) (s : Slice) (v : Option Eth1Data) (h1 : Heap) (s1 : Slice)
    (ha : appendSlice h s v = .ok (h1, s1)) : s1.len = s.len + 1 := by
  unfold appendSlice at ha
  split at ha
  · cases ha
  · split at ha
    · split at ha
      · cases ha
      · split at ha
        · cases ha; rfl
        · cases ha
    · cases ha; rfl

/-- The state `AppendEth1DataVotes` returns is the one the two tracking helpers
leave, called with the field of the votes and with the index of the last
element of the new list. -/
theorem append_dirty_shape (h : Heap) (b : BeaconState) (val : Option Eth1Data)
    (r : SetterResult) (hr : AppendEth1DataVotes h b val = .ok r) :
    ∃ b2 : BeaconState, b2.dirtyFields = b.dirtyFields ∧ b2.dirtyIndices = b.dirtyIndices ∧
      b2.rebuildTrie = b.rebuildTrie ∧ b2.eth1DataVotes.len = b.eth1DataVotes.len + 1 ∧
      r.state = addDirtyIndices (markFieldAsDirty b2 FieldIndex.Eth1DataVotes)
        FieldIndex.Eth1DataVotes [b2.eth1DataVotes.len - 1] := by
  unfold AppendEth1DataVotes at hr
  simp only [bind, Except.bind, pure, Except.pure] at hr
  split at hr
  · cases hr
  · rename_i refs hrefs
    by_cases hs : 1 < refs
    · rw [if_pos hs] at hr
      cases hd : detachVotes h b with
      | error e => rw [hd] at hr; cases hr
      | ok t =>
        obtain ⟨h1, b1, votes⟩ := t
        rw [hd] at hr
        obtain ⟨e1, e2, e3, e4⟩ := detachVotes_dirty h b h1 b1 votes hd
        cases ha : appendSlice h1 votes val with
        | error e => simp only [ha] at hr; cases hr
        | ok t2 =>
          obtain ⟨h2, s⟩ := t2
          simp only [ha] at hr
          cases hr
          have hl := appendSlice_len h1 votes val h2 s ha
          exact ⟨{ b1 with eth1DataVotes := s }, e1, e2, e3, by simp only [hl, e4], rfl⟩
    · rw [if_neg hs] at hr
      cases ha : appendSlice h b.eth1DataVotes val with
      | error e => simp only [ha] at hr; cases hr
      | ok t2 =>
        obtain ⟨h2, s⟩ := t2
        simp only [ha] at hr
        cases hr
        have hl := appendSlice_len h b.eth1DataVotes val h2 s ha
        exact ⟨{ b with eth1DataVotes := s }, rfl, rfl, rfl, by simp only [hl], rfl⟩

/-- What `addDirtyIndices` does to the tracking maps: the dirty fields are
kept. When the trie of the field is already due to be rebuilt nothing is
recorded; otherwise the indices are appended to those of the field while the
limit is not passed, and past the limit the recorded indices are dropped and
the trie of the field becomes due to be rebuilt. -/
theorem addDirtyIndices_spec (b : BeaconState) (i : FieldIndex) (l : List Nat) :
    (addDirtyIndices b i l).dirtyFields = b.dirtyFields ∧
    (b.rebuildTrie i = true → (addDirtyIndices b i l).rebuildTrie i = true ∧
      (addDirtyIndices b i l).dirtyIndices i = b.dirtyIndices i) ∧
    (b.rebuildTrie i = false → (b.dirtyIndices i).length + l.length ≤ indicesLimit →
      (addDirtyIndices b i l).rebuildTrie i = false ∧
      (addDirtyIndices b i l).dirtyIndices i = b.dirtyIndices i ++ l) ∧
    (b.rebuildTrie i = false → indicesLimit < (b.dirtyIndices i).length + l.length →
      (addDirtyIndices b i l).rebuildTrie i = true ∧
      (addDirtyIndices b i l).dirtyIndices i = []) := by
  unfold addDirtyIndices
  by_cases h1 : b.rebuildTrie i = true
  · rw [if_pos h1]
    have hf : b.rebuildTrie i ≠ false := by rw [h1]; decide
    exact ⟨rfl, fun _ => ⟨h1, rfl⟩, fun h => absurd h hf, fun h => absurd h hf⟩
  · rw [if_neg h1]
    by_cases h2 : indicesLimit < (b.dirtyIndices i).length + l.length
    · rw [if_pos h2]
      exact ⟨rfl, fun h => absurd h h1, fun _ h => absurd h2 (Nat.not_lt.2 h),
        fun _ _ => ⟨by simp [setAt], by simp [setAt]⟩⟩
    · rw [if_neg h2]
      exact ⟨rfl, fun h => absurd h h1, fun h _ => ⟨h, by simp [setAt]⟩,
        fun _ h => absurd h h2⟩

/-- C23 as stated fails: `AppendEth1DataVotes` called right after
`SetEth1DataVotes`, which leaves the trie of the votes due to be rebuilt,
returns no error, makes the list two votes long and marks the field dirty,
but records no dirty index: index 1, the new length minus one, is not among
the dirty indices of the field. -/
theorem AppendEth1DataVotes_after_set_records_no_index :
    (SetEth1DataVotes ownedHeap ownedState { arr := 0, len := 1, cap := 2 }).toOption.bind
        (fun r1 => (AppendEth1DataVotes r1.heap r1.state (some voteB)).toOption.map
          (fun r => (r.err, r.state.eth1DataVotes.len,
            r.state.dirtyFields FieldIndex.Eth1DataVotes,
            r.state.dirtyIndices FieldIndex.Eth1DataVotes,
            decide (r.state.eth1DataVotes.len - 1 ∈
              r.state.dirtyIndices FieldIndex.Eth1DataVotes),
            r.state.rebuildTrie FieldIndex.Eth1DataVotes))) =
      some (none, 2, true, [], false, true) :=
  rfl

/-- C23, amended. On a state whose vote slice is valid and whose shared
reference for the votes exists, each eth1 setter returns no error and leaves
its field marked dirty: `SetEth1Data` the field Eth1Data, `SetEth1DataVotes`
and `AppendEth1DataVotes` the field Eth1DataVotes, `SetEth1DepositIndex` the
field Eth1DepositIndex; `SetEth1DataVotes` also leaves the trie of the votes
due to be rebuilt. After `AppendEth1DataVotes` the list is one element longer
and the index of the appended element, the new length minus one, is handed to
`addDirtyIndices` after `markFieldAsDirty`. That index is recorded as the last
dirty index of the field exactly in the case that the trie of the field was
not due to be rebuilt and fewer indices than the limit were tracked. When the
trie was already due to be rebuilt the dirty indices are left as they were and
the trie stays due; when the limit was reached the dirty indices are cleared
and the trie becomes due to be rebuilt. -/
theorem eth1_setters_mark_dirty (h : Heap) (b : BeaconState) (p c : Nat)
    (L : List (Option Eth1Data))
    (hp : b.sharedFieldReferences FieldIndex.Eth1DataVotes = some p)
    (hc : h.refs[p]? = some c)
    (hv : Slice.valid h b.eth1DataVotes)
    (hL : readSlice h b.eth1DataVotes = some L) :
    (∀ val, ∃ r, SetEth1Data h b val = .ok r ∧ r.err = none ∧
      r.state.dirtyFields FieldIndex.Eth1Data = true) ∧
    (∀ val, ∃ r, SetEth1DataVotes h b val = .ok r ∧ r.err = none ∧
      r.state.dirtyFields FieldIndex.Eth1DataVotes = true ∧
      r.state.rebuildTrie FieldIndex.Eth1DataVotes = true) ∧
    (∀ val, ∃ r, SetEth1DepositIndex h b val = .ok r ∧ r.err = none ∧
      r.state.dirtyFields FieldIndex.Eth1DepositIndex = true) ∧
    (∀ val, ∃ r, AppendEth1DataVotes h b val = .ok r ∧ r.err = none ∧
      r.state.dirtyFields FieldIndex.Eth1DataVotes = true ∧
      r.state.eth1DataVotes.len = L.length + 1 ∧
      (b.rebuildTrie FieldIndex.Eth1DataVotes = false →
        (b.dirtyIndices FieldIndex.Eth1DataVotes).length < indicesLimit →
        r.state.dirtyIndices FieldIndex.Eth1DataVotes =
          b.dirtyIndices FieldIndex.Eth1DataVotes ++ [r.state.eth1DataVotes.len - 1] ∧
        r.state.rebuildTrie FieldIndex.Eth1DataVotes = false) ∧
      (b.rebuildTrie FieldIndex.Eth1DataVotes = true →
        r.state.dirtyIndices FieldIndex.Eth1DataVotes =
          b.dirtyIndices FieldIndex.Eth1DataVotes ∧
        r.state.rebuildTrie FieldIndex.Eth1DataVotes = true) ∧
      (b.rebuildTrie FieldIndex.Eth1DataVotes = false →
        indicesLimit ≤ (b.dirtyIndices FieldIndex.Eth1DataVotes).length →
        r.state.dirtyIndices FieldIndex.Eth1DataVotes = [] ∧
        r.state.rebuildTrie FieldIndex.Eth1DataVotes = true) ∧
      ∃ b2 : BeaconState, b2.dirtyFields = b.dirtyFields ∧
        b2.dirtyIndices = b.dirtyIndices ∧ b2.rebuildTrie = b.rebuildTrie ∧
        r.state = addDirtyIndices (markFieldAsDirty b2 FieldIndex.Eth1DataVotes)
          FieldIndex.Eth1DataVotes [r.state.eth1DataVotes.len - 1]) := by
  have hlen := readSlice_length h _ L hL
  refine ⟨fun val => ⟨_, rfl, rfl, by simp [markFieldAsDirty, setAt]⟩, ?_,
    fun val => ⟨_, rfl, rfl, by simp [markFieldAsDirty, setAt]⟩, ?_⟩
  · intro val
    unfold SetEth1DataVotes
    simp only [bind, Except.bind, MinusRef, hp, hc, NewRef, pure, Except.pure]
    exact ⟨_, rfl, rfl, by simp [markFieldAsDirty, setAt], by simp [setAt]⟩
  · intro val
    have hex : ∃ r, AppendEth1DataVotes h b val = .ok r ∧ r.err = none := by
      by_cases hs : 1 < c
      · obtain ⟨r, hr, -, -, -, -, -, -, -, -, herr⟩ :=
          append_shared_eval h b val p c L hp hc hs hL
        exact ⟨r, hr, herr⟩
      · obtain ⟨r, hr, herr, -⟩ := append_unshared_eval h b val p c L hp hc hs hv hL
        exact ⟨r, hr, herr⟩
    obtain ⟨r, hr, herr⟩ := hex
    obtain ⟨b2, e1, e2, e3, e4, hst⟩ := append_dirty_shape h b val r hr
    obtain ⟨s1, s2, s3, s4⟩ := addDirtyIndices_spec
      (markFieldAsDirty b2 FieldIndex.Eth1DataVotes) FieldIndex.Eth1DataVotes
      [b2.eth1DataVotes.len - 1]
    have hfr := (addDirtyIndices_frame (markFieldAsDirty b2 FieldIndex.Eth1DataVotes)
      FieldIndex.Eth1DataVotes [b2.eth1DataVotes.len - 1]).1
    have hvl : r.state.eth1DataVotes = b2.eth1DataVotes := by
      rw [hst, hfr]; rfl
    have hdi : (markFieldAsDirty b2 FieldIndex.Eth1DataVotes).dirtyIndices = b.dirtyIndices := e2
    have hrt : (markFieldAsDirty b2 FieldIndex.Eth1DataVotes).rebuildTrie = b.rebuildTrie := e3
    rw [hdi, hrt] at s2 s3 s4
    refine ⟨r, hr, herr, ?_, ?_, ?_, ?_, ?_, ?_⟩
    · rw [hst, s1]
      simp [markFieldAsDirty, setAt]
    · rw [hvl, e4, hlen]
    · intro hnr hlim
      rw [hvl, hst]
      obtain ⟨t1, t2⟩ := s3 hnr (by simpa using hlim)
      exact ⟨t2, t1⟩
    · intro hr1
      rw [hst]
      obtain ⟨t1, t2⟩ := s2 hr1
      exact ⟨t2, t1⟩
    · intro hnr hlim
      rw [hst]
      obtain ⟨t1, t2⟩ := s4 hnr (by simpa using Nat.lt_succ_of_le hlim)
      exact ⟨t2, t1⟩
    · exact ⟨b2, e1, e2, e3, by rw [hvl]; exact hst⟩

/-- C23, amended, on the list held by one state, whose trie is not due to be
rebuilt: appending a second vote marks the field dirty and records index 1,
the new length 2 minus one. -/
theorem eth1_setters_mark_dirty_witness :
    (ownedState.sharedFieldReferences FieldIndex.Eth1DataVotes = some 0 ∧
      ownedHeap.refs[0]? = some 1 ∧ Slice.valid ownedHeap ownedState.eth1DataVotes ∧
      readSlice ownedHeap ownedState.eth1DataVotes = some [some voteA]) ∧
    ∃ r, AppendEth1DataVotes ownedHeap ownedState (some voteB) = .ok r ∧ r.err = none ∧
      r.state.dirtyFields FieldIndex.Eth1DataVotes = true ∧
      r.state.eth1DataVotes.len = [some voteA].length + 1 ∧
      (ownedState.rebuildTrie FieldIndex.Eth1DataVotes = false →
        (ownedState.dirtyIndices FieldIndex.Eth1DataVotes).length < indicesLimit →
        r.state.dirtyIndices FieldIndex.Eth1DataVotes =
          ownedState.dirtyIndices FieldIndex.Eth1DataVotes ++
            [r.state.eth1DataVotes.len - 1] ∧
        r.state.rebuildTrie FieldIndex.Eth1DataVotes = false) ∧
      (ownedState.rebuildTrie FieldIndex.Eth1DataVotes = true →
        r.state.dirtyIndices FieldIndex.Eth1DataVotes =
          ownedState.dirtyIndices FieldIndex.Eth1DataVotes ∧
        r.state.rebuildTrie FieldIndex.Eth1DataVotes = true) ∧
      (ownedState.rebuildTrie FieldIndex.Eth1DataVotes = false →
        indicesLimit ≤ (ownedState.dirtyIndices FieldIndex.Eth1DataVotes).length →
        r.state.dirtyIndices FieldIndex.Eth1DataVotes = [] ∧
        r.state.rebuildTrie FieldIndex.Eth1DataVotes = true) ∧
      ∃ b2 : BeaconState, b2.dirtyFields = ownedState.dirtyFields ∧
        b2.dirtyIndices = ownedState.dirtyIndices ∧
        b2.rebuildTrie = ownedState.rebuildTrie ∧
        r.state = addDirtyIndices (markFieldAsDirty b2 FieldIndex.Eth1DataVotes)
          FieldIndex.Eth1DataVotes [r.state.eth1DataVotes.len - 1] :=
  ⟨⟨rfl, rfl, ⟨by decide, Or.inr ⟨[some voteA, none], rfl, by decide⟩⟩, rfl⟩,
   (eth1_setters_mark_dirty ownedHeap ownedState 0 1 [some voteA]
     rfl rfl ⟨by decide, Or.inr ⟨[some voteA, none], rfl, by decide⟩⟩ rfl).2.2.2 (some voteB)⟩

/-- The two cases of the index tracking on examples: on `ownedState` the append
records index 1; on `rebuildState`, where the trie of the votes is due to be
rebuilt, no index is recorded and the trie stays due. -/
theorem AppendEth1DataVotes_dirty_examples :
    (AppendEth1DataVotes ownedHeap ownedState (some voteB)).toOption.map
        (fun r => (r.state.dirtyFields FieldIndex.Eth1DataVotes,
          r.state.dirtyIndices FieldIndex.Eth1DataVotes,
          r.state.rebuildTrie FieldIndex.Eth1DataVotes)) = some (true, [1], false) ∧
    (AppendEth1DataVotes ownedHeap rebuildState (some voteB)).toOption.map
        (fun r => (r.state.dirtyFields FieldIndex.Eth1DataVotes,
          r.state.dirtyIndices FieldIndex.Eth1DataVotes,
          r.state.rebuildTrie FieldIndex.Eth1DataVotes)) = some (true, [], true) :=
  ⟨rfl, rfl⟩

end state_native

/-! ## Theorems: the signatures collected for aggregation -/

namespace validator

/-- Setting a bit that was unset adds one to the number of set bits. -/
theorem count_SetBitAt (bits : List Bool) :
    ∀ idx : Nat, idx < bits.length → BitAt bits idx = false →
      (SetBitAt bits idx true).count true = bits.count true + 1 := by
  induction bits with
  | nil => intro idx h; simp at h
  | cons b rest ih =>
    intro idx h hb
    cases idx with
    | zero =>
      have hb0 : b = false := by simpa [BitAt] using hb
      subst hb0
      simp [SetBitAt]
    | succ k =>
      have hk := ih k (by simpa using h) (by simpa [BitAt] using hb)
      simp only [SetBitAt, List.set_cons_succ, List.count_cons] at hk ⊢
      omega

/-- The length of the bits is kept by `SetBitAt`. -/
theorem length_SetBitAt (bits : List Bool) (idx : Nat) (v : Bool) :
    (SetBitAt bits idx v).length = bits.length := by
  simp [SetBitAt]

/-- One step of the inner loop that appends an index keeps the invariant. -/
theorem CollectInv_step (D : Deps) (sz slot subnetId : Nat) (blockRoot : Bytes)
    (src : List SyncCommitteeMessage) (msg : SyncCommitteeMessage) (st : AggState)
    (index : Nat) (l : List Nat)
    (hlen : sz ≤ st.bits.length) (hz : sz ≠ 0)
    (hmsg : msg ∈ src) (hroot : msg.BlockRoot = blockRoot)
    (hl : D.HeadSyncCommitteeIndices msg.ValidatorIndex slot = .ok l) (hil : index ∈ l)
    (hsub : index / sz = subnetId) (hbit : ¬ BitAt st.bits (index % sz) = true)
    (hinv : CollectInv D sz slot subnetId blockRoot src st) :
    CollectInv D sz slot subnetId blockRoot src
      (AggState.mk (SetBitAt st.bits (index % sz) true)
        ((index, msg) :: st.syncCommitteeIndicesSigMap)
        (st.appendedSyncCommitteeIndices ++ [index])) := by
  obtain ⟨h1, h2, h3, h4, h5⟩ := hinv
  have hmod : index % sz < st.bits.length :=
    lt_of_lt_of_le (Nat.mod_lt _ (Nat.pos_of_ne_zero hz)) hlen
  have hnew : index ∉ st.appendedSyncCommitteeIndices := fun hi => hbit (h3 index hi).2
  have hfalse : BitAt st.bits (index % sz) = false := by
    cases hb : BitAt st.bits (index % sz) with
    | true => exact absurd hb hbit
    | false => rfl
  refine ⟨?_, ?_, ?_, ?_, ?_⟩
  · show (st.appendedSyncCommitteeIndices ++ [index]).Nodup
    rw [List.nodup_append]
    refine ⟨h1, List.nodup_singleton _, ?_⟩
    intro a ha hb
    rw [List.mem_singleton] at hb
    subst hb
    exact hnew ha
  · show (SetBitAt st.bits (index % sz) true).count true =
      (st.appendedSyncCommitteeIndices ++ [index]).length
    rw [count_SetBitAt st.bits _ hmod hfalse, h2]
    simp
  · intro i hi
    have hi2 : i ∈ st.appendedSyncCommitteeIndices ++ [index] := hi
    rw [List.mem_append, List.mem_singleton] at hi2
    show i / sz = subnetId ∧ BitAt (SetBitAt st.bits (index % sz) true) (i % sz) = true
    rcases hi2 with hi2 | hi2
    · exact ⟨(h3 i hi2).1, (BitAt_SetBitAt _ _ _ hmod).2 (Or.inl (h3 i hi2).2)⟩
    · subst hi2
      exact ⟨hsub, (BitAt_SetBitAt _ _ _ hmod).2 (Or.inr rfl)⟩
  · intro j hj
    have hj2 : BitAt (SetBitAt st.bits (index % sz) true) j = true := hj
    show ∃ i ∈ st.appendedSyncCommitteeIndices ++ [index], i % sz = j
    rcases (BitAt_SetBitAt _ _ _ hmod).1 hj2 with hj3 | hj3
    · obtain ⟨i, hi, hij⟩ := h4 j hj3
      exact ⟨i, List.mem_append_left _ hi, hij⟩
    · exact ⟨index, by simp, hj3.symm⟩
  · intro i hi
    have hi2 : i ∈ st.appendedSyncCommitteeIndices ++ [index] := hi
    rw [List.mem_append, List.mem_singleton] at hi2
    show ∃ m, List.lookup i ((index, msg) :: st.syncCommitteeIndicesSigMap) = some m ∧ _
    by_cases he : i = index
    · subst he
      exact ⟨msg, by simp [List.lookup_cons], hmsg, hroot, l, hl, hil⟩
    · have hne : (i == index) = false := by simpa using he
      rcases hi2 with hi2 | hi2
      · obtain ⟨m, hm1, hm2⟩ := h5 i hi2
        exact ⟨m, by rw [List.lookup_cons, hne]; exact hm1, hm2⟩
      · exact absurd hi2 he

/-- The inner loop keeps the invariant and the length of the bits. -/
theorem addIndices_inv (D : Deps) (sz slot subnetId : Nat) (blockRoot : Bytes)
    (src : List SyncCommitteeMessage) (msg : SyncCommitteeMessage) (l : List Nat)
    (hz : sz ≠ 0) (hmsg : msg ∈ src) (hroot : msg.BlockRoot = blockRoot)
    (hl : D.HeadSyncCommitteeIndices msg.ValidatorIndex slot = .ok l) :
    ∀ (idxs : List Nat) (st st1 : AggState), (∀ i ∈ idxs, i ∈ l) →
      sz ≤ st.bits.length → CollectInv D sz slot subnetId blockRoot src st →
      addIndices sz subnetId msg st idxs = .ok st1 →
      st1.bits.length = st.bits.length ∧ CollectInv D sz slot subnetId blockRoot src st1 := by
  intro idxs
  induction idxs with
  | nil =>
    intro st st1 _ _ hinv h
    simp only [addIndices, Except.ok.injEq] at h
    subst h
    exact ⟨rfl, hinv⟩
  | cons index rest ih =>
    intro st st1 hsub hlen hinv h
    have hrest : ∀ i ∈ rest, i ∈ l := fun i hi => hsub i (List.mem_cons_of_mem _ hi)
    by_cases hc : index / sz = subnetId ∧ ¬ BitAt st.bits (index % sz)
    · have hstep : addIndices sz subnetId msg st (index :: rest) =
          addIndices sz subnetId msg
            (AggState.mk (SetBitAt st.bits (index % sz) true)
              ((index, msg) :: st.syncCommitteeIndicesSigMap)
              (st.appendedSyncCommitteeIndices ++ [index])) rest := by
        simp only [addIndices, hz, if_false]
        rw [if_pos hc]
      rw [hstep] at h
      have hnext := CollectInv_step D sz slot subnetId blockRoot src msg st index l hlen hz
        hmsg hroot hl (hsub index (List.mem_cons_self _ _)) hc.1 hc.2 hinv
      obtain ⟨r1, r2⟩ := ih _ st1 hrest
        (by show sz ≤ (SetBitAt st.bits (index % sz) true).length
            rw [length_SetBitAt]; exact hlen) hnext h
      exact ⟨by rw [r1]; exact length_SetBitAt _ _ _, r2⟩
    · have hstep : addIndices sz subnetId msg st (index :: rest) =
          addIndices sz subnetId msg st rest := by
        simp only [addIndices, hz, if_false]
        rw [if_neg hc]
      rw [hstep] at h
      exact ih st st1 hrest hlen hinv h

/-- The first loop keeps the invariant and the length of the bits. -/
theorem collect_inv (D : Deps) (sz slot subnetId : Nat) (blockRoot : Bytes)
    (src : List SyncCommitteeMessage) (hz : sz ≠ 0) :
    ∀ (msgs : List SyncCommitteeMessage) (st st1 : AggState), (∀ m ∈ msgs, m ∈ src) →
      sz ≤ st.bits.length → CollectInv D sz slot subnetId blockRoot src st →
      collect D sz slot subnetId blockRoot st msgs = .ok st1 →
      st1.bits.length = st.bits.length ∧ CollectInv D sz slot subnetId blockRoot src st1 := by
  intro msgs
  induction msgs with
  | nil =>
    intro st st1 _ _ hinv h
    simp only [collect, Except.ok.injEq] at h
    subst h
    exact ⟨rfl, hinv⟩
  | cons msg rest ih =>
    intro st st1 hsrc hlen hinv h
    have hrest : ∀ m ∈ rest, m ∈ src := fun m hm => hsrc m (List.mem_cons_of_mem _ hm)
    by_cases hr : blockRoot = msg.BlockRoot
    · cases hh : D.HeadSyncCommitteeIndices msg.ValidatorIndex slot with
      | error e => simp [collect, hr, hh] at h
      | ok l =>
        cases ha : addIndices sz subnetId msg st l with
        | error e => simp [collect, hr, hh, ha] at h
        | ok st2 =>
          have hstep : collect D sz slot subnetId blockRoot st (msg :: rest) =
              collect D sz slot subnetId blockRoot st2 rest := by
            simp only [collect, hr, if_true, hh, ha]
          rw [hstep] at h
          obtain ⟨a1, a2⟩ := addIndices_inv D sz slot subnetId blockRoot src msg l hz
            (hsrc msg (List.mem_cons_self _ _)) hr.symm hh l st st2 (fun i hi => hi) hlen hinv ha
          obtain ⟨r1, r2⟩ := ih st2 st1 hrest (by rw [a1]; exact hlen) a2 h
          exact ⟨by rw [r1, a1], r2⟩
    · have hstep : collect D sz slot subnetId blockRoot st (msg :: rest) =
          collect D sz slot subnetId blockRoot st rest := by
        simp only [collect, hr, if_false]
      rw [hstep] at h
      exact ih st st1 hrest hlen hinv h

/-- The state the first loop starts from satisfies the invariant. -/
theorem CollectInv_init (D : Deps) (sz slot subnetId : Nat) (blockRoot : Bytes)
    (src : List SyncCommitteeMessage) (n : Nat) :
    CollectInv D sz slot subnetId blockRoot src (AggState.mk (List.replicate n false) [] []) := by
  refine ⟨List.nodup_nil, ?_, ?_, ?_, ?_⟩
  · show (List.replicate n false).count true = 0
    rw [List.count_replicate]
    rfl
  · intro i hi
    cases hi
  · intro j hj
    have hj2 : BitAt (List.replicate n false) j = true := hj
    have hf : BitAt (List.replicate n false) j = false := by
      unfold BitAt
      rw [List.getD_eq_getElem?_getD, List.getElem?_replicate]
      split <;> rfl
    rw [hf] at hj2
    cases hj2
  · intro i hi
    cases hi

/-- The second loop, when every index has an entry in the map: it returns the
signatures of the entries, index by index. -/
theorem gatherSigs_rel (sigMap : List (Nat × SyncCommitteeMessage)) :
    ∀ l : List Nat, (∀ i ∈ l, (sigMap.lookup i).isSome = true) →
      ∃ sigs, gatherSigs sigMap l = .ok sigs ∧
        List.Forall₂ (fun i s => ∃ m, sigMap.lookup i = some m ∧ m.Signature = s) l sigs := by
  intro l
  induction l with
  | nil => intro _; exact ⟨[], rfl, List.Forall₂.nil⟩
  | cons i rest ih =>
    intro h
    obtain ⟨sigs, hs, hf⟩ := ih (fun j hj => h j (List.mem_cons_of_mem _ hj))
    have hi := h i (List.mem_cons_self _ _)
    cases hm : sigMap.lookup i with
    | none => simp [hm] at hi
    | some msg =>
      exact ⟨msg.Signature :: sigs, by simp [gatherSigs, hm, hs],
        List.Forall₂.cons ⟨msg, hm, rfl⟩ hf⟩

/-- The function is its two loops and the sort, followed by `aggregate`. -/
theorem aggregated_factors (D : Deps) (msgs : List SyncCommitteeMessage)
    (slot subnetId : Nat) (blockRoot : Bytes) (st : AggState) (sigs : List Bytes)
    (hcount : D.SyncCommitteeSubnetCount ≠ 0)
    (hcol : collect D (D.SyncCommitteeSize / D.SyncCommitteeSubnetCount) slot subnetId
      blockRoot (AggState.mk (List.replicate D.bitsLen false) [] []) msgs = .ok st)
    (hg : gatherSigs st.syncCommitteeIndicesSigMap
      (st.appendedSyncCommitteeIndices.insertionSort (fun a b => a ≤ b)) = .ok sigs) :
    aggregatedSigAndAggregationBits D msgs slot subnetId blockRoot =
      aggregate D sigs st.bits := by
  unfold aggregatedSigAndAggregationBits aggregate
  simp only [hcount, if_false, hcol, hg]

/-- The appended indices are those of the subnet among the head indices of the
messages for the block root. -/
theorem appended_mem_iff (D : Deps) (msgs : List SyncCommitteeMessage)
    (sz slot subnetId n : Nat) (blockRoot : Bytes) (st : AggState)
    (hz : sz ≠ 0) (hroom : sz ≤ n)
    (hcol : collect D sz slot subnetId blockRoot (AggState.mk (List.replicate n false) [] [])
      msgs = .ok st) (i : Nat) :
    i ∈ st.appendedSyncCommitteeIndices ↔
      i / sz = subnetId ∧ ∃ m ∈ msgs, m.BlockRoot = blockRoot ∧
        ∃ l, D.HeadSyncCommitteeIndices m.ValidatorIndex slot = .ok l ∧ i ∈ l := by
  obtain ⟨-, -, -, h3, h4, h5⟩ := collect_inv D sz slot subnetId blockRoot msgs hz msgs _ st
    (fun m hm => hm) (by simpa using hroom) (CollectInv_init D sz slot subnetId blockRoot msgs n)
    hcol
  obtain ⟨-, hbits⟩ := collect_bits D sz slot subnetId blockRoot msgs _ st
    (by simpa using hroom) hcol
  constructor
  · intro hi
    obtain ⟨m, -, hm, hr, l, hl, hil⟩ := h5 i hi
    exact ⟨(h3 i hi).1, m, hm, hr, l, hl, hil⟩
  · rintro ⟨hsub, m, hm, hr, l, hl, hil⟩
    have hb : BitAt st.bits (i % sz) = true :=
      (hbits (i % sz)).2 (Or.inr ⟨m, hm, hr, l, hl, i, hil, hsub, rfl⟩)
    obtain ⟨k, hk, hkm⟩ := h4 _ hb
    have hkd := (h3 k hk).1
    have hki : k = i := by
      rw [← Nat.div_add_mod k sz, ← Nat.div_add_mod i sz, hkd, hsub, hkm]
    rw [← hki]
    exact hk

/-- A relation between two lists, element by element, may be strengthened with
the membership of the first element. -/
theorem forall2_imp_of_mem {α β : Type} {R S : α → β → Prop} :
    ∀ {l1 : List α} {l2 : List β}, List.Forall₂ R l1 l2 →
      (∀ a ∈ l1, ∀ b, R a b → S a b) → List.Forall₂ S l1 l2
  | _, _, .nil, _ => .nil
  | _, _, .cons h t, H =>
    .cons (H _ (List.mem_cons_self _ _) _ h)
      (forall2_imp_of_mem t (fun a ha b => H a (List.mem_cons_of_mem _ ha) b))

/-- The sorted indices: strictly ascending, as many as the set bits, and the
appended indices exactly. -/
theorem sorted_indices_spec (D : Deps) (msgs : List SyncCommitteeMessage)
    (sz slot subnetId n : Nat) (blockRoot : Bytes) (st : AggState)
    (hz : sz ≠ 0) (hroom : sz ≤ n)
    (hcol : collect D sz slot subnetId blockRoot (AggState.mk (List.replicate n false) [] [])
      msgs = .ok st) :
    (st.appendedSyncCommitteeIndices.insertionSort (fun a b => a ≤ b)).Sorted
      (fun a b => a < b) ∧
    (st.appendedSyncCommitteeIndices.insertionSort (fun a b => a ≤ b)).length =
      st.bits.count true ∧
    ∀ i, i ∈ st.appendedSyncCommitteeIndices.insertionSort (fun a b => a ≤ b) ↔
      i / sz = subnetId ∧ ∃ m ∈ msgs, m.BlockRoot = blockRoot ∧
        ∃ l, D.HeadSyncCommitteeIndices m.ValidatorIndex slot = .ok l ∧ i ∈ l := by
  obtain ⟨-, h1, h2, -⟩ := collect_inv D sz slot subnetId blockRoot msgs hz msgs _ st
    (fun m hm => hm) (by simpa using hroom) (CollectInv_init D sz slot subnetId blockRoot msgs n)
    hcol
  have hperm := List.perm_insertionSort (fun a b : Nat => a ≤ b)
    st.appendedSyncCommitteeIndices
  refine ⟨?_, ?_, ?_⟩
  · exact (List.sorted_insertionSort (fun a b : Nat => a ≤ b) _).lt_of_le
      (hperm.nodup_iff.2 h1)
  · rw [hperm.length_eq, h2]
  · intro i
    rw [hperm.mem_iff]
    exact appended_mem_iff D msgs sz slot subnetId n blockRoot st hz hroom hcol i

/-- C25. Whenever the first loop of `aggregatedSigAndAggregationBits` ends (no
head-index lookup failed), the second loop finds a message in the map for
every collected index, so it returns a list of signatures and never its
error, and the function goes on to aggregate that list. The list has one
signature per set aggregation bit; it follows the collected indices in
strictly ascending order; each signature is that of a message of the request
for the block root whose committee index sets the bit; and the indices are
those of the subnet among the head indices of the messages for the block root,
so they are the same for the messages in any other order. -/
theorem signatures_for_aggregation (D : Deps) (msgs : List SyncCommitteeMessage)
    (slot subnetId : Nat) (blockRoot : Bytes) (st : AggState)
    (hcount : D.SyncCommitteeSubnetCount ≠ 0)
    (hsize : D.SyncCommitteeSize / D.SyncCommitteeSubnetCount ≠ 0)
    (hroom : D.SyncCommitteeSize / D.SyncCommitteeSubnetCount ≤ D.bitsLen)
    (hcol : collect D (D.SyncCommitteeSize / D.SyncCommitteeSubnetCount) slot subnetId
      blockRoot (AggState.mk (List.replicate D.bitsLen false) [] []) msgs = .ok st) :
    ∃ sigs,
      gatherSigs st.syncCommitteeIndicesSigMap
        (st.appendedSyncCommitteeIndices.insertionSort (fun a b => a ≤ b)) = .ok sigs ∧
      aggregatedSigAndAggregationBits D msgs slot subnetId blockRoot =
        aggregate D sigs st.bits ∧
      sigs.length = st.bits.count true ∧
      (st.appendedSyncCommitteeIndices.insertionSort (fun a b => a ≤ b)).Sorted
        (fun a b => a < b) ∧
      List.Forall₂
        (fun i s =>
          BitAt st.bits (i % (D.SyncCommitteeSize / D.SyncCommitteeSubnetCount)) = true ∧
          ∃ m ∈ msgs, m.BlockRoot = blockRoot ∧ m.Signature = s ∧
            ∃ l, D.HeadSyncCommitteeIndices m.ValidatorIndex slot = .ok l ∧ i ∈ l)
        (st.appendedSyncCommitteeIndices.insertionSort (fun a b => a ≤ b)) sigs ∧
      (∀ i, i ∈ st.appendedSyncCommitteeIndices.insertionSort (fun a b => a ≤ b) ↔
        i / (D.SyncCommitteeSize / D.SyncCommitteeSubnetCount) = subnetId ∧
          ∃ m ∈ msgs, m.BlockRoot = blockRoot ∧
            ∃ l, D.HeadSyncCommitteeIndices m.ValidatorIndex slot = .ok l ∧ i ∈ l) ∧
      (∀ msgs2 st2, msgs2.Perm msgs →
        collect D (D.SyncCommitteeSize / D.SyncCommitteeSubnetCount) slot subnetId
          blockRoot (AggState.mk (List.replicate D.bitsLen false) [] []) msgs2 = .ok st2 →
        st2.appendedSyncCommitteeIndices.insertionSort (fun a b => a ≤ b) =
          st.appendedSyncCommitteeIndices.insertionSort (fun a b => a ≤ b)) := by
  obtain ⟨-, -, -, h3, -, h5⟩ := collect_inv D _ slot subnetId blockRoot msgs hsize msgs _ st
    (fun m hm => hm) (by simpa using hroom)
    (CollectInv_init D _ slot subnetId blockRoot msgs D.bitsLen) hcol
  obtain ⟨hsorted, hlen, hmem⟩ :=
    sorted_indices_spec D msgs _ slot subnetId D.bitsLen blockRoot st hsize hroom hcol
  have hperm := List.perm_insertionSort (fun a b : Nat => a ≤ b)
    st.appendedSyncCommitteeIndices
  have hlook : ∀ i ∈ st.appendedSyncCommitteeIndices.insertionSort (fun a b => a ≤ b),
      (st.syncCommitteeIndicesSigMap.lookup i).isSome = true := by
    intro i hi
    obtain ⟨m, hm, -⟩ := h5 i (hperm.mem_iff.1 hi)
    rw [hm]
    rfl
  obtain ⟨sigs, hg, hrel⟩ := gatherSigs_rel st.syncCommitteeIndicesSigMap _ hlook
  refine ⟨sigs, hg, aggregated_factors D msgs slot subnetId blockRoot st sigs hcount hcol hg,
    ?_, hsorted, ?_, hmem, ?_⟩
  · rw [← hrel.length_eq, hlen]
  · refine forall2_imp_of_mem hrel ?_
    intro i hi s hhead
    obtain ⟨m, hm, hs⟩ := hhead
    have hia := hperm.mem_iff.1 hi
    obtain ⟨m2, hm2, hsrc, hroot, l, hl, hil⟩ := h5 i hia
    have hmm : m2 = m := by
      rw [hm] at hm2
      exact (Option.some.inj hm2).symm
    subst hmm
    exact ⟨(h3 i hia).2, m2, hsrc, hroot, hs, l, hl, hil⟩
  · intro msgs2 st2 hp hcol2
    obtain ⟨hsorted2, -, hmem2⟩ :=
      sorted_indices_spec D msgs2 _ slot subnetId D.bitsLen blockRoot st2 hsize hroom hcol2
    apply List.eq_of_perm_of_sorted _ hsorted2 hsorted
    apply (List.perm_ext_iff_of_nodup hsorted2.nodup hsorted.nodup).2
    intro i
    rw [hmem2 i, hmem i]
    constructor
    · rintro ⟨a, m, hm, b⟩
      exact ⟨a, m, hp.mem_iff.1 hm, b⟩
    · rintro ⟨a, m, hm, b⟩
      exact ⟨a, m, hp.mem_iff.2 hm, b⟩

/-- C25 on the toy configuration: the first loop ends in `toyCollected`, and
the second loop returns a list of signatures, as many as the set bits, over
strictly ascending indices. -/
theorem signatures_for_aggregation_witness :
    (toyDeps.SyncCommitteeSubnetCount ≠ 0 ∧
      toyDeps.SyncCommitteeSize / toyDeps.SyncCommitteeSubnetCount ≠ 0 ∧
      toyDeps.SyncCommitteeSize / toyDeps.SyncCommitteeSubnetCount ≤ toyDeps.bitsLen ∧
      collect toyDeps (toyDeps.SyncCommitteeSize / toyDeps.SyncCommitteeSubnetCount) 1 0 [7]
        (AggState.mk (List.replicate toyDeps.bitsLen false) [] []) toyMsgs =
          .ok toyCollected) ∧
    ∃ sigs,
      gatherSigs toyCollected.syncCommitteeIndicesSigMap
        (toyCollected.appendedSyncCommitteeIndices.insertionSort (fun a b => a ≤ b)) =
          .ok sigs ∧
      sigs.length = toyCollected.bits.count true ∧
      (toyCollected.appendedSyncCommitteeIndices.insertionSort (fun a b => a ≤ b)).Sorted
        (fun a b => a < b) :=
  ⟨⟨by decide, by decide, by decide, rfl⟩,
   (signatures_for_aggregation toyDeps toyMsgs 1 0 [7] toyCollected
      (by decide) (by decide) (by decide) rfl).imp
     (fun _ h => ⟨h.1, h.2.2.1, h.2.2.2.1⟩)⟩

/-- The signatures gathered on the toy configuration are those of validators 1
and 2, in the order of the indices 1 and 2, for the messages in either order. -/
theorem gatherSigs_examples :
    gatherSigs toyCollected.syncCommitteeIndicesSigMap
        (toyCollected.appendedSyncCommitteeIndices.insertionSort (fun a b => a ≤ b)) =
      .ok [[10], [20]] ∧
    toyCollected.appendedSyncCommitteeIndices.insertionSort (fun a b => a ≤ b) = [1, 2] ∧
    (collect toyDeps 4 1 0 [7] (AggState.mk (List.replicate 4 false) [] [])
        toyMsgsSwapped).toOption.map
      (fun st => (st.appendedSyncCommitteeIndices,
        st.appendedSyncCommitteeIndices.insertionSort (fun a b => a ≤ b))) =
      some ([1, 2], [1, 2]) ∧
    aggregatedSigAndAggregationBits toyDeps toyMsgsSwapped 1 0 [7] =
      .ok ([10, 20], [false, true, true, false]) :=
  ⟨rfl, rfl, rfl, rfl⟩

end validator

/-! ## Theorems: waiting for the chain start -/

namespace beacon_api

/-- A query fails without a 404: it has an error and no HTTP error, or an HTTP
error with another code. -/
theorem queryLoop_fails (E : GenesisEnv) (fuel k : Nat) (err : String)
    (herr : (E.GetGenesis k).err = some err)
    (hhttp : ∀ he, (E.GetGenesis k).httpError = some he → he.Code ≠ StatusNotFound) :
    queryLoop E fuel k = some (.failed (Wrap err "failed to get genesis data"), k + 1) := by
  cases hh : (E.GetGenesis k).httpError with
  | none =>
    cases fuel <;> simp only [queryLoop, herr, hh]
  | some he =>
    have hne := hhttp he hh
    cases fuel <;> simp only [queryLoop, herr, hh, hne, ne_eq, not_false_eq_true, if_true]

/-- After `n` queries answered with a 404, each followed by a wait the timer
ends, the loop is at query `k + n` with `n` waits less to go. -/
theorem queryLoop_retry (E : GenesisEnv) (fuel : Nat) :
    ∀ (n k : Nat),
      (∀ j, j < n → (∃ e, (E.GetGenesis (k + j)).err = some e) ∧
        (∃ he, (E.GetGenesis (k + j)).httpError = some he ∧ he.Code = StatusNotFound) ∧
        E.timerFirst (k + j) = true) →
      queryLoop E (fuel + n) k = queryLoop E fuel (k + n) := by
  intro n
  induction n with
  | zero => intro k _; rfl
  | succ n ih =>
    intro k h
    obtain ⟨⟨e, he⟩, ⟨hj, hh, hc⟩, ht⟩ := h 0 (Nat.succ_pos n)
    simp only [Nat.add_zero] at he hh ht
    have hstep : queryLoop E (fuel + (n + 1)) k = queryLoop E (fuel + n) (k + 1) := by
      show queryLoop E ((fuel + n) + 1) k = _
      simp only [queryLoop, he, hh, hc, ne_eq, not_true_eq_false, if_false, ht, if_true]
    rw [hstep, ih (k + 1)]
    · rw [Nat.add_assoc, Nat.add_comm 1 n]
    · intro j hjn
      have := h (j + 1) (by omega)
      rw [show k + (j + 1) = k + 1 + j by omega] at this
      exact this

/-- C22. Let the first `n` queries of the genesis fail with an HTTP 404, each
followed by a wait that the timer ends, and let query number `n` (from 0) fail
with no HTTP error or with an HTTP error whose code is not 404. Then, given at
least `n` waits, `waitForChainStart` returns no response and the error
"failed to get genesis data: " followed by the error of that query, after
exactly `n + 1` queries: the 404 answers were retried, the last failure is not. -/
theorem waitForChainStart_no_retry (E : GenesisEnv) (n fuel : Nat) (err : String)
    (hretry : ∀ j, j < n → (∃ e, (E.GetGenesis j).err = some e) ∧
      (∃ he, (E.GetGenesis j).httpError = some he ∧ he.Code = StatusNotFound) ∧
      E.timerFirst j = true)
    (herr : (E.GetGenesis n).err = some err)
    (hhttp : ∀ he, (E.GetGenesis n).httpError = some he → he.Code ≠ StatusNotFound)
    (hfuel : n ≤ fuel) :
    waitForChainStart E fuel =
      some (.ok (none, some ("failed to get genesis data: " ++ err)), n + 1) := by
  obtain ⟨d, rfl⟩ := Nat.exists_eq_add_of_le hfuel
  have h1 : queryLoop E (d + n) 0 = queryLoop E d (0 + n) :=
    queryLoop_retry E d n 0 (fun j hj => by
      have := hretry j hj
      rw [Nat.zero_add]
      exact this)
  rw [Nat.zero_add] at h1
  have h2 := queryLoop_fails E d n err herr hhttp
  unfold waitForChainStart
  rw [Nat.add_comm n d, h1, h2]
  rfl

/-- C22 on the example environment: two 404 answers are retried, the answer
500 to the third query is returned at once, after three queries. -/
theorem waitForChainStart_no_retry_witness :
    ((∀ j, j < 2 → (∃ e, (toyGenesisEnv.GetGenesis j).err = some e) ∧
        (∃ he, (toyGenesisEnv.GetGenesis j).httpError = some he ∧
          he.Code = StatusNotFound) ∧
        toyGenesisEnv.timerFirst j = true) ∧
      (toyGenesisEnv.GetGenesis 2).err = some "failed to get json response" ∧
      (∀ he, (toyGenesisEnv.GetGenesis 2).httpError = some he → he.Code ≠ StatusNotFound) ∧
      2 ≤ 5) ∧
    waitForChainStart toyGenesisEnv 5 =
      some (.ok (none, some ("failed to get genesis data: " ++
        "failed to get json response")), 2 + 1) :=
  have hr : ∀ j, j < 2 → (∃ e, (toyGenesisEnv.GetGenesis j).err = some e) ∧
      (∃ he, (toyGenesisEnv.GetGenesis j).httpError = some he ∧
        he.Code = StatusNotFound) ∧
      toyGenesisEnv.timerFirst j = true := fun j hj => by
    have hj2 : j = 0 ∨ j = 1 := by omega
    rcases hj2 with rfl | rfl
    · exact ⟨⟨_, rfl⟩, ⟨_, rfl, rfl⟩, rfl⟩
    · exact ⟨⟨_, rfl⟩, ⟨_, rfl, rfl⟩, rfl⟩
  have hh : ∀ he, (toyGenesisEnv.GetGenesis 2).httpError = some he →
      he.Code ≠ StatusNotFound := fun he h => by
    have h2 : he = { Message := "internal", Code := 500 } := (Option.some.inj h).symm
    rw [h2]
    decide
  ⟨⟨hr, rfl, hh, by decide⟩,
   waitForChainStart_no_retry toyGenesisEnv 2 5 "failed to get json response" hr rfl hh
     (by decide)⟩

/-- The loop on examples: a first answer without HTTP error is returned after
one query; a cancelled context ends the wait after a 404. -/
theorem waitForChainStart_examples :
    waitForChainStart
        { toyGenesisEnv with GetGenesis := fun _ =>
            { genesis := none, httpError := none, err := some "connection refused" } } 3 =
      some (.ok (none, some "failed to get genesis data: connection refused"), 1) ∧
    waitForChainStart { toyGenesisEnv with timerFirst := fun _ => false } 3 =
      some (.ok (none, some "context canceled"), 1) ∧
    waitForChainStart toyGenesisEnv 1 = none :=
  ⟨rfl, rfl, rfl⟩

end beacon_api

/-! ## Theorems: block broadcast validation and sync committee signatures -/

namespace beacon

/-- The error of `validateConsensus`: there is one exactly when the parent
state is not found, or it is found and the state transition on it fails. -/
theorem validateConsensus_err {G B S : Type} (bs : Server G B S) (b : B) :
    (validateConsensus bs b).1 ≠ none ↔
      ((∃ e, bs.State (bs.ParentRoot b) = .error e) ∨
        ∃ parent e, bs.State (bs.ParentRoot b) = .ok parent ∧
          bs.ExecuteStateTransition parent b = .error e) := by
  unfold validateConsensus
  cases hs : bs.State (bs.ParentRoot b) with
  | error e => simp [hs]
  | ok parent =>
    cases ht : bs.ExecuteStateTransition parent b with
    | error e => simp [hs, ht]
    | ok post => simp [hs, ht]

/-- The error of `validateEquivocation`: there is one exactly when fork choice
has the slot of the block as its highest received slot. -/
theorem validateEquivocation_err {G B S : Type} (bs : Server G B S) (b : B) :
    (validateEquivocation bs b).1 ≠ none ↔ bs.HighestReceivedBlockSlot = bs.Slot b := by
  unfold validateEquivocation
  by_cases h : bs.HighestReceivedBlockSlot = bs.Slot b
  · simp [h]
  · simp [h]

/-- With the parameter "consensus": an error exactly when the block does not
wrap or the consensus validation of the wrapped block has an error. -/
theorem validateBroadcast_consensus {G B S : Type} (bs : Server G B S) (query : Values)
    (blk : G) (hq : query.Get broadcastValidationQueryParam = broadcastValidationConsensus) :
    (validateBroadcast bs query blk).1 ≠ none ↔
      ((∃ e, bs.NewSignedBeaconBlock blk = .error e) ∨
        ∃ b, bs.NewSignedBeaconBlock blk = .ok b ∧ (validateConsensus bs b).1 ≠ none) := by
  unfold validateBroadcast
  simp only [hq, if_true]
  cases hw : bs.NewSignedBeaconBlock blk with
  | error e => simp [hw]
  | ok b =>
    cases hc : validateConsensus bs b with
    | mk e calls =>
      cases e with
      | none => simp [hw, hc]
      | some err => simp [hw, hc]

/-- With the parameter "consensus_and_equivocation": an error exactly when the
block does not wrap, or the consensus validation or the equivocation check of
the wrapped block has an error. -/
theorem validateBroadcast_equivocation {G B S : Type} (bs : Server G B S) (query : Values)
    (blk : G)
    (hq : query.Get broadcastValidationQueryParam =
      broadcastValidationConsensusAndEquivocation) :
    (validateBroadcast bs query blk).1 ≠ none ↔
      ((∃ e, bs.NewSignedBeaconBlock blk = .error e) ∨
        ∃ b, bs.NewSignedBeaconBlock blk = .ok b ∧
          ((validateConsensus bs b).1 ≠ none ∨ (validateEquivocation bs b).1 ≠ none)) := by
  have hne : ¬ broadcastValidationConsensusAndEquivocation = broadcastValidationConsensus := by
    decide
  unfold validateBroadcast
  simp only [hq, hne, if_true, if_false]
  cases hw : bs.NewSignedBeaconBlock blk with
  | error e => simp [hw]
  | ok b =>
    cases hc : validateConsensus bs b with
    | mk e calls =>
      cases e with
      | some err => simp [hw, hc]
      | none =>
        cases he : validateEquivocation bs b with
        | mk e2 calls2 =>
          cases e2 with
          | none => simp [hw, hc, he]
          | some err2 => simp [hw, hc, he]

/-- With the parameter "consensus" fork choice is not asked for its highest
received slot. -/
theorem validateBroadcast_consensus_calls {G B S : Type} (bs : Server G B S)
    (query : Values) (blk : G)
    (hq : query.Get broadcastValidationQueryParam = broadcastValidationConsensus) :
    Call.HighestReceivedBlockSlot ∉ (validateBroadcast bs query blk).2 := by
  unfold validateBroadcast
  simp only [hq, if_true]
  cases hw : bs.NewSignedBeaconBlock blk with
  | error e => simp [hw]
  | ok b =>
    have hcalls : Call.HighestReceivedBlockSlot ∉ (validateConsensus bs b).2 := by
      unfold validateConsensus
      cases hs : bs.State (bs.ParentRoot b) with
      | error e => simp [hs]
      | ok parent =>
        cases ht : bs.ExecuteStateTransition parent b with
        | error e => simp [hs, ht]
        | ok post => simp [hs, ht]
    cases hc : validateConsensus bs b with
    | mk e calls =>
      rw [hc] at hcalls
      cases e with
      | none => simpa [hw, hc] using hcalls
      | some err => simpa [hw, hc] using hcalls

/-- C21 as stated fails: on `noParentServer`, with the parameter "consensus",
`validateBroadcast` returns an error for the block of slot 7 because the
parent state is not found, although the block wraps and no state transition
fails (none is run). -/
theorem validateBroadcast_parent_state_error :
    validateBroadcast noParentServer [("broadcast_validation", ["consensus"])] 7 =
      (some "consensus validation failed: could not get parent state: state not found",
        [.NewSignedBeaconBlock, .State]) ∧
    (¬ ∃ e, noParentServer.NewSignedBeaconBlock 7 = .error e) ∧
    (¬ ∃ s b e, noParentServer.ExecuteStateTransition s b = .error e) := by
  refine ⟨rfl, ?_, ?_⟩
  · rintro ⟨e, he⟩
    cases he
  · rintro ⟨s, b, e, he⟩
    cases he

/-- C21, amended. The value of the query parameter `broadcast_validation`
decides what `validateBroadcast` checks. When the parameter is absent, or its
value is neither "consensus" nor "consensus_and_equivocation", the result is
nil and no call is made. With "consensus" there is an error exactly when the
block does not wrap, the parent state is not found, or the state transition
on the parent state fails, and fork choice is not asked. With
"consensus_and_equivocation" there is an error exactly when one of these
holds or the highest received block slot of fork choice equals the slot of
the block. -/
theorem validateBroadcast_by_param {G B S : Type} (bs : Server G B S) (query : Values)
    (blk : G) :
    (query.lookup broadcastValidationQueryParam = none →
      validateBroadcast bs query blk = (none, [])) ∧
    (query.Get broadcastValidationQueryParam ≠ broadcastValidationConsensus →
      query.Get broadcastValidationQueryParam ≠ broadcastValidationConsensusAndEquivocation →
      validateBroadcast bs query blk = (none, [])) ∧
    (query.Get broadcastValidationQueryParam = broadcastValidationConsensus →
      ((validateBroadcast bs query blk).1 ≠ none ↔
        ((∃ e, bs.NewSignedBeaconBlock blk = .error e) ∨
          ∃ b, bs.NewSignedBeaconBlock blk = .ok b ∧
            ((∃ e, bs.State (bs.ParentRoot b) = .error e) ∨
              ∃ parent e, bs.State (bs.ParentRoot b) = .ok parent ∧
                bs.ExecuteStateTransition parent b = .error e))) ∧
      Call.HighestReceivedBlockSlot ∉ (validateBroadcast bs query blk).2) ∧
    (query.Get broadcastValidationQueryParam = broadcastValidationConsensusAndEquivocation →
      ((validateBroadcast bs query blk).1 ≠ none ↔
        ((∃ e, bs.NewSignedBeaconBlock blk = .error e) ∨
          ∃ b, bs.NewSignedBeaconBlock blk = .ok b ∧
            (((∃ e, bs.State (bs.ParentRoot b) = .error e) ∨
                ∃ parent e, bs.State (bs.ParentRoot b) = .ok parent ∧
                  bs.ExecuteStateTransition parent b = .error e) ∨
              bs.HighestReceivedBlockSlot = bs.Slot b)))) := by
  have hother : query.Get broadcastValidationQueryParam ≠ broadcastValidationConsensus →
      query.Get broadcastValidationQueryParam ≠ broadcastValidationConsensusAndEquivocation →
      validateBroadcast bs query blk = (none, []) := by
    intro h1 h2
    unfold validateBroadcast
    simp only [h1, h2, if_false]
  refine ⟨?_, hother, ?_, ?_⟩
  · intro habs
    have hget : query.Get broadcastValidationQueryParam = "" := by
      unfold Values.Get
      rw [habs]
    exact hother (by rw [hget]; decide) (by rw [hget]; decide)
  · intro hq
    refine ⟨?_, validateBroadcast_consensus_calls bs query blk hq⟩
    rw [validateBroadcast_consensus bs query blk hq]
    constructor
    · rintro (h | ⟨b, hb, hc⟩)
      · exact Or.inl h
      · exact Or.inr ⟨b, hb, (validateConsensus_err bs b).1 hc⟩
    · rintro (h | ⟨b, hb, hc⟩)
      · exact Or.inl h
      · exact Or.inr ⟨b, hb, (validateConsensus_err bs b).2 hc⟩
  · intro hq
    rw [validateBroadcast_equivocation bs query blk hq]
    constructor
    · rintro (h | ⟨b, hb, hc | he⟩)
      · exact Or.inl h
      · exact Or.inr ⟨b, hb, Or.inl ((validateConsensus_err bs b).1 hc)⟩
      · exact Or.inr ⟨b, hb, Or.inr ((validateEquivocation_err bs b).1 he)⟩
    · rintro (h | ⟨b, hb, hc | he⟩)
      · exact Or.inl h
      · exact Or.inr ⟨b, hb, Or.inl ((validateConsensus_err bs b).2 hc)⟩
      · exact Or.inr ⟨b, hb, Or.inr ((validateEquivocation_err bs b).2 he)⟩

/-- C21, amended, on the example servers and the block of slot 7: without the
parameter and with the value "gossip" nothing is checked; with "consensus"
the missing parent state of `noParentServer` is an error; with
"consensus_and_equivocation" the slot fork choice has seen on `toyServer` is
an error. -/
theorem validateBroadcast_by_param_witness :
    (([] : Values).lookup broadcastValidationQueryParam = none ∧
      Values.Get [("broadcast_validation", ["gossip"])] broadcastValidationQueryParam ≠
        broadcastValidationConsensus ∧
      Values.Get [("broadcast_validation", ["gossip"])] broadcastValidationQueryParam ≠
        broadcastValidationConsensusAndEquivocation ∧
      Values.Get [("broadcast_validation", ["consensus"])] broadcastValidationQueryParam =
        broadcastValidationConsensus ∧
      Values.Get [("broadcast_validation", ["consensus_and_equivocation"])]
        broadcastValidationQueryParam = broadcastValidationConsensusAndEquivocation) ∧
    validateBroadcast toyServer [] 7 = (none, []) ∧
    validateBroadcast toyServer [("broadcast_validation", ["gossip"])] 7 = (none, []) ∧
    (validateBroadcast noParentServer [("broadcast_validation", ["consensus"])] 7).1 ≠ none ∧
    (validateBroadcast toyServer [("broadcast_validation", ["consensus_and_equivocation"])]
      7).1 ≠ none :=
  ⟨⟨rfl, by decide, by decide, rfl, rfl⟩,
   (validateBroadcast_by_param toyServer [] 7).1 rfl,
   (validateBroadcast_by_param toyServer [("broadcast_validation", ["gossip"])] 7).2.1
     (by decide) (by decide),
   ((validateBroadcast_by_param noParentServer
      [("broadcast_validation", ["consensus"])] 7).2.2.1 rfl).1.2
     (Or.inr ⟨7, rfl, Or.inl ⟨"state not found", rfl⟩⟩),
   ((validateBroadcast_by_param toyServer
      [("broadcast_validation", ["consensus_and_equivocation"])] 7).2.2.2 rfl).2
     (Or.inr ⟨7, rfl, Or.inr rfl⟩)⟩

/-- The results of `validateBroadcast` on the example server, with the calls
made: a block at the state's slot fails the transition; the block of slot 7
passes "consensus" and is an equivocation. -/
theorem validateBroadcast_examples :
    validateBroadcast toyServer [("broadcast_validation", ["consensus"])] 5 =
      (some ("consensus validation failed: could not execute state transition: " ++
          "block slot not after state slot"),
        [.NewSignedBeaconBlock, .State, .ExecuteStateTransition]) ∧
    validateBroadcast toyServer [("broadcast_validation", ["consensus"])] 7 =
      (none, [.NewSignedBeaconBlock, .State, .ExecuteStateTransition]) ∧
    validateBroadcast toyServer [("broadcast_validation", ["consensus_and_equivocation"])] 7 =
      (some ("equivocation validation failed: " ++
          "block for slot 7 already exists in fork choice"),
        [.NewSignedBeaconBlock, .State, .ExecuteStateTransition,
          .HighestReceivedBlockSlot]) ∧
    validateBroadcast
        { toyServer with State := fun _ => .error "unknown parent" }
        [("broadcast_validation", ["consensus"])] 7 =
      (some ("consensus validation failed: could not get parent state: unknown parent"),
        [.NewSignedBeaconBlock, .State]) :=
  ⟨rfl, rfl, by decide, rfl⟩

/-- A message is refused by `validateSyncCommitteeMessage` exactly when its
block root is not 32 bytes long or its signature is not 96 bytes long. -/
theorem validateSyncCommitteeMessage_isSome (msg : SyncCommitteeMessage) :
    (validateSyncCommitteeMessage msg).isSome = true ↔
      (msg.BeaconBlockRoot.length ≠ 32 ∨ msg.Signature.length ≠ 96) := by
  unfold validateSyncCommitteeMessage
  by_cases h1 : msg.BeaconBlockRoot.length = 32
  · by_cases h2 : msg.Signature.length = 96
    · simp [h1, h2]
    · simp [h1, h2]
  · simp [h1]

/-- The first loop in closed form: the valid messages are appended, converted,
in the order of the request, and the failures with their positions. -/
theorem validateLoop_eq :
    ∀ (msgs : List SyncCommitteeMessage) (i : Nat)
      (valid : List validator.SyncCommitteeMessage)
      (fails : List SingleIndexedVerificationFailure),
      validateLoop i msgs (valid, fails) =
        (valid ++ (msgs.filter (fun m => (validateSyncCommitteeMessage m).isNone)).map
            v1alpha1Msg,
         fails ++ (msgs.enumFrom i).filterMap (fun p =>
            (validateSyncCommitteeMessage p.2).map
              (fun e => SingleIndexedVerificationFailure.mk p.1 e))) := by
  intro msgs
  induction msgs with
  | nil => intro i valid fails; simp [validateLoop]
  | cons msg rest ih =>
    intro i valid fails
    cases hv : validateSyncCommitteeMessage msg with
    | none =>
      simp only [validateLoop, hv, ih, List.enumFrom_cons, List.filterMap_cons, Option.map_none']
      simp [List.filter_cons, hv]
    | some e =>
      simp only [validateLoop, hv, ih, List.enumFrom_cons, List.filterMap_cons, Option.map_some']
      simp [List.filter_cons, hv]

/-- The positions of the failures are the positions of the refused messages. -/
theorem failures_index (L : List (Nat × SyncCommitteeMessage)) :
    (L.filterMap (fun p => (validateSyncCommitteeMessage p.2).map
        (fun e => SingleIndexedVerificationFailure.mk p.1 e))).map
      SingleIndexedVerificationFailure.Index =
    (L.filter (fun p => (validateSyncCommitteeMessage p.2).isSome)).map Prod.fst := by
  induction L with
  | nil => rfl
  | cons p rest ih =>
    cases hv : validateSyncCommitteeMessage p.2 with
    | none => simp [List.filterMap_cons, List.filter_cons, hv, ih]
    | some e => simp [List.filterMap_cons, List.filter_cons, hv, ih]

/-- The second loop submits a prefix of the messages. -/
theorem submitLoop_prefix (S : validator.SyncCommitteeMessage → Option String) :
    ∀ l : List validator.SyncCommitteeMessage, (submitLoop S l).2 <+: l := by
  intro l
  induction l with
  | nil => exact List.prefix_refl _
  | cons m rest ih =>
    cases hs : S m with
    | none =>
      simp only [submitLoop, hs]
      exact (List.prefix_cons_inj m).2 ih
    | some e =>
      simp only [submitLoop, hs]
      exact ⟨rest, rfl⟩

/-- When no submission fails, the second loop submits every message. -/
theorem submitLoop_all (S : validator.SyncCommitteeMessage → Option String) :
    ∀ l : List validator.SyncCommitteeMessage, (∀ m ∈ l, S m = none) →
      submitLoop S l = (none, l) := by
  intro l
  induction l with
  | nil => intro _; rfl
  | cons m rest ih =>
    intro h
    have hm := h m (List.mem_cons_self _ _)
    have hr := ih (fun x hx => h x (List.mem_cons_of_mem _ hx))
    simp only [submitLoop, hm, hr]

/-- When a submission fails, the second loop stops at the first one that does:
the messages before it and that message are submitted, those after it are not. -/
theorem submitLoop_stop (S : validator.SyncCommitteeMessage → Option String) :
    ∀ l : List validator.SyncCommitteeMessage, (∃ m ∈ l, S m ≠ none) →
      ∃ pre m post e, l = pre ++ m :: post ∧ (∀ x ∈ pre, S x = none) ∧ S m = some e ∧
        submitLoop S l = (some e, pre ++ [m]) := by
  intro l
  induction l with
  | nil => rintro ⟨m, hm, -⟩; cases hm
  | cons a rest ih =>
    intro h
    cases hs : S a with
    | some e =>
      refine ⟨[], a, rest, e, rfl, ?_, hs, ?_⟩
      · intro x hx
        cases hx
      · simp only [submitLoop, hs]
        rfl
    | none =>
      have hrest : ∃ m ∈ rest, S m ≠ none := by
        obtain ⟨m, hm, hne⟩ := h
        rcases List.mem_cons.1 hm with rfl | hm
        · exact absurd hs hne
        · exact ⟨m, hm, hne⟩
      obtain ⟨pre, m, post, e, hl, hpre, hm, hsub⟩ := ih hrest
      refine ⟨a :: pre, m, post, e, by rw [hl]; rfl, ?_, hm, ?_⟩
      · intro x hx
        rcases List.mem_cons.1 hx with rfl | hx
        · exact hs
        · exact hpre x hx
      · simp only [submitLoop, hs, hsub]
        rfl

/-- A message passes `validateSyncCommitteeMessage` exactly when its block root
is 32 bytes long and its signature 96 bytes long. -/
theorem validateSyncCommitteeMessage_isNone (msg : SyncCommitteeMessage) :
    (validateSyncCommitteeMessage msg).isNone =
      decide (msg.BeaconBlockRoot.length = 32 ∧ msg.Signature.length = 96) := by
  unfold validateSyncCommitteeMessage
  by_cases h1 : msg.BeaconBlockRoot.length = 32
  · by_cases h2 : msg.Signature.length = 96
    · simp [h1, h2]
    · simp [h1, h2]
  · simp [h1]

/-- The first loop puts every message either among the valid messages or among
the failures. -/
theorem validateLoop_length :
    ∀ (msgs : List SyncCommitteeMessage) (i : Nat)
      (valid : List validator.SyncCommitteeMessage)
      (fails : List SingleIndexedVerificationFailure),
      (validateLoop i msgs (valid, fails)).1.length +
          (validateLoop i msgs (valid, fails)).2.length =
        valid.length + fails.length + msgs.length := by
  intro msgs
  induction msgs with
  | nil => intro i valid fails; simp [validateLoop]
  | cons msg rest ih =>
    intro i valid fails
    cases hv : validateSyncCommitteeMessage msg with
    | none =>
      simp only [validateLoop, hv, ih, List.length_append, List.length_cons, List.length_nil]
      omega
    | some e =>
      simp only [validateLoop, hv, ih, List.length_append, List.length_cons, List.length_nil]
      omega

/-- The fields of the result of `SubmitPoolSyncCommitteeSignatures` in terms of
its two loops. -/
theorem SubmitPool_fields (S : validator.SyncCommitteeMessage → Option String)
    (A : List SingleIndexedVerificationFailure → Option String)
    (Data : List SyncCommitteeMessage) :
    (SubmitPoolSyncCommitteeSignatures S A Data).msgFailures =
        (validateLoop 0 Data ([], [])).2 ∧
    (SubmitPoolSyncCommitteeSignatures S A Data).submitted =
        (submitLoop S (validateLoop 0 Data ([], [])).1).2 ∧
    (∀ e, (submitLoop S (validateLoop 0 Data ([], [])).1).1 = some e →
      (SubmitPoolSyncCommitteeSignatures S A Data).response = false ∧
      (SubmitPoolSyncCommitteeSignatures S A Data).err =
        some ("Internal", "Could not submit message: " ++ e) ∧
      (SubmitPoolSyncCommitteeSignatures S A Data).header = none) := by
  unfold SubmitPoolSyncCommitteeSignatures
  cases hv : validateLoop 0 Data ([], []) with
  | mk valid fails =>
    cases hs : submitLoop S valid with
    | mk err submitted =>
      cases err with
      | some e => simp [hs]
      | none =>
        by_cases hf : fails.length > 0
        · cases ha : A fails with
          | none => simp [hs, hf, ha]
          | some e3 => simp [hs, hf, ha]
        · simp [hs, hf]

/-- C24 as stated fails: in the request `toyRequest` the second valid message
is not submitted, because the submission of the first one fails and the call
returns at once; one message is submitted and one failure recorded, for three
messages in the request. -/
theorem SubmitPool_stops_at_failed_submission :
    (SubmitPoolSyncCommitteeSignatures toySubmit (fun _ => none) toyRequest).msgFailures =
      [{ Index := 1, Message := "invalid block root length" }] ∧
    (SubmitPoolSyncCommitteeSignatures toySubmit (fun _ => none) toyRequest).submitted =
      [v1alpha1Msg (goodMsg 1)] ∧
    v1alpha1Msg (goodMsg 2) ∉
      (SubmitPoolSyncCommitteeSignatures toySubmit (fun _ => none) toyRequest).submitted ∧
    (SubmitPoolSyncCommitteeSignatures toySubmit (fun _ => none) toyRequest).submitted.length +
      (SubmitPoolSyncCommitteeSignatures toySubmit (fun _ => none) toyRequest).msgFailures.length
        ≠ toyRequest.length ∧
    (SubmitPoolSyncCommitteeSignatures toySubmit (fun _ => none) toyRequest).err =
      some ("Internal", "Could not submit message: unavailable") := by
  refine ⟨rfl, rfl, ?_, ?_, rfl⟩
  · decide
  · decide

/-- C24, amended. For every request, the failures recorded are at the positions,
in strictly ascending order, of exactly the messages whose block root is not
32 bytes long or whose signature is not 96 bytes long, and the other messages
and the failures together are as many as the messages of the request. The
other messages are submitted in the order of the request until a submission
fails: the messages submitted are always a prefix of them; when no submission
fails all of them are submitted, and the messages submitted and the failures
together are as many as the messages of the request; when a submission fails,
the call stops at the first one that does, submits nothing after it and
returns the error "Could not submit message". -/
theorem SubmitPoolSyncCommitteeSignatures_spec
    (S : validator.SyncCommitteeMessage → Option String)
    (A : List SingleIndexedVerificationFailure → Option String)
    (Data : List SyncCommitteeMessage) :
    ((SubmitPoolSyncCommitteeSignatures S A Data).msgFailures.map
      SingleIndexedVerificationFailure.Index).Sorted (fun a b => a < b) ∧
    (∀ i, i ∈ (SubmitPoolSyncCommitteeSignatures S A Data).msgFailures.map
        SingleIndexedVerificationFailure.Index ↔
      ∃ m, Data[i]? = some m ∧ (m.BeaconBlockRoot.length ≠ 32 ∨ m.Signature.length ≠ 96)) ∧
    ((Data.filter (fun m => decide (m.BeaconBlockRoot.length = 32 ∧
        m.Signature.length = 96))).map v1alpha1Msg).length +
      (SubmitPoolSyncCommitteeSignatures S A Data).msgFailures.length = Data.length ∧
    (SubmitPoolSyncCommitteeSignatures S A Data).submitted <+:
      (Data.filter (fun m => decide (m.BeaconBlockRoot.length = 32 ∧
        m.Signature.length = 96))).map v1alpha1Msg ∧
    ((∀ m ∈ (Data.filter (fun m => decide (m.BeaconBlockRoot.length = 32 ∧
          m.Signature.length = 96))).map v1alpha1Msg, S m = none) →
      (SubmitPoolSyncCommitteeSignatures S A Data).submitted =
        (Data.filter (fun m => decide (m.BeaconBlockRoot.length = 32 ∧
          m.Signature.length = 96))).map v1alpha1Msg ∧
      (SubmitPoolSyncCommitteeSignatures S A Data).submitted.length +
        (SubmitPoolSyncCommitteeSignatures S A Data).msgFailures.length = Data.length) ∧
    ((∃ m ∈ (Data.filter (fun m => decide (m.BeaconBlockRoot.length = 32 ∧
          m.Signature.length = 96))).map v1alpha1Msg, S m ≠ none) →
      ∃ pre m post e,
        (Data.filter (fun m => decide (m.BeaconBlockRoot.length = 32 ∧
          m.Signature.length = 96))).map v1alpha1Msg = pre ++ m :: post ∧
        (∀ x ∈ pre, S x = none) ∧ S m = some e ∧
        (SubmitPoolSyncCommitteeSignatures S A Data).submitted = pre ++ [m] ∧
        (SubmitPoolSyncCommitteeSignatures S A Data).response = false ∧
        (SubmitPoolSyncCommitteeSignatures S A Data).err =
          some ("Internal", "Could not submit message: " ++ e)) := by
  obtain ⟨hf, hs, herr⟩ := SubmitPool_fields S A Data
  have hlen := validateLoop_length Data 0 [] []
  have hfilter : (fun m : SyncCommitteeMessage => (validateSyncCommitteeMessage m).isNone) =
      (fun m => decide (m.BeaconBlockRoot.length = 32 ∧ m.Signature.length = 96)) :=
    funext validateSyncCommitteeMessage_isNone
  rw [validateLoop_eq, hfilter] at hf hs herr hlen
  simp only [List.nil_append, List.length_nil, Nat.zero_add] at hf hs herr hlen
  rw [hf, hs]
  have hidx := failures_index (Data.enumFrom 0)
  refine ⟨?_, ?_, hlen, submitLoop_prefix S _, ?_, ?_⟩
  · rw [hidx]
    have hsub : List.Sublist (((Data.enumFrom 0).filter
        (fun p => (validateSyncCommitteeMessage p.2).isSome)).map Prod.fst)
        ((Data.enumFrom 0).map Prod.fst) := (List.filter_sublist _).map _
    have hrange : (Data.enumFrom 0).map Prod.fst = List.range Data.length :=
      List.enum_map_fst Data
    rw [hrange] at hsub
    exact (List.sorted_lt_range Data.length).sublist hsub
  · intro i
    rw [hidx]
    simp only [List.mem_map, List.mem_filter, Prod.exists, exists_and_right, exists_eq_right]
    constructor
    · rintro ⟨m, hm, hv⟩
      exact ⟨m, List.mk_mem_enum_iff_getElem?.1 hm,
        (validateSyncCommitteeMessage_isSome m).1 hv⟩
    · rintro ⟨m, hm, hv⟩
      exact ⟨m, List.mk_mem_enum_iff_getElem?.2 hm,
        (validateSyncCommitteeMessage_isSome m).2 hv⟩
  · intro hall
    rw [submitLoop_all S _ hall]
    exact ⟨rfl, hlen⟩
  · intro hex
    obtain ⟨pre, m, post, e, hl, hpre, hm, hsub⟩ := submitLoop_stop S _ hex
    obtain ⟨h1, h2, -⟩ := herr e (by rw [hsub])
    exact ⟨pre, m, post, e, hl, hpre, hm, by rw [hsub], h1, h2⟩

/-- C24, amended, on the example requests: with submissions that never fail the
one valid message of `toyRequest2` is submitted and counts with the two
failures for the three messages; with the failing submission of `toySubmit`
the call on `toyRequest` stops at the first valid message. -/
theorem SubmitPoolSyncCommitteeSignatures_spec_witness :
    ((∀ m ∈ (toyRequest2.filter (fun m => decide (m.BeaconBlockRoot.length = 32 ∧
          m.Signature.length = 96))).map v1alpha1Msg,
        (fun _ : validator.SyncCommitteeMessage => (none : Option String)) m = none) ∧
      (∃ m ∈ (toyRequest.filter (fun m => decide (m.BeaconBlockRoot.length = 32 ∧
          m.Signature.length = 96))).map v1alpha1Msg, toySubmit m ≠ none)) ∧
    ((SubmitPoolSyncCommitteeSignatures (fun _ => none) (fun _ => none) toyRequest2).submitted =
        (toyRequest2.filter (fun m => decide (m.BeaconBlockRoot.length = 32 ∧
          m.Signature.length = 96))).map v1alpha1Msg ∧
      (SubmitPoolSyncCommitteeSignatures (fun _ => none) (fun _ => none)
          toyRequest2).submitted.length +
        (SubmitPoolSyncCommitteeSignatures (fun _ => none) (fun _ => none)
          toyRequest2).msgFailures.length = toyRequest2.length) ∧
    (∃ pre m post e,
      (toyRequest.filter (fun m => decide (m.BeaconBlockRoot.length = 32 ∧
        m.Signature.length = 96))).map v1alpha1Msg = pre ++ m :: post ∧
      (∀ x ∈ pre, toySubmit x = none) ∧ toySubmit m = some e ∧
      (SubmitPoolSyncCommitteeSignatures toySubmit (fun _ => none) toyRequest).submitted =
        pre ++ [m] ∧
      (SubmitPoolSyncCommitteeSignatures toySubmit (fun _ => none) toyRequest).response =
        false ∧
      (SubmitPoolSyncCommitteeSignatures toySubmit (fun _ => none) toyRequest).err =
        some ("Internal", "Could not submit message: " ++ e)) :=
  ⟨⟨fun _ _ => rfl, ⟨v1alpha1Msg (goodMsg 1), by decide, by decide⟩⟩,
   (SubmitPoolSyncCommitteeSignatures_spec (fun _ => none) (fun _ => none)
      toyRequest2).2.2.2.2.1 (fun _ _ => rfl),
   (SubmitPoolSyncCommitteeSignatures_spec toySubmit (fun _ => none)
      toyRequest).2.2.2.2.2 ⟨v1alpha1Msg (goodMsg 1), by decide, by decide⟩⟩

/-- The call on `toyRequest2` with submissions that never fail: the valid
message is submitted, the failures at positions 0 and 2 are recorded and
handed to the error header, and the error is "InvalidArgument". -/
theorem SubmitPoolSyncCommitteeSignatures_examples :
    SubmitPoolSyncCommitteeSignatures (fun _ => none) (fun _ => none) toyRequest2 =
      { response := false
        err := some ("InvalidArgument", "One or more messages failed validation")
        submitted := [v1alpha1Msg (goodMsg 2)]
        msgFailures := [{ Index := 0, Message := "invalid signature length" },
                        { Index := 2, Message := "invalid block root length" }]
        header := some [{ Index := 0, Message := "invalid signature length" },
                        { Index := 2, Message := "invalid block root length" }] } ∧
    SubmitPoolSyncCommitteeSignatures (fun _ => none) (fun _ => none) [goodMsg 1, goodMsg 2] =
      { response := true
        err := none
        submitted := [v1alpha1Msg (goodMsg 1), v1alpha1Msg (goodMsg 2)]
        msgFailures := []
        header := none } :=
  ⟨rfl, rfl⟩

end beacon
